import Mathlib

/-!
# ssh-test: the suspendable-computation primitives and the execution context

A shallow embedding of the value-producing Result Computation (`async<T>` and
its promise), of the non-blocking mutex (`async_mutex`) and of the asynchronous
generator of `include/ssh/async.h`, of the execution context (`context.cpp`)
with its reactor event (`event.h`), and of the handle of `handle.h`, followed by
the properties established about them.

Conventions of the embedding:

* pointers are natural numbers, `0` is `nullptr`; a `coroutine_handle` that may
  be null is an `Option Nat` holding the frame address;
* atomic read-modify-write operations are single steps on the state;
* effects that leave the promise (resuming a continuation, constructing,
  reading or destroying the value slot, destroying a frame, `std::terminate`)
  are recorded, in order, in an event log;
* the value slot `m_valueStorage` is an `Option T`: `none` is raw storage in
  which no object has been constructed;
* `std::exception_ptr` is an `Option E`: `none` is the null pointer.
-/

namespace ssh

/-! ## Data model -/

namespace detail

/-- The class `detail::continuation`: a callback pointer and a state pointer. -/
structure continuation where
  m_callback : Nat := 0
  m_state : Nat := 0
deriving DecidableEq, Repr

/-- The enumeration `async_promise_base::state`. -/
inductive state where
  | running
  | consumer_suspended
  | consumer_detached
  | finished
deriving DecidableEq, Repr

/-- Effects observable outside the promise, in the order they happen. -/
inductive event where
  /-- The call `coroutine_handle<>::from_address(m_state).resume()`. -/
  | resume_coroutine (address : Nat)
  /-- The call `m_callback(m_state)`. -/
  | invoke_callback (callback : Nat) (context : Nat)
  /-- Placement-new of a `T` in the value slot of the frame. -/
  | construct_value (frame : Nat)
  /-- A read of the value slot of the frame through `result()`. -/
  | read_value (frame : Nat)
  /-- A run of `~T()` on the value slot; the flag tells whether an object had been constructed. -/
  | destroy_value (frame : Nat) (constructed : Bool)
  /-- The coroutine frame is destroyed (promise destructor has run, memory released). -/
  | destroy_frame (frame : Nat)
  /-- The call `std::terminate()`. -/
  | terminate
deriving DecidableEq, Repr

/-- Whether the effect is the resumption of some continuation. -/
def event.is_resumption : event → Bool
  | event.resume_coroutine _ => true
  | event.invoke_callback _ _ => true
  | _ => false

/-- The method `continuation::operator bool`. -/
def continuation.toBool (c : continuation) : Bool :=
  c.m_callback != 0 || c.m_state != 0

/-- The method `continuation::resume`: the effect it has. -/
def continuation.resume (c : continuation) : event :=
  if c.m_callback == 0 then event.resume_coroutine c.m_state
  else event.invoke_callback c.m_callback c.m_state

/-- The data members of `async_promise_base` together with the value slot of `async_promise<T>`. -/
structure async_promise (T E : Type) where
  m_state : state := state.running
  m_continuation : continuation := {}
  m_exception : Option E := none
  m_valueStorage : Option T := none

/-- What `await_resume` can throw: `broken_promise`, or the stored exception rethrown. -/
inductive thrown (E : Type) where
  | broken_promise
  | rethrown (e : E)
deriving DecidableEq, Repr

variable {T E : Type}

/-! ## `async_promise_base` -/

/-- The method `final_suspend()::awaitable::await_ready`. -/
def final_suspend_await_ready (p : async_promise T E) : Bool :=
  p.m_state == state.consumer_detached

/-- The method `final_suspend()::awaitable::await_suspend`: the exchange to `finished`,
the conditional resumption, and the returned flag. -/
def final_suspend_await_suspend (p : async_promise T E) :
    Bool × async_promise T E × List event :=
  let oldState := p.m_state
  let p1 := { p with m_state := state.finished }
  let resumed := if oldState == state.consumer_suspended then [p1.m_continuation.resume] else []
  (oldState != state.consumer_detached, p1, resumed)

/-- The method `async_promise_base::unhandled_exception`, `e` being `std::current_exception()`. -/
def unhandled_exception (p : async_promise T E) (e : E) : async_promise T E :=
  if p.m_state != state.consumer_detached then { p with m_exception := some e } else p

/-- The method `async_promise_base::is_ready`. -/
def is_ready (p : async_promise T E) : Bool :=
  p.m_state == state.finished

/-- The method `async_promise_base::try_detach`: an unconditional exchange. -/
def try_detach (p : async_promise T E) : Bool × async_promise T E :=
  (p.m_state == state.running, { p with m_state := state.consumer_detached })

/-- The method `async_promise_base::try_await`: the continuation is stored first, then the
compare-exchange from `running` to `consumer_suspended` is attempted. -/
def try_await (p : async_promise T E) (c : continuation) : Bool × async_promise T E :=
  let p1 := { p with m_continuation := c }
  if p1.m_state == state.running then (true, { p1 with m_state := state.consumer_suspended })
  else (false, p1)

/-- The method `async_promise_base::completed_with_unhandled_exception`. -/
def completed_with_unhandled_exception (p : async_promise T E) : Bool :=
  p.m_exception.isSome

/-! ## `async_promise<T>` -/

/-- The method `async_promise<T>::return_value`: placement-new in the value slot. -/
def return_value (frame : Nat) (p : async_promise T E) (v : T) :
    async_promise T E × List event :=
  ({ p with m_valueStorage := some v }, [event.construct_value frame])

/-- The method `async_promise<T>::result`: rethrow the stored exception if there is one,
otherwise read the value slot (`none` is a read of a slot holding no object). -/
def result (frame : Nat) (p : async_promise T E) : Except (thrown E) (Option T) × List event :=
  match p.m_exception with
  | some e => (Except.error (thrown.rethrown e), [])
  | none => (Except.ok p.m_valueStorage, [event.read_value frame])

/-- The destructor `async_promise<T>::~async_promise`. -/
def promise_destructor (frame : Nat) (p : async_promise T E) : List event :=
  if !completed_with_unhandled_exception p then
    [event.destroy_value frame p.m_valueStorage.isSome]
  else []

end detail

open detail

/-! ## The world: frames, handle objects, event log -/

/-- Everything the handle-level operations act on. -/
structure world (T E : Type) where
  /-- The promise of the coroutine frame at each address. -/
  promise : Nat → async_promise T E
  /-- The member `m_coroutine` of the `async<T>` object at each address. -/
  handle : Nat → Option Nat
  /-- Effects so far, oldest first. -/
  log : List event := []

variable {T E : Type}

/-- Pointwise update of a map from addresses. -/
def upd {α : Type} (f : Nat → α) (a : Nat) (v : α) : Nat → α :=
  fun x => if x = a then v else f x

/-- Replace the promise of one frame. -/
def world.set_promise (w : world T E) (frame : Nat) (p : async_promise T E) : world T E :=
  { w with promise := upd w.promise frame p }

/-- Replace `m_coroutine` of one handle object. -/
def world.set_handle (w : world T E) (h : Nat) (c : Option Nat) : world T E :=
  { w with handle := upd w.handle h c }

/-- Append effects to the log. -/
def world.emit (w : world T E) (es : List event) : world T E :=
  { w with log := w.log ++ es }

/-- Whether `std::terminate` has been called. -/
def world.terminated (w : world T E) : Bool :=
  w.log.contains event.terminate

/-- Number of times the frame has been destroyed. -/
def world.frame_destroyed (w : world T E) (frame : Nat) : Nat :=
  w.log.count (event.destroy_frame frame)

/-- Number of resumptions of the continuation `c`. -/
def world.resumed (w : world T E) (c : continuation) : Nat :=
  w.log.count c.resume

/-- The call `coroutine_handle::destroy()`, and equally the end of a coroutine that was not
suspended at its final suspend point: the promise destructor runs, then the frame is released. -/
def coroutine_destroy (frame : Nat) (w : world T E) : world T E :=
  w.emit (promise_destructor frame (w.promise frame) ++ [event.destroy_frame frame])

/-! ## The producer side: the body of the coroutine ending -/

/-- The statement `co_return v`: `return_value(v)`. -/
def co_return (frame : Nat) (v : T) (w : world T E) : world T E :=
  let r := return_value frame (w.promise frame) v
  (w.set_promise frame r.1).emit r.2

/-- An exception `e` escaping the body: `unhandled_exception()`. -/
def body_throws (frame : Nat) (e : E) (w : world T E) : world T E :=
  w.set_promise frame (unhandled_exception (w.promise frame) e)

/-- The expression `co_await final_suspend()` and what follows it.  The flag tells whether
the coroutine stays suspended at its final suspend point; when it does not, control flows
off the end of the coroutine and the frame is destroyed. -/
def final_suspend (frame : Nat) (w : world T E) : Bool × world T E :=
  if final_suspend_await_ready (w.promise frame) then
    (false, coroutine_destroy frame w)
  else
    let r := final_suspend_await_suspend (w.promise frame)
    let w1 := (w.set_promise frame r.2.1).emit r.2.2
    if r.1 then (true, w1) else (false, coroutine_destroy frame w1)

/-! ## The class `async<T>` -/

namespace async

/-- The method `awaitable_base::await_ready`; the awaitable holds a copy of `m_coroutine`. -/
def await_ready (m_coroutine : Option Nat) (w : world T E) : Bool :=
  match m_coroutine with
  | none => true
  | some frame => is_ready (w.promise frame)

/-- The method `awaitable_base::await_suspend`.  It is only reached when `await_ready`
returned false; on a null handle the source dereferences it, here the world is left alone. -/
def await_suspend (m_coroutine : Option Nat) (awaiter : Nat) (w : world T E) :
    Bool × world T E :=
  match m_coroutine with
  | none => (false, w)
  | some frame =>
    let r := try_await (w.promise frame) { m_state := awaiter }
    (r.1, w.set_promise frame r.2)

/-- The method `await_resume` of the awaitable returned by `operator co_await`. -/
def await_resume (m_coroutine : Option Nat) (w : world T E) :
    Except (thrown E) (Option T) × world T E :=
  match m_coroutine with
  | none => (Except.error thrown.broken_promise, w)
  | some frame =>
    let r := result frame (w.promise frame)
    (r.1, w.emit r.2)

/-- The method `await_resume` of the awaitable returned by `when_ready`. -/
def when_ready_await_resume (_m_coroutine : Option Nat) (w : world T E) : Unit × world T E :=
  ((), w)

/-- The default constructor `async::async()`: a null `m_coroutine`. -/
def default_construct (self : Nat) (w : world T E) : world T E :=
  w.set_handle self none

/-- The method `async::operator co_await`: the awaitable receives a copy of `m_coroutine`. -/
def operator_co_await (self : Nat) (w : world T E) : Option Nat :=
  w.handle self

/-- The method `async::when_ready`: the awaitable receives a copy of `m_coroutine`. -/
def when_ready (self : Nat) (w : world T E) : Option Nat :=
  w.handle self

/-- The method `async::get_starter`: the starter receives a copy of `m_coroutine`. -/
def get_starter (self : Nat) (w : world T E) : Option Nat :=
  w.handle self

/-- The method `async::is_ready`. -/
def is_ready (self : Nat) (w : world T E) : Bool :=
  match w.handle self with
  | none => true
  | some frame => detail.is_ready (w.promise frame)

/-- The method `async::detach`. -/
def detach (self : Nat) (w : world T E) : world T E :=
  match w.handle self with
  | none => w
  | some coro =>
    let w1 := w.set_handle self none
    let r := try_detach (w1.promise coro)
    let w2 := w1.set_promise coro r.2
    if !r.1 then coroutine_destroy coro w2 else w2

/-- The method `async::destroy`.  After `std::terminate` nothing else runs. -/
def destroy (self : Nat) (w : world T E) : world T E :=
  match w.handle self with
  | none => w
  | some frame =>
    if !detail.is_ready (w.promise frame) then w.emit [event.terminate]
    else coroutine_destroy frame w

/-- The destructor `async::~async`. -/
def destructor (self : Nat) (w : world T E) : world T E :=
  destroy self w

/-- The move assignment `async::operator=(async&&)`, `self` and `other` being the addresses
of the two handle objects. -/
def move_assign (self other : Nat) (w : world T E) : world T E :=
  if other ≠ self then
    let w1 := destroy self w
    if w1.terminated then w1
    else (w1.set_handle other none).set_handle self (w1.handle other)
  else w

/-- The move constructor `async::async(async&&)` building the handle object at `self`. -/
def move_construct (self other : Nat) (w : world T E) : world T E :=
  (w.set_handle other none).set_handle self (w.handle other)

/-- The method `starter::start`; the starter holds a copy of `m_coroutine`. -/
def start (m_coroutine : Option Nat) (c : continuation) (w : world T E) : world T E :=
  match m_coroutine with
  | none => w.emit [c.resume]
  | some frame =>
    if detail.is_ready (w.promise frame) then w.emit [c.resume]
    else
      let r := try_await (w.promise frame) c
      let w1 := w.set_promise frame r.2
      if !r.1 then w1.emit [c.resume] else w1

end async

/-! ## Executions of one Result Computation with one consumer

The producer is the coroutine body followed by its final suspend point; the consumer owns the
handle object and uses it sequentially: it may await it, detach it, or destroy it.  The two
sides interleave at the granularity of the atomic operations of the source. -/

/-- Where the producer coroutine stands. -/
inductive producer_pc where
  /-- The body is running (or suspended inside the body). -/
  | body
  /-- The body has ended by `co_return` or by an escaping exception. -/
  | completed
  /-- The `await_ready` of the final suspend point has returned false. -/
  | final_checked
  /-- The coroutine is suspended at its final suspend point. -/
  | suspended_final
  /-- The frame has been destroyed. -/
  | ended
deriving DecidableEq, Repr

/-- Where the consumer stands; an awaitable carries its copy of `m_coroutine`. -/
inductive consumer_pc where
  /-- Between operations on the handle. -/
  | idle
  /-- In a `co_await`, `await_ready` has returned false. -/
  | ready_false (m_coroutine : Option Nat)
  /-- In a `co_await`, `await_suspend` has returned true. -/
  | suspended (m_coroutine : Option Nat)
  /-- In a `co_await`, about to run `await_resume`. -/
  | resumed (m_coroutine : Option Nat)
  /-- The handle object has been destroyed. -/
  | gone
deriving DecidableEq, Repr

/-- The atomic steps of the two sides. -/
inductive action (T E : Type) where
  | body_returns (v : T)
  | body_throws (e : E)
  | final_await_ready
  | final_await_suspend
  | co_await_ready
  | co_await_suspend (awaiter : Nat)
  | co_await_resume
  | detach
  | destruct

/-- A point of an execution.  The flag `detached_early` records that `detach()` ran and its
`try_detach` returned true, that is, the consumer detached before the computation completed. -/
structure config (T E : Type) where
  w : world T E
  producer : producer_pc := producer_pc.body
  consumer : consumer_pc := consumer_pc.idle
  detached_early : Bool := false

/-- One step; a step that is not enabled leaves the configuration unchanged, and nothing runs
after `std::terminate`. -/
def step (frame self : Nat) (a : action T E) (s : config T E) : config T E :=
  if s.w.terminated then s else
  match a with
  | action.body_returns v =>
    match s.producer with
    | producer_pc.body =>
      { s with w := co_return frame v s.w, producer := producer_pc.completed }
    | _ => s
  | action.body_throws e =>
    match s.producer with
    | producer_pc.body =>
      { s with w := body_throws frame e s.w, producer := producer_pc.completed }
    | _ => s
  | action.final_await_ready =>
    match s.producer with
    | producer_pc.completed =>
      if final_suspend_await_ready (s.w.promise frame) then
        { s with w := coroutine_destroy frame s.w, producer := producer_pc.ended }
      else { s with producer := producer_pc.final_checked }
    | _ => s
  | action.final_await_suspend =>
    match s.producer with
    | producer_pc.final_checked =>
      let r := final_suspend_await_suspend (s.w.promise frame)
      let w1 := (s.w.set_promise frame r.2.1).emit r.2.2
      let consumer :=
        match s.consumer with
        | consumer_pc.suspended m => if r.2.2.isEmpty then consumer_pc.suspended m
                                     else consumer_pc.resumed m
        | c => c
      if r.1 then { s with w := w1, producer := producer_pc.suspended_final, consumer := consumer }
      else { s with w := coroutine_destroy frame w1, producer := producer_pc.ended,
                    consumer := consumer }
    | _ => s
  | action.co_await_ready =>
    match s.consumer with
    | consumer_pc.idle =>
      let m := async.operator_co_await self s.w
      if async.await_ready m s.w then { s with consumer := consumer_pc.resumed m }
      else { s with consumer := consumer_pc.ready_false m }
    | _ => s
  | action.co_await_suspend awaiter =>
    match s.consumer with
    | consumer_pc.ready_false m =>
      let r := async.await_suspend m awaiter s.w
      if r.1 then { s with w := r.2, consumer := consumer_pc.suspended m }
      else { s with w := r.2, consumer := consumer_pc.resumed m }
    | _ => s
  | action.co_await_resume =>
    match s.consumer with
    | consumer_pc.resumed m =>
      { s with w := (async.await_resume m s.w).2, consumer := consumer_pc.idle }
    | _ => s
  | action.detach =>
    match s.consumer with
    | consumer_pc.idle =>
      match s.w.handle self with
      | none => { s with w := async.detach self s.w }
      | some coro =>
        if (try_detach (s.w.promise coro)).1 then
          { s with w := async.detach self s.w, detached_early := true }
        else { s with w := async.detach self s.w, producer := producer_pc.ended }
    | _ => s
  | action.destruct =>
    match s.consumer with
    | consumer_pc.idle =>
      match s.w.handle self with
      | none => { s with w := async.destructor self s.w, consumer := consumer_pc.gone }
      | some coro =>
        if detail.is_ready (s.w.promise coro) then
          { s with w := async.destructor self s.w, consumer := consumer_pc.gone,
                   producer := producer_pc.ended }
        else { s with w := async.destructor self s.w, consumer := consumer_pc.gone }
    | _ => s

/-- Run a schedule of steps, first to last. -/
def run (frame self : Nat) (sched : List (action T E)) (s : config T E) : config T E :=
  sched.foldl (fun acc a => step frame self a acc) s

/-- A freshly started computation: the promise is as constructed, the handle at `self` refers
to the frame, nothing has happened yet. -/
def fresh (frame self : Nat) (w : world T E) : Prop :=
  (w.promise frame).m_state = state.running ∧ (w.promise frame).m_exception = none ∧
  (w.promise frame).m_valueStorage = none ∧ w.handle self = some frame ∧ w.log = []

/-- The configuration an execution starts from. -/
def start_config (w : world T E) : config T E :=
  { w := w }

/-- What the consumer's position says about the promise and the handle. -/
def consumer_inv (frame : Nat) (c : consumer_pc) (st : state) (h : Option Nat) : Prop :=
  match c with
  | consumer_pc.idle => h = some frame → st = state.running ∨ st = state.finished
  | consumer_pc.ready_false m =>
    m = some frame ∧ h = some frame ∧ (st = state.running ∨ st = state.finished)
  | consumer_pc.suspended m =>
    m = some frame ∧ h = some frame ∧ st = state.consumer_suspended
  | consumer_pc.resumed m =>
    (m = none ∧ h = none) ∨ (m = some frame ∧ h = some frame ∧ st = state.finished)
  | consumer_pc.gone => True

/-- What the producer's position says about the promise. -/
def producer_inv (pc : producer_pc) (st : state) : Prop :=
  match pc with
  | producer_pc.suspended_final => st = state.finished
  | producer_pc.ended => st ≠ state.running ∧ st ≠ state.consumer_suspended
  | _ => st ≠ state.finished

/-- The invariant of executions. -/
def exec_inv (frame self : Nat) (s : config T E) : Prop :=
  (s.w.handle self = none ∨ s.w.handle self = some frame) ∧
  (s.detached_early = true →
    s.w.handle self = none ∧ event.read_value frame ∉ s.w.log) ∧
  (event.read_value frame ∈ s.w.log →
    (s.w.promise frame).m_state ≠ state.running ∧
    (s.w.promise frame).m_state ≠ state.consumer_suspended) ∧
  consumer_inv frame s.consumer (s.w.promise frame).m_state (s.w.handle self) ∧
  producer_inv s.producer (s.w.promise frame).m_state

/-- The effects added between two configurations of one execution. -/
def new_events (s s1 : config T E) : List event :=
  s1.w.log.drop s.w.log.length

/-! ## The class `async_mutex`

The state word `m_state` is `not_locked`, `locked_no_waiters`, or the address of the most
recently queued `async_mutex_lock_operation`; since `locked_no_waiters` is `0`, a locked state
word is the head pointer of the list of queued operations.  The operation objects live in the
frames of the waiting coroutines and are reached through a map from addresses. -/

namespace async_mutex

/-- The constant `async_mutex::not_locked`. -/
def not_locked : Nat := 1

/-- The constant `async_mutex::locked_no_waiters`. -/
def locked_no_waiters : Nat := 0

/-- The data members of `async_mutex_lock_operation` besides the mutex reference. -/
structure lock_operation where
  m_next : Nat := 0
  m_awaiter : Nat := 0
deriving DecidableEq, Repr

/-- The data members of `async_mutex` and the lock operation objects reachable from it. -/
structure mutex where
  m_state : Nat := not_locked
  m_waiters : Nat := 0
  ops : Nat → lock_operation

/-- Why a modelled call did not return. -/
inductive failure where
  /-- An `assert` of the source does not hold. -/
  | assertion_failed
  /-- The fuel given to a loop did not suffice. -/
  | out_of_fuel
  /-- The sequence of operations breaks a condition it was assumed to meet. -/
  | invalid_sequence
deriving DecidableEq, Repr

/-- The method `async_mutex::try_lock`. -/
def try_lock (m : mutex) : Bool × mutex :=
  if m.m_state = not_locked then (true, { m with m_state := locked_no_waiters })
  else (false, m)

/-- Write the field `m_next` of the operation object at `a`. -/
def set_next (ops : Nat → lock_operation) (a next : Nat) : Nat → lock_operation :=
  upd ops a { ops a with m_next := next }

/-- Write the field `m_awaiter` of the operation object at `a`. -/
def set_awaiter (ops : Nat → lock_operation) (a awaiter : Nat) : Nat → lock_operation :=
  upd ops a { ops a with m_awaiter := awaiter }

/-- The loop of `async_mutex_lock_operation::await_suspend`.  Without interference a weak
compare-exchange can only fail spuriously; `spurious` is the number of such failures before
the one that succeeds, and after a failure `oldState` holds the value just read again. -/
def await_suspend_loop (this : Nat) : Nat → mutex → Bool × mutex
  | 0, m =>
    if m.m_state = not_locked then (false, { m with m_state := locked_no_waiters })
    else (true, { m with ops := set_next m.ops this m.m_state, m_state := this })
  | spurious + 1, m =>
    if m.m_state = not_locked then await_suspend_loop this spurious m
    else await_suspend_loop this spurious { m with ops := set_next m.ops this m.m_state }

/-- The method `async_mutex_lock_operation::await_suspend` of the operation object at `this`. -/
def await_suspend (this awaiter spurious : Nat) (m : mutex) : Bool × mutex :=
  await_suspend_loop this spurious { m with ops := set_awaiter m.ops this awaiter }

/-- The `do ... while (next != nullptr)` loop of `async_mutex::unlock`, which reverses the
list starting at `next` onto `waitersHead`; it also returns the addresses it dereferenced. -/
def reverse_loop : Nat → (Nat → lock_operation) → Nat → Nat → List Nat →
    Option ((Nat → lock_operation) × Nat × List Nat)
  | 0, _, _, _, _ => none
  | fuel + 1, ops, next, waitersHead, accessed =>
    let temp := (ops next).m_next
    let ops1 := set_next ops next waitersHead
    if temp ≠ 0 then reverse_loop fuel ops1 temp next (accessed ++ [next])
    else some (ops1, next, accessed ++ [next])

/-- What a call of `unlock` that returns has done. -/
structure unlock_result where
  /-- The mutex afterwards. -/
  m : mutex
  /-- The operation object whose awaiter was resumed, if one was. -/
  waiter : Option Nat
  /-- The coroutine resumed, if one was. -/
  resumed : Option Nat
  /-- The addresses of the operation objects dereferenced, in order. -/
  accessed : List Nat

/-- The tail of `async_mutex::unlock` after `waitersHead` is known. -/
def unlock_resume (m : mutex) (waitersHead : Nat) (accessed : List Nat) :
    Except failure unlock_result :=
  if waitersHead = 0 then Except.error failure.assertion_failed
  else Except.ok
    { m := { m with m_waiters := (m.ops waitersHead).m_next },
      waiter := some waitersHead,
      resumed := some (m.ops waitersHead).m_awaiter,
      accessed := accessed ++ [waitersHead] }

/-- The method `async_mutex::unlock`. -/
def unlock (fuel : Nat) (m : mutex) : Except failure unlock_result :=
  if m.m_state = not_locked then Except.error failure.assertion_failed
  else
    let waitersHead := m.m_waiters
    if waitersHead = 0 then
      if m.m_state = locked_no_waiters then
        Except.ok { m := { m with m_state := not_locked }, waiter := none, resumed := none,
                    accessed := [] }
      else
        let oldState := m.m_state
        let m1 := { m with m_state := locked_no_waiters }
        if oldState = locked_no_waiters ∨ oldState = not_locked then
          Except.error failure.assertion_failed
        else
          match reverse_loop fuel m1.ops oldState waitersHead [] with
          | none => Except.error failure.out_of_fuel
          | some (ops1, head, accessed) => unlock_resume { m1 with ops := ops1 } head accessed
    else unlock_resume m waitersHead []

/-! ### Sequences of operations by contending callers -/

/-- One operation on the mutex.  A caller is named by the address of its coroutine; a `lock`
is the `co_await` of a lock operation object at address `this`. -/
inductive op where
  | try_lock (caller : Nat)
  | lock (caller : Nat) (this : Nat) (spurious : Nat)
  | unlock (caller : Nat)
deriving DecidableEq, Repr

/-- The mutex together with the bookkeeping read off the values the calls return. -/
structure system where
  m : mutex
  /-- The callers holding the lock: granted and not yet released. -/
  holders : List Nat := []
  /-- The suspended lock attempts, oldest first: caller and operation object. -/
  waiting : List (Nat × Nat) := []
  /-- The callers whose `lock` has been granted, in order (immediately or by resumption). -/
  granted : List Nat := []

/-- One operation.  It is an invalid sequence for `unlock` to be called by a caller that does
not hold the lock, and for a `lock` to use an operation object whose address is null, is not
a pointer to an object (`1`), or is that of an attempt still suspended. -/
def apply_op (fuel : Nat) (o : op) (s : system) : Except failure system :=
  match o with
  | op.try_lock caller =>
    let r := try_lock s.m
    if r.1 then Except.ok { s with m := r.2, holders := caller :: s.holders }
    else Except.ok { s with m := r.2 }
  | op.lock caller this spurious =>
    if this = 0 ∨ this = 1 ∨ this ∈ s.waiting.map Prod.snd then
      Except.error failure.invalid_sequence
    else
      let r := await_suspend this caller spurious s.m
      if r.1 then Except.ok { s with m := r.2, waiting := s.waiting ++ [(caller, this)] }
      else Except.ok { s with m := r.2, holders := caller :: s.holders,
                              granted := s.granted ++ [caller] }
  | op.unlock caller =>
    if caller ∈ s.holders then
      match unlock fuel s.m with
      | Except.error e => Except.error e
      | Except.ok r =>
        match r.waiter, r.resumed with
        | some waiter, some awaiter =>
          Except.ok { s with m := r.m, holders := awaiter :: s.holders.erase caller,
                             waiting := s.waiting.filter (fun p => p.2 ≠ waiter),
                             granted := s.granted ++ [awaiter] }
        | _, _ => Except.ok { s with m := r.m, holders := s.holders.erase caller }
    else Except.error failure.invalid_sequence

/-- Run a sequence of operations, first to last. -/
def run_ops (fuel : Nat) : List op → system → Except failure system
  | [], s => Except.ok s
  | o :: rest, s =>
    match apply_op fuel o s with
    | Except.error e => Except.error e
    | Except.ok s1 => run_ops fuel rest s1

/-- A newly constructed mutex, whatever the memory around it holds. -/
def initial (ops : Nat → lock_operation) : system :=
  { m := { ops := ops } }

/-- Number of `lock` operations by `caller` in a sequence. -/
def attempts (caller : Nat) : List op → Nat
  | [] => 0
  | op.lock c _ _ :: rest => (if c = caller then 1 else 0) + attempts caller rest
  | _ :: rest => attempts caller rest

/-- The list `xs` of operation objects is linked through `m_next` from `head` to null. -/
def is_list (ops : Nat → lock_operation) : Nat → List Nat → Prop
  | head, [] => head = 0
  | head, x :: xs => head = x ∧ x ≠ 0 ∧ is_list ops (ops x).m_next xs

/-- The invariant of the mutex: unlocked with nobody holding or waiting, or held by exactly
one caller with the suspended attempts, oldest first, being the cached list followed by the
reversed list of the state word. -/
def invariant (s : system) : Prop :=
  (s.m.m_state = not_locked ∧ s.holders = [] ∧ s.waiting = [] ∧ s.m.m_waiters = 0) ∨
  (s.m.m_state ≠ not_locked ∧ s.holders.length = 1 ∧
    ∃ cache queued : List Nat,
      is_list s.m.ops s.m.m_waiters cache ∧ is_list s.m.ops s.m.m_state queued ∧
      (cache ++ queued).Nodup ∧ (∀ x ∈ cache ++ queued, x ≠ 1) ∧
      s.waiting.map Prod.snd = cache ++ queued.reverse ∧
      ∀ p ∈ s.waiting, (s.m.ops p.2).m_awaiter = p.1)

/-- The method `async_mutex_lock_operation::await_resume`: the resumed waiter does nothing
to the mutex. -/
def await_resume (m : mutex) : mutex :=
  m

/-- Call `unlock` a number of times in a row; the result lists, in order, the operation
object and the coroutine resumed by each call that resumed one. -/
def unlock_repeat (fuel : Nat) : Nat → mutex → Except failure (mutex × List (Nat × Nat))
  | 0, m => Except.ok (m, [])
  | k + 1, m =>
    match unlock fuel m with
    | Except.error e => Except.error e
    | Except.ok r =>
      match unlock_repeat fuel k r.m with
      | Except.error e => Except.error e
      | Except.ok (m2, served) =>
        match r.waiter, r.resumed with
        | some waiter, some awaiter => Except.ok (m2, (waiter, awaiter) :: served)
        | _, _ => Except.ok (m2, served)

end async_mutex

/-! ## The class `context`: the packed state word

The member `state_` is a `std::atomic_uint32_t`: bit 0 is the stop flag and the remaining bits
count the threads inside `run`.  What `interrupt()` does to the operating system is recorded
as the number of wakes posted. -/

/-- The constant `stop_requested_flag`. -/
def stop_requested_flag : Nat := 1

/-- The constant `thread_count_increment`. -/
def thread_count_increment : Nat := 2

/-- The member `state_` of `context` and the wakes posted so far. -/
structure context where
  state_ : Nat := 0
  wakes : Nat := 0
deriving DecidableEq, Repr

/-- The method `context::interrupt`: one wake is posted to the reactor. -/
def context.interrupt (c : context) : context :=
  { c with wakes := c.wakes + 1 }

/-- The method `context::stop`. -/
def context.stop (c : context) : Bool × context :=
  let state := c.state_
  let c1 := { c with state_ := (state ||| stop_requested_flag) % 2 ^ 32 }
  let stop_requested := state &&& stop_requested_flag
  let thread_count := state / thread_count_increment
  let c2 := if stop_requested = 0 ∧ thread_count > 0 then c1.interrupt else c1
  (thread_count == 0, c2)

/-! ## The asynchronous generator

The producer coroutine and the consumer hand control to each other by calling `resume()` on
one another from inside the library functions.  A function that makes such a call is given in
two parts, the part up to the call and the part after it returns; the function itself takes
what the resumed side does until it hands control back as an argument.  A word loaded before
a compare-exchange travels with the operation (`m_initialState`), apart from the promise, so a
change made by the other side in between is covered. -/

namespace async_generator

/-- The enumeration `async_generator_promise_base::state`. -/
inductive state where
  | value_not_ready_consumer_active
  | value_not_ready_consumer_suspended
  | value_ready_producer_active
  | value_ready_producer_suspended
  | cancelled
deriving DecidableEq, Repr

/-- Effects of the library functions on the two coroutines, in the order they happen. -/
inductive effect where
  /-- The call `producerCoroutine.resume()`. -/
  | resume_producer
  /-- The call `m_consumerCoroutine.resume()`. -/
  | resume_consumer (coroutine : Nat)
  /-- The call `destroy()` on the producer coroutine. -/
  | destroy_producer
deriving DecidableEq, Repr

/-- Why a modelled call did not return. -/
inductive failure where
  /-- An `assert` of the source does not hold. -/
  | assertion_failed
  /-- A null coroutine handle is dereferenced. -/
  | null_handle
deriving DecidableEq, Repr

/-- The data members of `async_generator_promise_base`; `m_currentValue` is the address of
the value being yielded, `0` for null. -/
structure promise (E : Type) where
  m_state : state := state.value_ready_producer_suspended
  m_consumerCoroutine : Nat := 0
  m_exception : Option E := none
  m_currentValue : Nat := 0

/-- The promise of the producer frame together with the effects so far. -/
structure frame (E : Type) where
  promise : promise E := {}
  log : List effect := []

variable {E T : Type}

/-- Store to `m_state`. -/
def frame.store (f : frame E) (s : state) : frame E :=
  { f with promise := { f.promise with m_state := s } }

/-- Append an effect. -/
def frame.emit (f : frame E) (e : effect) : frame E :=
  { f with log := f.log ++ [e] }

/-- The method `initial_suspend`: `suspend_always`, the producer is created suspended. -/
def initial_suspend_suspends : Bool := true

/-- The method `async_generator_promise_base::unhandled_exception`. -/
def unhandled_exception (p : promise E) (e : E) : promise E :=
  if p.m_state ≠ state.cancelled then { p with m_exception := some e } else p

/-- The method `async_generator_promise_base::finished`. -/
def finished (p : promise E) : Bool :=
  p.m_currentValue == 0

/-- The method `async_generator_promise_base::rethrow_if_unhandled_exception`.  The stored
pointer is moved into the call of `std::rethrow_exception`; `moved_from` is what a moved-from
`std::exception_ptr` holds. -/
def rethrow_if_unhandled_exception (moved_from : Option E) (p : promise E) :
    Except E Unit × promise E :=
  match p.m_exception with
  | some e => (Except.error e, { p with m_exception := moved_from })
  | none => (Except.ok (), p)

/-- The method `async_generator_promise_base::request_cancellation`. -/
def request_cancellation (p : promise E) : Except failure (Bool × promise E) :=
  let previousState := p.m_state
  let p1 := { p with m_state := state.cancelled }
  if previousState = state.value_not_ready_consumer_suspended then
    Except.error failure.assertion_failed
  else if previousState = state.cancelled then Except.error failure.assertion_failed
  else Except.ok (previousState == state.value_ready_producer_suspended, p1)

/-! ### The producer side: `co_yield` and the final suspend point -/

/-- The class `async_generator_yield_operation`, without its reference to the promise. -/
structure yield_operation where
  m_initialState : state
deriving DecidableEq, Repr

/-- The method `internal_yield_value` up to its call of `m_consumerCoroutine.resume()`:
`some s` when it returns without that call, with `s` the state for the operation; `none` when
the call is reached. -/
def internal_yield_value_begin (f : frame E) : Except failure (Option state × frame E) :=
  let currentState := f.promise.m_state
  if currentState = state.value_ready_producer_active then Except.error failure.assertion_failed
  else if currentState = state.value_ready_producer_suspended then
    Except.error failure.assertion_failed
  else if currentState = state.value_not_ready_consumer_suspended then
    Except.ok (none, (f.store state.value_ready_producer_active).emit
      (effect.resume_consumer f.promise.m_consumerCoroutine))
  else Except.ok (some currentState, f)

/-- The method `internal_yield_value` after `m_consumerCoroutine.resume()` has returned. -/
def internal_yield_value_end (f : frame E) : state :=
  f.promise.m_state

/-- The method `async_generator_promise_base::internal_yield_value`. -/
def internal_yield_value (consumer_runs : frame E → frame E) (f : frame E) :
    Except failure (yield_operation × frame E) :=
  match internal_yield_value_begin f with
  | Except.error e => Except.error e
  | Except.ok (some s, f1) => Except.ok ({ m_initialState := s }, f1)
  | Except.ok (none, f1) =>
    Except.ok ({ m_initialState := internal_yield_value_end (consumer_runs f1) },
      consumer_runs f1)

/-- The first statement of `yield_value`: the address of the value is stored. -/
def store_value (f : frame E) (address : Nat) : frame E :=
  { f with promise := { f.promise with m_currentValue := address } }

/-- The method `async_generator_promise::yield_value`. -/
def yield_value (consumer_runs : frame E → frame E) (address : Nat) (f : frame E) :
    Except failure (yield_operation × frame E) :=
  internal_yield_value consumer_runs (store_value f address)

/-- The method `async_generator_promise_base::final_suspend`. -/
def final_suspend (consumer_runs : frame E → frame E) (f : frame E) :
    Except failure (yield_operation × frame E) :=
  internal_yield_value consumer_runs (store_value f 0)

/-- The method `async_generator_promise::value`, `memory` giving the object at an address. -/
def value (memory : Nat → T) (p : promise E) : T :=
  memory p.m_currentValue

/-- The method `async_generator_yield_operation::await_ready`. -/
def yield_operation.await_ready (op : yield_operation) : Bool :=
  op.m_initialState == state.value_not_ready_consumer_suspended

/-- The end of `async_generator_yield_operation::await_await_suspend`: the assertion that the
state is `cancelled`, and the destruction of the producer. -/
def yield_await_suspend_destroy (currentState : state) (f : frame E) :
    Except failure (Option Bool × frame E) :=
  if currentState = state.cancelled then Except.ok (some true, f.emit effect.destroy_producer)
  else Except.error failure.assertion_failed

/-- The second `if` of `async_generator_yield_operation::await_suspend` and what follows. -/
def yield_await_suspend_tail (currentState : state) (f : frame E) :
    Except failure (Option Bool × frame E) :=
  if currentState = state.value_ready_producer_active then
    if f.promise.m_state = state.value_ready_producer_active then
      Except.ok (some true, f.store state.value_ready_producer_suspended)
    else if f.promise.m_state = state.value_not_ready_consumer_suspended then
      Except.ok (some false, f)
    else yield_await_suspend_destroy f.promise.m_state f
  else yield_await_suspend_destroy currentState f

/-- The method `async_generator_yield_operation::await_suspend` up to its call of
`m_consumerCoroutine.resume()`: `some b` when it returns `b` without that call, `none` when
the call is reached. -/
def yield_await_suspend_begin (op : yield_operation) (f : frame E) :
    Except failure (Option Bool × frame E) :=
  if op.m_initialState = state.value_not_ready_consumer_active then
    if f.promise.m_state = state.value_not_ready_consumer_active then
      Except.ok (some true, f.store state.value_ready_producer_suspended)
    else if f.promise.m_state = state.value_not_ready_consumer_suspended then
      Except.ok (none, (f.store state.value_ready_producer_active).emit
        (effect.resume_consumer f.promise.m_consumerCoroutine))
    else yield_await_suspend_tail f.promise.m_state f
  else yield_await_suspend_tail op.m_initialState f

/-- The method `async_generator_yield_operation::await_suspend` after
`m_consumerCoroutine.resume()` has returned. -/
def yield_await_suspend_end (f : frame E) : Except failure (Option Bool × frame E) :=
  if f.promise.m_state = state.value_not_ready_consumer_suspended then Except.ok (some false, f)
  else yield_await_suspend_tail f.promise.m_state f

/-- The method `async_generator_yield_operation::await_suspend`. -/
def yield_operation.await_suspend (consumer_runs : frame E → frame E) (op : yield_operation)
    (f : frame E) : Except failure (Option Bool × frame E) :=
  match yield_await_suspend_begin op f with
  | Except.error e => Except.error e
  | Except.ok (some b, f1) => Except.ok (some b, f1)
  | Except.ok (none, f1) => yield_await_suspend_end (consumer_runs f1)

/-! ### The consumer side: `begin()` and `operator++` -/

/-- The class `async_generator_advance_operation`, without its pointers. -/
structure advance_operation where
  m_initialState : state
deriving DecidableEq, Repr

/-- The constructor of `async_generator_advance_operation` up to its call of
`producerCoroutine.resume()`: `some s` when no call is made, `none` when it is reached. -/
def advance_begin (f : frame E) : Option state × frame E :=
  let initialState := f.promise.m_state
  if initialState = state.value_ready_producer_suspended then
    (none, (f.store state.value_not_ready_consumer_active).emit effect.resume_producer)
  else (some initialState, f)

/-- The constructor of `async_generator_advance_operation` after `producerCoroutine.resume()`
has returned. -/
def advance_end (f : frame E) : state :=
  f.promise.m_state

/-- The constructor of `async_generator_advance_operation`. -/
def advance (producer_runs : frame E → frame E) (f : frame E) : advance_operation × frame E :=
  match advance_begin f with
  | (some s, f1) => ({ m_initialState := s }, f1)
  | (none, f1) => ({ m_initialState := advance_end (producer_runs f1) }, producer_runs f1)

/-- The method `async_generator_advance_operation::await_ready`. -/
def advance_operation.await_ready (op : advance_operation) : Bool :=
  op.m_initialState == state.value_ready_producer_suspended

/-- The last two statements of `async_generator_advance_operation::await_suspend`. -/
def advance_await_suspend_tail (currentState : state) (f : frame E) :
    Except failure (Option Bool × frame E) :=
  if currentState = state.value_not_ready_consumer_active then
    if f.promise.m_state = state.value_not_ready_consumer_active then
      Except.ok (some true, f.store state.value_not_ready_consumer_suspended)
    else Except.ok (some false, f)
  else Except.error failure.assertion_failed

/-- The method `async_generator_advance_operation::await_suspend` up to its call of
`m_producerCoroutine.resume()`: `some b` when it returns `b` without that call, `none` when
the call is reached. -/
def advance_await_suspend_begin (op : advance_operation) (consumerCoroutine : Nat)
    (f : frame E) : Except failure (Option Bool × frame E) :=
  let f1 : frame E :=
    { f with promise := { f.promise with m_consumerCoroutine := consumerCoroutine } }
  if op.m_initialState = state.value_ready_producer_active then
    if f1.promise.m_state = state.value_ready_producer_active then
      Except.ok (some true, f1.store state.value_not_ready_consumer_suspended)
    else if f1.promise.m_state = state.value_ready_producer_suspended then
      Except.ok (none, (f1.store state.value_not_ready_consumer_active).emit
        effect.resume_producer)
    else Except.error failure.assertion_failed
  else advance_await_suspend_tail op.m_initialState f1

/-- The method `async_generator_advance_operation::await_suspend` after
`m_producerCoroutine.resume()` has returned. -/
def advance_await_suspend_end (f : frame E) : Except failure (Option Bool × frame E) :=
  if f.promise.m_state = state.value_ready_producer_suspended then Except.ok (some false, f)
  else advance_await_suspend_tail f.promise.m_state f

/-- The method `async_generator_advance_operation::await_suspend`. -/
def advance_operation.await_suspend (producer_runs : frame E → frame E)
    (op : advance_operation) (consumerCoroutine : Nat) (f : frame E) :
    Except failure (Option Bool × frame E) :=
  match advance_await_suspend_begin op consumerCoroutine f with
  | Except.error e => Except.error e
  | Except.ok (some b, f1) => Except.ok (some b, f1)
  | Except.ok (none, f1) => advance_await_suspend_end (producer_runs f1)

/-- The class `async_generator_iterator`: its member `m_coroutine`, `none` for the end. -/
structure iterator where
  m_coroutine : Option Nat
deriving DecidableEq, Repr

/-- The method `async_generator::end`. -/
def iterator_end : iterator :=
  { m_coroutine := none }

/-- The method `async_generator_iterator::operator*`. -/
def iterator.deref (memory : Nat → T) (it : iterator) (p : promise E) :
    Except failure T :=
  match it.m_coroutine with
  | none => Except.error failure.null_handle
  | some _ => Except.ok (value memory p)

/-- What an `await_resume` that may rethrow gives: the value returned or the exception. -/
structure resumed (E α : Type) where
  /-- The value returned, or the exception raised. -/
  result : Except E α
  /-- The iterator variable the operation refers to, afterwards. -/
  m_iterator : iterator
  /-- The promise afterwards. -/
  promise : promise E

/-- The method `async_generator_increment_operation::await_resume`. -/
def increment_await_resume (moved_from : Option E) (m_iterator : iterator) (p : promise E) :
    resumed E iterator :=
  if finished p then
    let r := rethrow_if_unhandled_exception moved_from p
    match r.1 with
    | Except.error e =>
      { result := Except.error e, m_iterator := iterator_end, promise := r.2 }
    | Except.ok _ =>
      { result := Except.ok iterator_end, m_iterator := iterator_end, promise := r.2 }
  else { result := Except.ok m_iterator, m_iterator := m_iterator, promise := p }

/-- The constructor of `async_generator_increment_operation`: the promise is reached through
the handle of the iterator. -/
def increment (producer_runs : frame E → frame E) (it : iterator) (f : frame E) :
    Except failure (advance_operation × frame E) :=
  match it.m_coroutine with
  | none => Except.error failure.null_handle
  | some _ => Except.ok (advance producer_runs f)

/-- The method `async_generator::begin`: the operation is built on the handle, or on null. -/
def begin_operation (producer_runs : frame E → frame E) (m_coroutine : Option Nat)
    (f : frame E) : Option advance_operation × frame E :=
  match m_coroutine with
  | none => (none, f)
  | some _ => ((advance producer_runs f).1, (advance producer_runs f).2)

/-- The method `async_generator_begin_operation::await_ready`; the operation is `none` when
it was built on null. -/
def begin_await_ready (op : Option advance_operation) : Bool :=
  match op with
  | none => true
  | some o => o.await_ready

/-- The method `async_generator_begin_operation::await_resume`; `m_coroutine` is the handle
the operation was built on. -/
def begin_await_resume (moved_from : Option E) (m_coroutine : Option Nat) (p : promise E) :
    Except E iterator × promise E :=
  match m_coroutine with
  | none => (Except.ok iterator_end, p)
  | some h =>
    if finished p then
      let r := rethrow_if_unhandled_exception moved_from p
      match r.1 with
      | Except.error e => (Except.error e, r.2)
      | Except.ok _ => (Except.ok iterator_end, r.2)
    else (Except.ok { m_coroutine := some h }, p)

/-- The destructor `async_generator::~async_generator`. -/
def destructor (m_coroutine : Option Nat) (f : frame E) : Except failure (frame E) :=
  match m_coroutine with
  | none => Except.ok f
  | some _ =>
    match request_cancellation f.promise with
    | Except.error e => Except.error e
    | Except.ok (true, p1) => Except.ok ({ f with promise := p1 }.emit effect.destroy_producer)
    | Except.ok (false, p1) => Except.ok { f with promise := p1 }

/-! ### The producer and the consumer as one system

Each side is at a position; a side either runs or waits, and in an execution on one thread a
`resume()` call returns when the resumed side next stops running.  A step lets the running
side execute library code up to the point where control changes hands or returns to user
code.  A side may also wait on something that is not the generator (`elsewhere`), from where
an outside event resumes it when nobody runs. -/

/-- Where the producer coroutine is. -/
inductive producer_position where
  /-- Suspended at the initial suspend point. -/
  | not_started
  /-- Running the generator body. -/
  | body
  /-- Suspended in the body on an awaitable that is not a yield. -/
  | elsewhere
  /-- Inside `internal_yield_value`, in the call `m_consumerCoroutine.resume()`. -/
  | internal_resume (final : Bool)
  /-- Inside `internal_yield_value`, that call having returned. -/
  | internal_end (final : Bool)
  /-- Inside `await_suspend` of the yield operation, in `m_consumerCoroutine.resume()`. -/
  | suspend_resume (final : Bool)
  /-- Inside `await_suspend` of the yield operation, that call having returned. -/
  | suspend_end (final : Bool)
  /-- Suspended at a `co_yield`, or with `final` at the final suspend point. -/
  | suspended (final : Bool)
  /-- Destroyed by a call of `destroy()`. -/
  | destroyed
  /-- Run past its final suspend point, the frame being freed on the way. -/
  | ended
deriving DecidableEq, Repr

/-- Where the consumer is. -/
inductive consumer_position where
  /-- Running user code, owning the generator. -/
  | user
  /-- Suspended on an awaitable that is not an advance of the generator. -/
  | elsewhere
  /-- Inside the constructor of the advance operation, in `producerCoroutine.resume()`. -/
  | ctor_resume
  /-- Inside that constructor, the call having returned. -/
  | ctor_end
  /-- Inside `await_suspend` of the advance operation, in `m_producerCoroutine.resume()`. -/
  | suspend_resume
  /-- Inside that `await_suspend`, the call having returned. -/
  | suspend_end
  /-- Suspended by `await_suspend` of the advance operation. -/
  | suspended
  /-- Running user code after the destructor of the generator. -/
  | released
  /-- Suspended or finished after the destructor of the generator. -/
  | gone
deriving DecidableEq, Repr

/-- The producer has control. -/
def producer_position.running : producer_position → Bool
  | producer_position.body => true
  | producer_position.internal_end _ => true
  | producer_position.suspend_end _ => true
  | _ => false

/-- The consumer has control. -/
def consumer_position.running : consumer_position → Bool
  | consumer_position.user => true
  | consumer_position.ctor_end => true
  | consumer_position.suspend_end => true
  | consumer_position.released => true
  | _ => false

/-- The consumer stopped running: a call `m_consumerCoroutine.resume()` the producer is in
returns. -/
def producer_position.returned : producer_position → producer_position
  | producer_position.internal_resume final => producer_position.internal_end final
  | producer_position.suspend_resume final => producer_position.suspend_end final
  | p => p

/-- The producer stopped running: a call `producerCoroutine.resume()` the consumer is in
returns. -/
def consumer_position.returned : consumer_position → consumer_position
  | consumer_position.ctor_resume => consumer_position.ctor_end
  | consumer_position.suspend_resume => consumer_position.suspend_end
  | c => c

/-- The promise with its effects, the two positions, and the handle of the consumer. -/
structure system (E : Type) where
  frame : frame E := {}
  producer : producer_position := producer_position.not_started
  consumer : consumer_position := consumer_position.user
  consumerCoroutine : Nat := 1

/-- The steps of the system. -/
inductive action (E : Type) where
  /-- The consumer calls `begin()` or `operator++` and awaits the operation. -/
  | advance
  /-- The consumer goes on after a `resume()` call it made has returned. -/
  | consumer_continues
  /-- The consumer destroys the generator. -/
  | destroy_generator
  /-- The consumer suspends on something else. -/
  | consumer_awaits_elsewhere
  /-- An outside event resumes the consumer. -/
  | consumer_resumed_elsewhere
  /-- The consumer, the generator destroyed, suspends or finishes. -/
  | consumer_leaves
  /-- The body reaches `co_yield` of the object at `address`. -/
  | co_yield (address : Nat)
  /-- The body returns. -/
  | body_returns
  /-- An exception leaves the body. -/
  | body_throws (e : E)
  /-- The producer goes on after a `resume()` call it made has returned. -/
  | producer_continues
  /-- The body suspends on an awaitable that is not a yield. -/
  | producer_awaits_elsewhere
  /-- An outside event resumes the producer. -/
  | producer_resumed_elsewhere

/-- Whether `destroy()` was called on the producer between two frames. -/
def destroys (before after : frame E) : Bool :=
  (after.log.drop before.log.length).contains effect.destroy_producer

/-- What `await_resume` of an advance operation leaves in the promise (see
`begin_await_resume`, `increment_await_resume`). -/
def advance_await_resume (moved_from : Option E) (f : frame E) : frame E :=
  if finished f.promise then
    { f with promise := (rethrow_if_unhandled_exception moved_from f.promise).2 }
  else f

/-- The producer is not suspended by a yield operation: the body goes on, or after the final
suspend point the coroutine ends and the `resume()` call that ran it returns. -/
def producer_goes_on (final : Bool) (s : system E) : system E :=
  if final then
    { s with producer := producer_position.ended, consumer := s.consumer.returned }
  else { s with producer := producer_position.body }

/-- The call `m_consumerCoroutine.resume()`: the consumer must be suspended in the generator;
it runs `await_resume` and is back in user code. -/
def resume_consumer (moved_from : Option E) (waiting : producer_position) (f1 : frame E)
    (s : system E) : Option (system E) :=
  if s.consumer = consumer_position.suspended then
    some { s with frame := advance_await_resume moved_from f1,
                  producer := waiting,
                  consumer := consumer_position.user }
  else none

/-- What follows a part of `await_suspend` of the yield operation. -/
def after_yield_await_suspend (moved_from : Option E) (final : Bool)
    (r : Except failure (Option Bool × frame E)) (s : system E) : Option (system E) :=
  match r with
  | Except.error _ => none
  | Except.ok (some true, f1) =>
    some { s with frame := f1,
                  producer := if destroys s.frame f1 then producer_position.destroyed
                              else producer_position.suspended final,
                  consumer := s.consumer.returned }
  | Except.ok (some false, f1) => some (producer_goes_on final { s with frame := f1 })
  | Except.ok (none, f1) =>
    resume_consumer moved_from (producer_position.suspend_resume final) f1 s

/-- The yield operation is awaited. -/
def yield_operation_runs (moved_from : Option E) (final : Bool) (op : yield_operation)
    (s : system E) : Option (system E) :=
  if op.await_ready then some (producer_goes_on final s)
  else after_yield_await_suspend moved_from final (yield_await_suspend_begin op s.frame) s

/-- The producer enters `internal_yield_value` on the frame `f0` and awaits the operation. -/
def yield_runs (moved_from : Option E) (final : Bool) (f0 : frame E) (s : system E) :
    Option (system E) :=
  match internal_yield_value_begin f0 with
  | Except.error _ => none
  | Except.ok (some st, f1) =>
    yield_operation_runs moved_from final { m_initialState := st } { s with frame := f1 }
  | Except.ok (none, f1) =>
    resume_consumer moved_from (producer_position.internal_resume final) f1 s

/-- The call `producerCoroutine.resume()`: the producer must be suspended at the initial
suspend point or at a `co_yield`. -/
def resume_producer (waiting : consumer_position) (f1 : frame E) (s : system E) :
    Option (system E) :=
  match s.producer with
  | producer_position.not_started =>
    some { s with frame := f1, producer := producer_position.body, consumer := waiting }
  | producer_position.suspended false =>
    some { s with frame := f1, producer := producer_position.body, consumer := waiting }
  | _ => none

/-- What follows a part of `await_suspend` of the advance operation. -/
def after_advance_await_suspend (moved_from : Option E)
    (r : Except failure (Option Bool × frame E)) (s : system E) : Option (system E) :=
  match r with
  | Except.error _ => none
  | Except.ok (some true, f1) =>
    some { s with frame := f1,
                  consumer := consumer_position.suspended,
                  producer := s.producer.returned }
  | Except.ok (some false, f1) =>
    some { s with frame := advance_await_resume moved_from f1,
                  consumer := consumer_position.user }
  | Except.ok (none, f1) => resume_producer consumer_position.suspend_resume f1 s

/-- The advance operation is awaited. -/
def advance_operation_runs (moved_from : Option E) (op : advance_operation) (s : system E) :
    Option (system E) :=
  if op.await_ready then
    some { s with frame := advance_await_resume moved_from s.frame,
                  consumer := consumer_position.user }
  else
    after_advance_await_suspend moved_from
      (advance_await_suspend_begin op s.consumerCoroutine s.frame) s

/-- One step; `none` when the step is not possible at the positions, an assertion fails or a
coroutine that is not suspended at a resumable point would be resumed. -/
def step (moved_from : Option E) (s : system E) : action E → Option (system E)
  | action.advance =>
    if s.consumer = consumer_position.user then
      match advance_begin s.frame with
      | (some st, f1) =>
        advance_operation_runs moved_from { m_initialState := st } { s with frame := f1 }
      | (none, f1) => resume_producer consumer_position.ctor_resume f1 s
    else none
  | action.consumer_continues =>
    match s.consumer with
    | consumer_position.ctor_end =>
      advance_operation_runs moved_from { m_initialState := advance_end s.frame } s
    | consumer_position.suspend_end =>
      after_advance_await_suspend moved_from (advance_await_suspend_end s.frame) s
    | _ => none
  | action.destroy_generator =>
    if s.consumer = consumer_position.user then
      match destructor (some 0) s.frame with
      | Except.error _ => none
      | Except.ok f1 =>
        some { s with frame := f1,
                      producer := if destroys s.frame f1 then producer_position.destroyed
                                  else s.producer,
                      consumer := consumer_position.released }
    else none
  | action.consumer_awaits_elsewhere =>
    if s.consumer = consumer_position.user then
      some { s with consumer := consumer_position.elsewhere, producer := s.producer.returned }
    else none
  | action.consumer_resumed_elsewhere =>
    if s.consumer = consumer_position.elsewhere ∧ s.producer.running = false then
      some { s with consumer := consumer_position.user }
    else none
  | action.consumer_leaves =>
    if s.consumer = consumer_position.released then
      some { s with consumer := consumer_position.gone, producer := s.producer.returned }
    else none
  | action.co_yield address =>
    if s.producer = producer_position.body then
      yield_runs moved_from false (store_value s.frame address) s
    else none
  | action.body_returns =>
    if s.producer = producer_position.body then
      yield_runs moved_from true (store_value s.frame 0) s
    else none
  | action.body_throws e =>
    if s.producer = producer_position.body then
      yield_runs moved_from true
        (store_value { s.frame with promise := unhandled_exception s.frame.promise e } 0) s
    else none
  | action.producer_continues =>
    match s.producer with
    | producer_position.internal_end final =>
      yield_operation_runs moved_from final
        { m_initialState := internal_yield_value_end s.frame } s
    | producer_position.suspend_end final =>
      after_yield_await_suspend moved_from final (yield_await_suspend_end s.frame) s
    | _ => none
  | action.producer_awaits_elsewhere =>
    if s.producer = producer_position.body then
      some { s with producer := producer_position.elsewhere, consumer := s.consumer.returned }
    else none
  | action.producer_resumed_elsewhere =>
    if s.producer = producer_position.elsewhere ∧ s.consumer.running = false then
      some { s with producer := producer_position.body }
    else none

/-- The steps of a list in order; `none` as soon as one is not possible. -/
def run (moved_from : Option E) : system E → List (action E) → Option (system E)
  | s, [] => some s
  | s, a :: rest =>
    match step moved_from s a with
    | none => none
    | some s1 => run moved_from s1 rest

/-- The combinations of state word and positions that occur on one thread. -/
def positions_agree : state → producer_position → consumer_position → Bool
  | state.value_ready_producer_suspended, producer_position.not_started,
    consumer_position.user => true
  | state.value_ready_producer_suspended, producer_position.not_started,
    consumer_position.elsewhere => true
  | state.value_ready_producer_suspended, producer_position.suspended _,
    consumer_position.ctor_end => true
  | state.value_ready_producer_suspended, producer_position.suspended _,
    consumer_position.user => true
  | state.value_ready_producer_suspended, producer_position.suspended _,
    consumer_position.elsewhere => true
  | state.value_not_ready_consumer_active, producer_position.body,
    consumer_position.ctor_resume => true
  | state.value_not_ready_consumer_active, producer_position.elsewhere,
    consumer_position.ctor_end => true
  | state.value_not_ready_consumer_suspended, producer_position.elsewhere,
    consumer_position.suspended => true
  | state.value_not_ready_consumer_suspended, producer_position.body,
    consumer_position.suspended => true
  | state.value_not_ready_consumer_suspended, producer_position.internal_end _,
    consumer_position.suspended => true
  | state.value_not_ready_consumer_suspended, producer_position.ended,
    consumer_position.suspended => true
  | state.value_ready_producer_active, producer_position.internal_resume _,
    consumer_position.user => true
  | state.value_ready_producer_active, producer_position.internal_end _,
    consumer_position.elsewhere => true
  | state.cancelled, producer_position.internal_resume _, consumer_position.released => true
  | state.cancelled, producer_position.internal_end _, consumer_position.gone => true
  | state.cancelled, producer_position.destroyed, consumer_position.released => true
  | state.cancelled, producer_position.destroyed, consumer_position.gone => true
  | _, _, _ => false

/-- The invariant of the system: the state word and the positions agree, and `destroy()` was
called on the producer once if it is destroyed, and never otherwise. -/
def invariant (s : system E) : Prop :=
  positions_agree s.frame.promise.m_state s.producer s.consumer = true ∧
  s.frame.log.count effect.destroy_producer =
    if s.producer = producer_position.destroyed then 1 else 0

end async_generator

/-! ## The class `detail::continuation`: its constructors -/

namespace detail

/-- The constructor `continuation(coroutine_handle<> awaiter)`: the state pointer holds the
address of the coroutine. -/
def continuation.of_awaiter (awaiter : Nat) : continuation :=
  { m_state := awaiter }

/-- The constructor `continuation(callback_t* callback, void* state)`. -/
def continuation.of_callback (callback state : Nat) : continuation :=
  { m_callback := callback, m_state := state }

end detail

/-! ## The class `context`: `run` and `reset`

The reactor is the one of `SSH_OS_LINUX`.  A call of `epoll_wait` either fills a number of
entries or fails with `errno`; what else happens to the packed word while the thread is in a
round of the loop (other threads, the handlers it dispatches) is part of the round. -/

/-- The class `system_error` as `throw_error` builds it: the code in the system category and
the message. -/
structure system_error where
  code : Int
  message : String
deriving DecidableEq, Repr

/-- The function template `throw_error`, `ev` converted to `int`. -/
def throw_error (ev : Int) (message : String) : Except system_error Unit :=
  if ev ≠ 0 then Except.error { code := ev, message := message } else Except.ok ()

/-- The method `context::reset`; the flag tells whether its assertion holds. -/
def context.reset (c : context) : Bool × context :=
  let state := c.state_
  ((state &&& stop_requested_flag) != 0,
    { c with state_ := state &&& (2 ^ 32 - 1 - stop_requested_flag) })

/-- What a call of `epoll_wait` gives. -/
inductive wait_result where
  /-- The call returned the number of entries filled, a count that is not negative; the
  list holds the field `data.ptr` of each entry. -/
  | entries (pointers : List Nat)
  /-- The call returned a negative count and set `errno`. -/
  | failed (errno : Int)
deriving DecidableEq, Repr

/-- One round of the loop of `run`: the result of the wait, and what is done to the context
by others between the evaluation of the loop condition and the next statement of `run` that
uses `state_`. -/
structure round where
  result : wait_result
  during : context → context

/-- How a round of the loop of `run` ends. -/
inductive loop_step where
  /-- The statement `break` with `error` set. -/
  | leave (error : Int)
  /-- The end of the loop body, with the events resumed so far. -/
  | again (dispatched : List Nat)
deriving DecidableEq, Repr

/-- The body of the loop of `run` after the wait has returned: `break` on an error other
than `EINTR`, otherwise `resume()` on the event of each entry whose pointer is not null (no
entry when the count is negative). -/
def context.after_wait (EINTR : Int) (w : wait_result) (dispatched : List Nat) : loop_step :=
  match w with
  | wait_result.failed errno =>
    if errno ≠ EINTR then loop_step.leave errno else loop_step.again dispatched
  | wait_result.entries pointers =>
    loop_step.again (dispatched ++ pointers.filter (fun p => p ≠ 0))

/-- The loop of `context::run`, from the evaluation of its condition on; `none` when the
thread stays in a wait that does not return.  The result is the value of `error`, the
context and the events resumed. -/
def context.run_loop (EINTR : Int) :
    List round → context → List Nat → Option (Int × context × List Nat)
  | [], c, dispatched =>
    if c.state_ &&& stop_requested_flag = 0 then none else some (0, c, dispatched)
  | r :: rest, c, dispatched =>
    if c.state_ &&& stop_requested_flag = 0 then
      match context.after_wait EINTR r.result dispatched with
      | loop_step.leave error => some (error, r.during c, dispatched)
      | loop_step.again dispatched1 => context.run_loop EINTR rest (r.during c) dispatched1
    else some (0, c, dispatched)

/-- The loop of `context::run` for a thread whose wait returns `w`. -/
def context.run_resumes (EINTR : Int) (w : wait_result) (rest : List round) (c : context)
    (dispatched : List Nat) : Option (Int × context × List Nat) :=
  match context.after_wait EINTR w dispatched with
  | loop_step.leave error => some (error, c, dispatched)
  | loop_step.again dispatched1 => context.run_loop EINTR rest c dispatched1

/-- The statement of `context::run` before the loop that counts the thread. -/
def context.run_enter (c : context) : context :=
  { c with state_ := (c.state_ + thread_count_increment) % 2 ^ 32 }

/-- The statements of `context::run` after the loop. -/
def context.run_exit (error : Int) (c : context) : Except system_error Unit × context :=
  let state := c.state_
  let c1 := { c with state_ := (state + 2 ^ 32 - thread_count_increment) % 2 ^ 32 }
  let stop_requested := state &&& stop_requested_flag
  let thread_count := state / thread_count_increment
  let c2 := if stop_requested ≠ 0 ∧ thread_count > 1 then c1.interrupt else c1
  (throw_error error "run", c2)

/-- What a call of `run` that returns or throws has done. -/
structure run_result where
  /-- The context afterwards. -/
  c : context
  /-- The events resumed, in order. -/
  dispatched : List Nat
  /-- Whether the call returned or threw. -/
  outcome : Except system_error Unit

/-- The method `context::run`; `none` when the thread stays in a wait that does not
return. -/
def context.run (EINTR : Int) (rounds : List round) (c : context) : Option run_result :=
  match context.run_loop EINTR rounds c.run_enter [] with
  | none => none
  | some (error, c1, dispatched) =>
    some { c := (context.run_exit error c1).2, dispatched := dispatched,
           outcome := (context.run_exit error c1).1 }

/-! ### Threads blocked in `run`

A wake posted by `interrupt()` makes the wait of one thread return an entry whose pointer is
null. -/

/-- A context, the number of threads inside the wait of `run`, and the number of wakes that
have been delivered to a wait. -/
structure runners where
  c : context
  blocked : Nat
  delivered : Nat := 0

/-- A call of `stop()` from a thread that is not inside `run`. -/
def runners.stop (r : runners) : runners :=
  { r with c := r.c.stop.2 }

/-- A posted wake is delivered: the wait of one blocked thread returns the entry of the wake
and the thread goes on in `run`, into the next wait or through the exit. -/
def runners.wake (EINTR : Int) (r : runners) : Option runners :=
  if r.blocked = 0 ∨ r.c.wakes ≤ r.delivered then none
  else
    match context.run_resumes EINTR (wait_result.entries [0]) [] r.c [] with
    | none => some { r with delivered := r.delivered + 1 }
    | some (error, c1, _) =>
      some { c := (context.run_exit error c1).2, blocked := r.blocked - 1,
             delivered := r.delivered + 1 }

/-- A number of wakes delivered one after the other; `none` when one cannot be. -/
def runners.wakes (EINTR : Int) : Nat → runners → Option runners
  | 0, r => some r
  | k + 1, r =>
    match runners.wake EINTR r with
    | none => none
    | some r1 => runners.wakes EINTR k r1

/-! ## The class `event` of `event.h`

The event of `SSH_OS_LINUX`.  A call of `epoll_ctl` succeeds (`none`) or fails with `errno`
(`some errno`); the coroutines resumed are listed in order. -/

namespace reactor

/-- The data members of `event`: the awaiting coroutine, the reactor, the result slot and
the descriptor. -/
structure event where
  handle_ : Nat := 0
  context_ : Int := -1
  error_ : Int := 0
  fd_ : Int := -1
deriving DecidableEq, Repr

/-- The constructor `event(int context, int fd, uint32_t events)`. -/
def event.create (context fd : Int) : event :=
  { context_ := context, fd_ := fd }

/-- The method `event::await_ready`. -/
def event.await_ready (_ : event) : Bool :=
  false

/-- The method `event::await_suspend`, `registration` being the outcome of
`epoll_ctl(EPOLL_CTL_ADD)`. -/
def event.await_suspend (ev : event) (handle : Nat) (registration : Option Int) :
    event × List Nat :=
  let ev1 := { ev with handle_ := handle }
  match registration with
  | some errno => ({ ev1 with error_ := errno }, [ev1.handle_])
  | none => (ev1, [])

/-- The method `event::await_resume`. -/
def event.await_resume (ev : event) : Int :=
  ev.error_

/-- The method `event::resume`, `deregistration` being the outcome of
`epoll_ctl(EPOLL_CTL_DEL)`. -/
def event.resume (ev : event) (deregistration : Option Int) : event × List Nat :=
  match deregistration with
  | some errno => ({ ev with error_ := errno }, [ev.handle_])
  | none => (ev, [ev.handle_])

end reactor

/-! ## The mutex: `await_suspend` under contention -/

namespace async_mutex

/-- The word read last when the compare-exchange fails on the words of `later` one after
the other: the word the compare-exchange that succeeds is made on. -/
def last_observed : Nat → List Nat → Nat
  | w, [] => w
  | _, w :: later => last_observed w later

/-- The loop of `async_mutex_lock_operation::await_suspend` when other threads change the
state word meanwhile.  Each word of `later` is what a failing compare-exchange reads into
`oldState` (the same word again when the failure is spurious); the compare-exchange after
the last of them succeeds. -/
def await_suspend_retry (this : Nat) : List Nat → mutex → Bool × mutex
  | [], m =>
    if m.m_state = not_locked then (false, { m with m_state := locked_no_waiters })
    else (true, { m with ops := set_next m.ops this m.m_state, m_state := this })
  | w :: later, m =>
    if m.m_state = not_locked then await_suspend_retry this later { m with m_state := w }
    else
      await_suspend_retry this later
        { m with ops := set_next m.ops this m.m_state, m_state := w }

/-- The method `async_mutex_lock_operation::await_suspend` of the operation object at `this`
when the compare-exchange fails on the words of `later` first. -/
def await_suspend_contended (this awaiter : Nat) (later : List Nat) (m : mutex) :
    Bool × mutex :=
  await_suspend_retry this later { m with ops := set_awaiter m.ops this awaiter }

end async_mutex

/-! ## The class `context`: its destructor, and sequences of calls -/

/-- The destructor `context::~context`; the flag tells whether its assertion holds. -/
def context.destructor (c : context) : Bool × context :=
  let state := c.state_
  let thread_count := state / thread_count_increment
  (thread_count == 0, { c with state_ := (state ||| stop_requested_flag) % 2 ^ 32 })

/-- The field `data.ptr` of the entry that `interrupt()` hands to `epoll_ctl`: the static
`nev` is zero-initialised and only its field `events` is assigned. -/
def context.interrupt_payload : Nat :=
  0

/-- The calls that touch the packed word. -/
inductive context_step where
  /-- A thread enters `run`: the statement that counts it. -/
  | run_entry
  /-- A thread leaves `run`: the statements after the loop, with the value of `error`. -/
  | run_exit (error : Int)
  | stop
  | reset
  | interrupt
deriving DecidableEq, Repr

/-- A context together with the number of calls of `run` entered and not yet left. -/
structure tracked where
  c : context := {}
  running : Nat := 0
deriving DecidableEq, Repr

/-- One call; `none` when a thread would leave `run` without having entered it, or when
`2 ^ 31` threads would be inside `run`. -/
def tracked.step (t : tracked) : context_step → Option tracked
  | context_step.run_entry =>
    if t.running + 1 < 2 ^ 31 then some { c := t.c.run_enter, running := t.running + 1 }
    else none
  | context_step.run_exit error =>
    if 0 < t.running then some { c := (t.c.run_exit error).2, running := t.running - 1 }
    else none
  | context_step.stop => some { t with c := t.c.stop.2 }
  | context_step.reset => some { t with c := t.c.reset.2 }
  | context_step.interrupt => some { t with c := t.c.interrupt }

/-- The calls of a list in order. -/
def tracked.steps : List context_step → tracked → Option tracked
  | [], t => some t
  | a :: rest, t =>
    match t.step a with
    | none => none
    | some t1 => tracked.steps rest t1

/-! ## The class `handle` of `handle.h`

The handle of `SSH_OS_LINUX`.  A close function is named by its address, `0` for the null
pointer; the calls of close functions are listed in order, each with the value the handle
held when it was called.  What a close function does to the handle it is given does not
reach any caller here: `reset` overwrites the value afterwards and the destructor ends the
object. -/

namespace os

/-- The constant `handle::invalid_value`. -/
def invalid_value : Int :=
  -1

/-- The address of `handle::default_close`. -/
def default_close : Nat :=
  1

/-- The data members of `handle`. -/
structure handle where
  close_ : Nat := default_close
  value_ : Int := invalid_value
deriving DecidableEq, Repr

/-- A call `close_(*this)`. -/
structure closed where
  close : Nat
  value : Int
deriving DecidableEq, Repr

/-- The conversion `static_cast<value_type>(value)` of an integer to `int`: the value modulo
`2 ^ 32` in the range of `int`. -/
def to_value_type (value : Int) : Int :=
  (value + 2 ^ 31) % 2 ^ 32 - 2 ^ 31

/-- The constructor `handle(T value, close_type close)`. -/
def handle.create (value : Int) (close : Nat) : handle :=
  { close_ := close, value_ := to_value_type value }

/-- The method `handle::valid`. -/
def handle.valid (h : handle) : Bool :=
  h.value_ != invalid_value

/-- The method `handle::release`. -/
def handle.release (h : handle) : Int × handle :=
  (h.value_, { h with value_ := invalid_value })

/-- The method `handle::reset(T value)`. -/
def handle.reset (h : handle) (value : Int) : handle × List closed :=
  ({ h with value_ := to_value_type value },
    if h.value_ ≠ invalid_value ∧ h.close_ ≠ 0 then [{ close := h.close_, value := h.value_ }]
    else [])

/-- The destructor `handle::~handle`. -/
def handle.destructor (h : handle) : List closed :=
  if h.value_ ≠ invalid_value ∧ h.close_ ≠ 0 then [{ close := h.close_, value := h.value_ }]
  else []

/-- The move constructor `handle(handle&& other)`: the new handle and `other` afterwards. -/
def handle.move_construct (other : handle) : handle × handle :=
  ({ close_ := other.close_, value_ := other.release.1 }, other.release.2)

/-- The move assignment `operator=(handle&& other)` of the handle at `this_address` from the
one at `other_address`: this handle and `other` afterwards, and the close calls made. -/
def handle.move_assign (this_address other_address : Nat) (self other : handle) :
    handle × handle × List closed :=
  if this_address ≠ other_address then
    ((self.reset other.release.1).1, other.release.2, (self.reset other.release.1).2)
  else (self, other, [])

end os

/-! ## The mutex: `unlock` in two parts

Between the compare-exchange of `unlock` that fails and the exchange that follows it other
threads can enqueue themselves.  What follows the exchange (the reversal, the write of
`m_waiters`, the resumption) touches only the list just taken and the cached list, which
nobody but the holder of the lock uses, so it is taken together with the exchange. -/

namespace async_mutex

/-- The method `async_mutex::unlock` up to and including its compare-exchange: `some r` when
the call is over with that (the lock is released, or a waiter of the cached list is
resumed), `none` when the compare-exchange has failed. -/
def unlock_attempt (m : mutex) : Except failure (Option unlock_result) :=
  if m.m_state = not_locked then Except.error failure.assertion_failed
  else
    let waitersHead := m.m_waiters
    if waitersHead = 0 then
      if m.m_state = locked_no_waiters then
        Except.ok (some { m := { m with m_state := not_locked }, waiter := none,
                          resumed := none, accessed := [] })
      else Except.ok none
    else
      match unlock_resume m waitersHead [] with
      | Except.error e => Except.error e
      | Except.ok r => Except.ok (some r)

/-- The method `async_mutex::unlock` after its compare-exchange has failed: the exchange, the
reversal of the list taken, and the resumption of its oldest waiter; `waitersHead` is still
null. -/
def unlock_swap (fuel : Nat) (m : mutex) : Except failure unlock_result :=
  let oldState := m.m_state
  let m1 := { m with m_state := locked_no_waiters }
  if oldState = locked_no_waiters ∨ oldState = not_locked then
    Except.error failure.assertion_failed
  else
    match reverse_loop fuel m1.ops oldState 0 [] with
    | none => Except.error failure.out_of_fuel
    | some (ops1, head, accessed) => unlock_resume { m1 with ops := ops1 } head accessed

/-- The steps of contending callers when `unlock` is taken in two parts. -/
inductive part where
  | try_lock (caller : Nat)
  | lock (caller : Nat) (this : Nat) (spurious : Nat)
  /-- The first part of `unlock`. -/
  | unlock_attempt (caller : Nat)
  /-- The second part of `unlock`, after a compare-exchange that failed. -/
  | unlock_swap (caller : Nat)
deriving DecidableEq, Repr

/-- The system with its bookkeeping, the caller whose `unlock` is between its two parts, and
the operation objects enqueued and resumed so far, each in order. -/
structure interleaved where
  s : system
  swapping : Option Nat := none
  enqueued : List Nat := []
  resumed : List Nat := []

/-- The bookkeeping of a call of `unlock` by `caller` that is over with the result `r`. -/
def interleaved.unlocked (t : interleaved) (caller : Nat) (r : unlock_result) : interleaved :=
  match r.waiter, r.resumed with
  | some waiter, some awaiter =>
    { s := { t.s with m := r.m, holders := awaiter :: t.s.holders.erase caller,
                      waiting := t.s.waiting.filter (fun p => p.2 ≠ waiter),
                      granted := t.s.granted ++ [awaiter] },
      swapping := none, enqueued := t.enqueued, resumed := t.resumed ++ [waiter] }
  | _, _ =>
    { s := { t.s with m := r.m, holders := t.s.holders.erase caller },
      swapping := none, enqueued := t.enqueued, resumed := t.resumed }

/-- One step.  Besides what `apply_op` excludes, it is an invalid sequence to start an
`unlock` while one is between its parts, and to run the second part of an `unlock` that is
not. -/
def apply_part (fuel : Nat) (p : part) (t : interleaved) : Except failure interleaved :=
  match p with
  | part.try_lock caller =>
    let r := try_lock t.s.m
    if r.1 then Except.ok { t with s := { t.s with m := r.2, holders := caller :: t.s.holders } }
    else Except.ok { t with s := { t.s with m := r.2 } }
  | part.lock caller this spurious =>
    if this = 0 ∨ this = 1 ∨ this ∈ t.s.waiting.map Prod.snd then
      Except.error failure.invalid_sequence
    else
      let r := await_suspend this caller spurious t.s.m
      if r.1 then
        Except.ok { t with s := { t.s with m := r.2,
                                           waiting := t.s.waiting ++ [(caller, this)] },
                           enqueued := t.enqueued ++ [this] }
      else
        Except.ok { t with s := { t.s with m := r.2, holders := caller :: t.s.holders,
                                           granted := t.s.granted ++ [caller] } }
  | part.unlock_attempt caller =>
    if t.swapping = none ∧ caller ∈ t.s.holders then
      match unlock_attempt t.s.m with
      | Except.error e => Except.error e
      | Except.ok none => Except.ok { t with swapping := some caller }
      | Except.ok (some r) => Except.ok (t.unlocked caller r)
    else Except.error failure.invalid_sequence
  | part.unlock_swap caller =>
    if t.swapping = some caller then
      match unlock_swap fuel t.s.m with
      | Except.error e => Except.error e
      | Except.ok r => Except.ok (t.unlocked caller r)
    else Except.error failure.invalid_sequence

/-- The invariant of the system when `unlock` is taken in two parts: the invariant of the
mutex; the operation objects enqueued are those resumed followed by those still suspended,
each in order; and an `unlock` between its parts is one by the holder, on an empty cached
list and a state word that is a list of waiters. -/
def interleaved.consistent (t : interleaved) : Prop :=
  invariant t.s ∧
  t.resumed ++ t.s.waiting.map Prod.snd = t.enqueued ∧
  ∀ caller, t.swapping = some caller →
    caller ∈ t.s.holders ∧ t.s.m.m_waiters = 0 ∧ t.s.m.m_state ≠ locked_no_waiters

/-- Run a sequence of steps, first to last. -/
def run_parts (fuel : Nat) : List part → interleaved → Except failure interleaved
  | [], t => Except.ok t
  | p :: rest, t =>
    match apply_part fuel p t with
    | Except.error e => Except.error e
    | Except.ok t1 => run_parts fuel rest t1

end async_mutex

/-! ## The asynchronous generator on several threads

A side that waits on something other than the generator is resumed from there by whatever
thread completes that wait, at any time, also while the other side is executing.  The two
sides are therefore followed instruction by instruction: a step of a side performs at most one
access to `m_state` (a load, a store, a compare-exchange or the exchange of
`request_cancellation`) together with the local computation that follows it, so that every
interleaving of the accesses of the two sides is a sequence of steps; the accesses take effect
in the order of the steps.  A call of `resume()`
runs the resumed side on the thread of the caller, which stays inside the call until that
side stops running: it is suspended by its `await_suspend`, waits on something else, or is
destroyed. -/

namespace async_generator

variable {E : Type}

/-- Where the producer coroutine is. -/
inductive producer_point where
  /-- Suspended at the initial suspend point. -/
  | not_started
  /-- Running the generator body. -/
  | body
  /-- Suspended in the body on an awaitable that is not a yield. -/
  | elsewhere
  /-- In `internal_yield_value`, `m_currentValue` written, before the load of `m_state`. -/
  | yield_load
  /-- In `internal_yield_value`, having loaded `value_not_ready_consumer_suspended`, before
  the store and the call `m_consumerCoroutine.resume()`. -/
  | internal_store
  /-- In `internal_yield_value`, inside the call `m_consumerCoroutine.resume()`. -/
  | internal_resume
  /-- In `internal_yield_value`, that call having returned, before the second load. -/
  | internal_reload
  /-- In `await_suspend` of the yield operation, before the compare-exchange from
  `value_not_ready_consumer_active`. -/
  | first_exchange
  /-- In that `await_suspend`, the first compare-exchange having failed with
  `value_not_ready_consumer_suspended`, before the store and the call
  `m_consumerCoroutine.resume()`. -/
  | suspend_store
  /-- In that `await_suspend`, inside the call `m_consumerCoroutine.resume()`. -/
  | suspend_resume
  /-- In that `await_suspend`, the call having returned, before the load. -/
  | suspend_reload
  /-- In that `await_suspend`, before the compare-exchange from
  `value_ready_producer_active`. -/
  | second_exchange
  /-- In that `await_suspend`, the assertion passed, before `producer.destroy()`. -/
  | destroying
  /-- Suspended by `await_suspend` of a yield operation. -/
  | suspended
  /-- Destroyed by a call of `destroy()`. -/
  | destroyed
  /-- Run past its final suspend point. -/
  | ended
deriving DecidableEq, Repr

/-- Where the consumer is. -/
inductive consumer_point where
  /-- Running user code, owning the generator. -/
  | user
  /-- Suspended in user code on an awaitable that is not an advance of the generator. -/
  | elsewhere
  /-- In the constructor of the advance operation, having loaded
  `value_ready_producer_suspended`, before the store and the call
  `producerCoroutine.resume()`. -/
  | ctor_store
  /-- In that constructor, inside the call `producerCoroutine.resume()`. -/
  | ctor_resume
  /-- In that constructor, the call having returned, before the second load. -/
  | ctor_reload
  /-- In `await_suspend` of the advance operation built with `m_initialState = initial`,
  before the write of `m_consumerCoroutine`. -/
  | suspend_enter (initial : state)
  /-- In that `await_suspend`, before the compare-exchange from
  `value_ready_producer_active`. -/
  | first_exchange
  /-- In that `await_suspend`, the first compare-exchange having failed, before the store and
  the call `m_producerCoroutine.resume()`. -/
  | suspend_store
  /-- In that `await_suspend`, inside the call `m_producerCoroutine.resume()`. -/
  | suspend_resume
  /-- In that `await_suspend`, the call having returned, before the load. -/
  | suspend_reload
  /-- In that `await_suspend`, before the compare-exchange from
  `value_not_ready_consumer_active`. -/
  | last_exchange
  /-- Suspended by `await_suspend` of the advance operation. -/
  | suspended
  /-- Resumed by the producer, or not suspended by the operation: before `await_resume`. -/
  | await_resume
  /-- Running user code after the destructor of the generator. -/
  | released
  /-- Suspended on something else, or finished, after the destructor of the generator. -/
  | left
deriving DecidableEq, Repr

/-- Why a sequence of steps stops. -/
inductive stopped where
  /-- The side is not at a position from which it takes this step. -/
  | not_enabled
  /-- An `assert` of the source does not hold. -/
  | assertion_failed
  /-- A call of `resume()` on a coroutine that is not suspended, or is suspended at its final
  suspend point. -/
  | not_suspended
  /-- The consumer advances although its last advance gave the end iterator. -/
  | past_the_end
deriving DecidableEq, Repr

/-- The promise with the effects so far, the positions of the two sides, whether the body of
the producer has ended (so that the yield operation it is in, or suspended in, is that of the
final suspend point), whether the last advance of the consumer gave the end iterator, and the
handle of the consumer. -/
structure threads (E : Type) where
  frame : frame E := {}
  producer : producer_point := producer_point.not_started
  consumer : consumer_point := consumer_point.user
  final : Bool := false
  at_end : Bool := false
  consumerCoroutine : Nat := 1

/-- A call `m_consumerCoroutine.resume()` the producer is in returns. -/
def producer_point.returned : producer_point → producer_point
  | producer_point.internal_resume => producer_point.internal_reload
  | producer_point.suspend_resume => producer_point.suspend_reload
  | p => p

/-- A call `producerCoroutine.resume()` the consumer is in returns. -/
def consumer_point.returned : consumer_point → consumer_point
  | consumer_point.ctor_resume => consumer_point.ctor_reload
  | consumer_point.suspend_resume => consumer_point.suspend_reload
  | c => c

/-- The producer stops running on its thread: if the consumer is inside the call that ran it,
the call returns. -/
def threads.producer_stops (s : threads E) : threads E :=
  { s with consumer := s.consumer.returned }

/-- The consumer stops running on its thread: if the producer is inside the call that ran it,
the call returns. -/
def threads.consumer_stops (s : threads E) : threads E :=
  { s with producer := s.producer.returned }

/-- A store to `m_state`. -/
def threads.store (s : threads E) (x : state) : threads E :=
  { s with frame := s.frame.store x }

/-- The call `producerCoroutine.resume()` by the consumer, which then waits at `waiting`: the
producer must be suspended at the initial suspend point or at a `co_yield`. -/
def threads.call_producer (waiting : consumer_point) (s : threads E) :
    Except stopped (threads E) :=
  if (s.producer = producer_point.not_started ∨ s.producer = producer_point.suspended) ∧
      s.final = false then
    Except.ok { s with frame := s.frame.emit effect.resume_producer,
                       producer := producer_point.body, consumer := waiting }
  else Except.error stopped.not_suspended

/-- The call `m_consumerCoroutine.resume()` by the producer, which then waits at `waiting`:
the consumer must be suspended in the generator. -/
def threads.call_consumer (waiting : producer_point) (s : threads E) :
    Except stopped (threads E) :=
  if s.consumer = consumer_point.suspended then
    Except.ok { s with frame := s.frame.emit
                         (effect.resume_consumer s.frame.promise.m_consumerCoroutine),
                       producer := waiting, consumer := consumer_point.await_resume }
  else Except.error stopped.not_suspended

/-- The producer is not suspended by a yield operation: the body goes on, or after the final
suspend point the coroutine ends and the `resume()` call that ran it returns. -/
def threads.goes_on (s : threads E) : threads E :=
  if s.final then ({ s with producer := producer_point.ended } : threads E).producer_stops
  else { s with producer := producer_point.body }

/-- The end of `async_generator_yield_operation::await_suspend` with the local
`currentState = current`: the assertion that it is `cancelled`. -/
def threads.yield_cancelled (current : state) (s : threads E) : Except stopped (threads E) :=
  if current = state.cancelled then Except.ok { s with producer := producer_point.destroying }
  else Except.error stopped.assertion_failed

/-- The second `if` of that `await_suspend`, entered with `currentState = current`, up to its
compare-exchange. -/
def threads.yield_second_if (current : state) (s : threads E) : Except stopped (threads E) :=
  if current = state.value_ready_producer_active then
    Except.ok { s with producer := producer_point.second_exchange }
  else s.yield_cancelled current

/-- The yield operation built with `m_initialState = initial` is awaited: `await_ready`, and
`await_suspend` up to its first access to `m_state`. -/
def threads.yield_operation (initial : state) (s : threads E) : Except stopped (threads E) :=
  if initial = state.value_not_ready_consumer_suspended then Except.ok s.goes_on
  else if initial = state.value_not_ready_consumer_active then
    Except.ok { s with producer := producer_point.first_exchange }
  else s.yield_second_if initial

/-- The advance operation built with `m_initialState = initial` is awaited: `await_ready`. -/
def threads.advance_operation (initial : state) (s : threads E) : threads E :=
  if initial = state.value_ready_producer_suspended then
    { s with consumer := consumer_point.await_resume }
  else { s with consumer := consumer_point.suspend_enter initial }

/-- The last statements of `async_generator_advance_operation::await_suspend` with the local
`currentState = current`, up to the compare-exchange: the assertion. -/
def threads.advance_last (current : state) (s : threads E) : Except stopped (threads E) :=
  if current = state.value_not_ready_consumer_active then
    Except.ok { s with consumer := consumer_point.last_exchange }
  else Except.error stopped.assertion_failed

/-- The next instruction of the consumer inside an advance operation. -/
def consumer_step (moved_from : Option E) (s : threads E) : Except stopped (threads E) :=
  match s.consumer with
  | consumer_point.ctor_store =>
    (s.store state.value_not_ready_consumer_active).call_producer consumer_point.ctor_resume
  | consumer_point.ctor_reload =>
    Except.ok (s.advance_operation s.frame.promise.m_state)
  | consumer_point.suspend_enter initial =>
    let s1 : threads E :=
      { s with frame := { s.frame with
          promise := { s.frame.promise with m_consumerCoroutine := s.consumerCoroutine } } }
    if initial = state.value_ready_producer_active then
      Except.ok { s1 with consumer := consumer_point.first_exchange }
    else s1.advance_last initial
  | consumer_point.first_exchange =>
    if s.frame.promise.m_state = state.value_ready_producer_active then
      Except.ok ({ s.store state.value_not_ready_consumer_suspended with
        consumer := consumer_point.suspended } : threads E).consumer_stops
    else if s.frame.promise.m_state = state.value_ready_producer_suspended then
      Except.ok { s with consumer := consumer_point.suspend_store }
    else Except.error stopped.assertion_failed
  | consumer_point.suspend_store =>
    (s.store state.value_not_ready_consumer_active).call_producer
      consumer_point.suspend_resume
  | consumer_point.suspend_reload =>
    if s.frame.promise.m_state = state.value_ready_producer_suspended then
      Except.ok { s with consumer := consumer_point.await_resume }
    else s.advance_last s.frame.promise.m_state
  | consumer_point.last_exchange =>
    if s.frame.promise.m_state = state.value_not_ready_consumer_active then
      Except.ok ({ s.store state.value_not_ready_consumer_suspended with
        consumer := consumer_point.suspended } : threads E).consumer_stops
    else Except.ok { s with consumer := consumer_point.await_resume }
  | consumer_point.await_resume =>
    Except.ok { s with frame := advance_await_resume moved_from s.frame,
                       at_end := finished s.frame.promise,
                       consumer := consumer_point.user }
  | _ => Except.error stopped.not_enabled

/-- The next instruction of the producer inside a yield operation. -/
def producer_step (s : threads E) : Except stopped (threads E) :=
  match s.producer with
  | producer_point.yield_load =>
    if s.frame.promise.m_state = state.value_ready_producer_active then
      Except.error stopped.assertion_failed
    else if s.frame.promise.m_state = state.value_ready_producer_suspended then
      Except.error stopped.assertion_failed
    else if s.frame.promise.m_state = state.value_not_ready_consumer_suspended then
      Except.ok { s with producer := producer_point.internal_store }
    else s.yield_operation s.frame.promise.m_state
  | producer_point.internal_store =>
    (s.store state.value_ready_producer_active).call_consumer producer_point.internal_resume
  | producer_point.internal_reload =>
    s.yield_operation s.frame.promise.m_state
  | producer_point.first_exchange =>
    if s.frame.promise.m_state = state.value_not_ready_consumer_active then
      Except.ok ({ s.store state.value_ready_producer_suspended with
        producer := producer_point.suspended } : threads E).producer_stops
    else if s.frame.promise.m_state = state.value_not_ready_consumer_suspended then
      Except.ok { s with producer := producer_point.suspend_store }
    else s.yield_second_if s.frame.promise.m_state
  | producer_point.suspend_store =>
    (s.store state.value_ready_producer_active).call_consumer producer_point.suspend_resume
  | producer_point.suspend_reload =>
    if s.frame.promise.m_state = state.value_not_ready_consumer_suspended then
      Except.ok s.goes_on
    else s.yield_second_if s.frame.promise.m_state
  | producer_point.second_exchange =>
    if s.frame.promise.m_state = state.value_ready_producer_active then
      Except.ok ({ s.store state.value_ready_producer_suspended with
        producer := producer_point.suspended } : threads E).producer_stops
    else if s.frame.promise.m_state = state.value_not_ready_consumer_suspended then
      Except.ok s.goes_on
    else s.yield_cancelled s.frame.promise.m_state
  | producer_point.destroying =>
    Except.ok ({ s with frame := s.frame.emit effect.destroy_producer,
                        producer := producer_point.destroyed } : threads E).producer_stops
  | _ => Except.error stopped.not_enabled

/-- The steps of the two sides. -/
inductive move (E : Type) where
  /-- The consumer calls `begin()` or `operator++`: the constructor of the operation loads
  `m_state`. -/
  | consumer_advances
  /-- The consumer executes its next instruction inside the advance operation. -/
  | consumer_step
  /-- The consumer destroys the generator. -/
  | consumer_destroys
  /-- The consumer suspends on something else. -/
  | consumer_awaits_elsewhere
  /-- Another thread resumes the consumer from there. -/
  | consumer_resumed_elsewhere
  /-- The consumer, the generator destroyed, suspends on something else or finishes. -/
  | consumer_leaves
  /-- The body reaches `co_yield` of the object at `address`: `yield_value` writes
  `m_currentValue`. -/
  | co_yield (address : Nat)
  /-- The body returns: `final_suspend` writes null to `m_currentValue`. -/
  | body_returns
  /-- An exception leaves the body: `unhandled_exception`, then `final_suspend`. -/
  | body_throws (e : E)
  /-- The producer executes its next instruction inside the yield operation. -/
  | producer_step
  /-- The body suspends on an awaitable that is not a yield. -/
  | producer_awaits_elsewhere
  /-- Another thread resumes the producer from there. -/
  | producer_resumed_elsewhere

/-- One step of one side. -/
def threads.step (moved_from : Option E) (s : threads E) : move E → Except stopped (threads E)
  | move.consumer_advances =>
    if s.consumer = consumer_point.user then
      if s.at_end then Except.error stopped.past_the_end
      else if s.frame.promise.m_state = state.value_ready_producer_suspended then
        Except.ok { s with consumer := consumer_point.ctor_store }
      else Except.ok (s.advance_operation s.frame.promise.m_state)
    else Except.error stopped.not_enabled
  | move.consumer_step => consumer_step moved_from s
  | move.consumer_destroys =>
    if s.consumer = consumer_point.user then
      match destructor (some 0) s.frame with
      | Except.error _ => Except.error stopped.assertion_failed
      | Except.ok f1 =>
        Except.ok { s with frame := f1,
                           producer := if destroys s.frame f1 then producer_point.destroyed
                                       else s.producer,
                           consumer := consumer_point.released }
    else Except.error stopped.not_enabled
  | move.consumer_awaits_elsewhere =>
    if s.consumer = consumer_point.user then
      Except.ok ({ s with consumer := consumer_point.elsewhere } : threads E).consumer_stops
    else Except.error stopped.not_enabled
  | move.consumer_resumed_elsewhere =>
    if s.consumer = consumer_point.elsewhere then
      Except.ok { s with consumer := consumer_point.user }
    else Except.error stopped.not_enabled
  | move.consumer_leaves =>
    if s.consumer = consumer_point.released then
      Except.ok ({ s with consumer := consumer_point.left } : threads E).consumer_stops
    else Except.error stopped.not_enabled
  | move.co_yield address =>
    if s.producer = producer_point.body then
      Except.ok { s with frame := store_value s.frame address,
                         producer := producer_point.yield_load }
    else Except.error stopped.not_enabled
  | move.body_returns =>
    if s.producer = producer_point.body then
      Except.ok { s with frame := store_value s.frame 0, final := true,
                         producer := producer_point.yield_load }
    else Except.error stopped.not_enabled
  | move.body_throws e =>
    if s.producer = producer_point.body then
      Except.ok { s with
        frame := store_value { s.frame with promise := unhandled_exception s.frame.promise e } 0,
        final := true, producer := producer_point.yield_load }
    else Except.error stopped.not_enabled
  | move.producer_step => producer_step s
  | move.producer_awaits_elsewhere =>
    if s.producer = producer_point.body then
      Except.ok ({ s with producer := producer_point.elsewhere } : threads E).producer_stops
    else Except.error stopped.not_enabled
  | move.producer_resumed_elsewhere =>
    if s.producer = producer_point.elsewhere then
      Except.ok { s with producer := producer_point.body }
    else Except.error stopped.not_enabled

/-- The steps of a list in order, up to the first that stops. -/
def threads.run (moved_from : Option E) : threads E → List (move E) → Except stopped (threads E)
  | s, [] => Except.ok s
  | s, m :: rest =>
    match s.step moved_from m with
    | Except.error e => Except.error e
    | Except.ok s1 => threads.run moved_from s1 rest

/-- The producer runs the generator body. -/
def producer_point.in_body : producer_point → Bool
  | producer_point.body => true
  | _ => false

/-- The producer executes an instruction of a yield operation. -/
def producer_point.in_operation : producer_point → Bool
  | producer_point.yield_load => true
  | producer_point.internal_store => true
  | producer_point.internal_reload => true
  | producer_point.first_exchange => true
  | producer_point.suspend_store => true
  | producer_point.suspend_reload => true
  | producer_point.second_exchange => true
  | producer_point.destroying => true
  | _ => false

/-- The consumer runs user code. -/
def consumer_point.in_user : consumer_point → Bool
  | consumer_point.user => true
  | consumer_point.released => true
  | _ => false

/-- The consumer executes an instruction of an advance operation. -/
def consumer_point.in_operation : consumer_point → Bool
  | consumer_point.ctor_store => true
  | consumer_point.ctor_reload => true
  | consumer_point.suspend_enter _ => true
  | consumer_point.first_exchange => true
  | consumer_point.suspend_store => true
  | consumer_point.suspend_reload => true
  | consumer_point.last_exchange => true
  | consumer_point.await_resume => true
  | _ => false

/-- The combinations with the consumer in user code, owning the generator. -/
def occur_user : state → producer_point → Bool → Bool → Bool
  | state.value_ready_producer_suspended, producer_point.not_started,
    final, at_end => !final && !at_end
  | state.value_ready_producer_suspended, producer_point.suspended,
    final, at_end => !final || at_end
  | state.value_ready_producer_active, producer_point.internal_resume,
    final, at_end => !final || at_end
  | state.value_ready_producer_active, producer_point.internal_reload,
    final, at_end => !final || at_end
  | state.value_ready_producer_active, producer_point.suspend_resume,
    final, at_end => !final || at_end
  | state.value_ready_producer_active, producer_point.suspend_reload,
    final, at_end => !final || at_end
  | state.value_ready_producer_active, producer_point.second_exchange,
    final, at_end => !final || at_end
  | _, _, _, _ => false

/-- The combinations with the consumer suspended in user code on something else. -/
def occur_elsewhere : state → producer_point → Bool → Bool → Bool
  | state.value_ready_producer_suspended, producer_point.not_started,
    final, at_end => !final && !at_end
  | state.value_ready_producer_suspended, producer_point.suspended,
    final, at_end => !final || at_end
  | state.value_ready_producer_active, producer_point.internal_reload,
    final, at_end => !final || at_end
  | state.value_ready_producer_active, producer_point.suspend_reload,
    final, at_end => !final || at_end
  | state.value_ready_producer_active, producer_point.second_exchange,
    final, at_end => !final || at_end
  | _, _, _, _ => false

/-- The combinations with the consumer about to resume the producer from the constructor. -/
def occur_ctor_store : state → producer_point → Bool → Bool → Bool
  | state.value_ready_producer_suspended, producer_point.not_started,
    final, at_end => !final && !at_end
  | state.value_ready_producer_suspended, producer_point.suspended,
    final, at_end => !final && !at_end
  | _, _, _, _ => false

/-- The combinations with the consumer inside a call `producerCoroutine.resume()`. -/
def occur_calling : state → producer_point → Bool → Bool → Bool
  | state.value_not_ready_consumer_active, producer_point.body, final, at_end => !final && !at_end
  | state.value_not_ready_consumer_active, producer_point.yield_load, _, at_end => !at_end
  | state.value_not_ready_consumer_active, producer_point.first_exchange, _, at_end => !at_end
  | _, _, _, _ => false

/-- The combinations with the consumer in its operation after the producer was resumed and
before the consumer suspends. -/
def occur_awaiting : state → producer_point → Bool → Bool → Bool
  | state.value_ready_producer_suspended, producer_point.suspended, _, at_end => !at_end
  | state.value_not_ready_consumer_active, producer_point.body, final, at_end => !final && !at_end
  | state.value_not_ready_consumer_active, producer_point.elsewhere,
    final, at_end => !final && !at_end
  | state.value_not_ready_consumer_active, producer_point.yield_load, _, at_end => !at_end
  | state.value_not_ready_consumer_active, producer_point.first_exchange, _, at_end => !at_end
  | _, _, _, _ => false

/-- The combinations with the consumer suspended in the generator. -/
def occur_suspended : state → producer_point → Bool → Bool → Bool
  | state.value_not_ready_consumer_suspended, producer_point.body,
    final, at_end => !final && !at_end
  | state.value_not_ready_consumer_suspended, producer_point.elsewhere,
    final, at_end => !final && !at_end
  | state.value_not_ready_consumer_suspended, producer_point.yield_load, _, at_end => !at_end
  | state.value_not_ready_consumer_suspended, producer_point.internal_store, _, at_end => !at_end
  | state.value_not_ready_consumer_suspended, producer_point.internal_reload,
    final, at_end => !final && !at_end
  | state.value_not_ready_consumer_suspended, producer_point.first_exchange, _, at_end => !at_end
  | state.value_not_ready_consumer_suspended, producer_point.suspend_store, _, at_end => !at_end
  | state.value_not_ready_consumer_suspended, producer_point.suspend_reload,
    final, at_end => !final && !at_end
  | state.value_not_ready_consumer_suspended, producer_point.second_exchange,
    final, at_end => !final && !at_end
  | _, _, _, _ => false

/-- The combinations with the consumer about to run `await_resume`. -/
def occur_await_resume : state → producer_point → Bool → Bool → Bool
  | state.value_ready_producer_suspended, producer_point.suspended, _, at_end => !at_end
  | state.value_ready_producer_active, producer_point.internal_resume, _, at_end => !at_end
  | state.value_ready_producer_active, producer_point.suspend_resume, _, at_end => !at_end
  | _, _, _, _ => false

/-- The combinations with the consumer in `await_suspend` of an operation built while the state
was `value_ready_producer_active`, up to its first compare-exchange. -/
def occur_handing : state → producer_point → Bool → Bool → Bool
  | state.value_ready_producer_suspended, producer_point.suspended,
    final, at_end => !final && !at_end
  | state.value_ready_producer_active, producer_point.internal_resume,
    final, at_end => !final && !at_end
  | state.value_ready_producer_active, producer_point.internal_reload,
    final, at_end => !final && !at_end
  | state.value_ready_producer_active, producer_point.suspend_resume,
    final, at_end => !final && !at_end
  | state.value_ready_producer_active, producer_point.suspend_reload,
    final, at_end => !final && !at_end
  | state.value_ready_producer_active, producer_point.second_exchange,
    final, at_end => !final && !at_end
  | _, _, _, _ => false

/-- The combinations with the consumer about to resume the producer from `await_suspend`. -/
def occur_suspend_store : state → producer_point → Bool → Bool → Bool
  | state.value_ready_producer_suspended, producer_point.suspended,
    final, at_end => !final && !at_end
  | _, _, _, _ => false

/-- The combinations with the consumer in user code after the destructor. -/
def occur_released : state → producer_point → Bool → Bool → Bool
  | state.cancelled, producer_point.internal_resume, final, at_end => !final || at_end
  | state.cancelled, producer_point.internal_reload, final, at_end => !final || at_end
  | state.cancelled, producer_point.suspend_resume, final, at_end => !final || at_end
  | state.cancelled, producer_point.suspend_reload, final, at_end => !final || at_end
  | state.cancelled, producer_point.second_exchange, final, at_end => !final || at_end
  | state.cancelled, producer_point.destroying, final, at_end => !final || at_end
  | state.cancelled, producer_point.destroyed, final, at_end => !final || at_end
  | _, _, _, _ => false

/-- The combinations with the consumer gone after the destructor. -/
def occur_left : state → producer_point → Bool → Bool → Bool
  | state.cancelled, producer_point.internal_reload, final, at_end => !final || at_end
  | state.cancelled, producer_point.suspend_reload, final, at_end => !final || at_end
  | state.cancelled, producer_point.second_exchange, final, at_end => !final || at_end
  | state.cancelled, producer_point.destroying, final, at_end => !final || at_end
  | state.cancelled, producer_point.destroyed, final, at_end => !final || at_end
  | _, _, _, _ => false

/-- The combinations of state word, positions and flags that occur in some interleaving. -/
def positions_occur (word : state) (p : producer_point) (c : consumer_point)
    (final at_end : Bool) : Bool :=
  match c with
  | consumer_point.user => occur_user word p final at_end
  | consumer_point.elsewhere => occur_elsewhere word p final at_end
  | consumer_point.ctor_store => occur_ctor_store word p final at_end
  | consumer_point.ctor_resume => occur_calling word p final at_end
  | consumer_point.ctor_reload => occur_awaiting word p final at_end
  | consumer_point.suspend_enter state.value_not_ready_consumer_active =>
    occur_awaiting word p final at_end
  | consumer_point.suspend_enter state.value_ready_producer_active =>
    occur_handing word p final at_end
  | consumer_point.suspend_enter _ => false
  | consumer_point.first_exchange => occur_handing word p final at_end
  | consumer_point.suspend_store => occur_suspend_store word p final at_end
  | consumer_point.suspend_resume => occur_calling word p final at_end
  | consumer_point.suspend_reload => occur_awaiting word p final at_end
  | consumer_point.last_exchange => occur_awaiting word p final at_end
  | consumer_point.suspended => occur_suspended word p final at_end
  | consumer_point.await_resume => occur_await_resume word p final at_end
  | consumer_point.released => occur_released word p final at_end
  | consumer_point.left => occur_left word p final at_end

/-- The invariant of the two sides on several threads: the state word, the positions and the
flags form a combination of the table, and once the body has ended `m_currentValue` is null. -/
def threads.consistent (s : threads E) : Prop :=
  positions_occur s.frame.promise.m_state s.producer s.consumer s.final s.at_end = true ∧
  (s.final = true → s.frame.promise.m_currentValue = 0)

/-- The consumer waits on something that is not the generator, or has finished. -/
def consumer_point.waits_elsewhere : consumer_point → Bool
  | consumer_point.elsewhere => true
  | consumer_point.left => true
  | _ => false

end async_generator

/-! ## Properties of the Result Computation -/

/-- The exchange at the final suspend point always leaves the state `finished`, resumes the
stored continuation when the previous state was `consumer_suspended` and resumes nothing
otherwise. -/
theorem final_suspend_await_suspend_spec (p : async_promise T E) :
    (final_suspend_await_suspend p).2.1.m_state = state.finished ∧
    (p.m_state = state.consumer_suspended →
      (final_suspend_await_suspend p).2.2 = [p.m_continuation.resume]) ∧
    (p.m_state ≠ state.consumer_suspended → (final_suspend_await_suspend p).2.2 = []) := by
  refine ⟨rfl, ?_, ?_⟩
  · intro h
    simp [final_suspend_await_suspend, h]
  · intro h
    simp [final_suspend_await_suspend, h]

theorem resume_ne_construct (c : continuation) (f : Nat) :
    c.resume ≠ event.construct_value f := by
  unfold continuation.resume
  split <;> simp

@[simp] theorem upd_same {α : Type} (f : Nat → α) (a : Nat) (v : α) : upd f a v a = v := by
  simp [upd]

@[simp] theorem read_ne_resume (c : continuation) (f : Nat) :
    event.read_value f ≠ c.resume := by
  unfold continuation.resume
  split <;> simp

@[simp] theorem resume_eq_read (c : continuation) (f : Nat) :
    (c.resume = event.read_value f) = False := by
  unfold continuation.resume
  split <;> simp

@[simp] theorem resume_eq_construct (c : continuation) (f : Nat) :
    (c.resume = event.construct_value f) = False := by
  unfold continuation.resume
  split <;> simp

@[simp] theorem construct_ne_resume (c : continuation) (f : Nat) :
    event.construct_value f ≠ c.resume := by
  unfold continuation.resume
  split <;> simp

/-- C1: on a running Result Computation a consumer that attaches before completion is
suspended (`await_ready` is false, `try_await` succeeds, `await_suspend` returns true) without
being resumed; the completion step (`co_return v` then the final suspend point) swaps the state
to `finished` and resumes the stored continuation, once; the consumer then reads `v`.  This
holds for every way the two steps of attaching can interleave with the end of the body and
the `await_ready` of the final suspend point.  In general the exchange at the final suspend
point leaves the state `finished` and resumes the stored continuation if and only if the
previous state was `consumer_suspended`. -/
theorem attach_before_completion_resumed_once (w : world T E) (self frame awaiter : Nat)
    (v : T)
    (hh : w.handle self = some frame)
    (hrun : (w.promise frame).m_state = state.running)
    (hexc : (w.promise frame).m_exception = none)
    (hlive : w.terminated = false) :
    let c : continuation := { m_state := awaiter }
    let w1 := (async.await_suspend (some frame) awaiter w).2
    let w2 := co_return frame v w1
    let w3 := (final_suspend frame w2).2
    async.await_ready (some frame) w = false ∧
    (try_await (w.promise frame) c).1 = true ∧
    (async.await_suspend (some frame) awaiter w).1 = true ∧
    (w1.promise frame).m_state = state.consumer_suspended ∧
    (w1.promise frame).m_continuation = c ∧
    w1.log = w.log ∧
    w2.log = w.log ++ [event.construct_value frame] ∧
    (w3.promise frame).m_state = state.finished ∧
    w3.log = w.log ++ [event.construct_value frame, event.resume_coroutine awaiter] ∧
    w3.resumed c = w.resumed c + 1 ∧
    (async.await_resume (some frame) w3).1 = Except.ok (some v) ∧
    (∀ p : async_promise T E,
      (final_suspend_await_suspend p).2.1.m_state = state.finished ∧
      (final_suspend_await_suspend p).2.2 =
        (if p.m_state = state.consumer_suspended then [p.m_continuation.resume] else [])) ∧
    (∀ sched ∈ [
      [action.co_await_ready, action.co_await_suspend awaiter, action.body_returns v,
        action.final_await_ready, action.final_await_suspend, action.co_await_resume],
      [action.co_await_ready, action.body_returns v, action.co_await_suspend awaiter,
        action.final_await_ready, action.final_await_suspend, action.co_await_resume],
      [action.co_await_ready, action.body_returns v, action.final_await_ready,
        action.co_await_suspend awaiter, action.final_await_suspend, action.co_await_resume],
      [action.body_returns v, action.co_await_ready, action.co_await_suspend awaiter,
        action.final_await_ready, action.final_await_suspend, action.co_await_resume],
      [action.body_returns v, action.co_await_ready, action.final_await_ready,
        action.co_await_suspend awaiter, action.final_await_suspend, action.co_await_resume],
      [action.body_returns v, action.final_await_ready, action.co_await_ready,
        action.co_await_suspend awaiter, action.final_await_suspend, action.co_await_resume]],
      (run frame self sched (start_config w)).w.log =
        w.log ++ [event.construct_value frame, event.resume_coroutine awaiter,
                  event.read_value frame] ∧
      (run frame self sched (start_config w)).consumer = consumer_pc.idle ∧
      (run frame self sched (start_config w)).producer = producer_pc.suspended_final) := by
  intro c w1 w2 w3
  have h1 : w1.promise frame =
      { w.promise frame with m_continuation := c, m_state := state.consumer_suspended } := by
    simp [w1, c, async.await_suspend, try_await, world.set_promise, upd, hrun]
  have hl1 : w1.log = w.log := by
    simp [w1, async.await_suspend, world.set_promise]
  have h2 : w2.promise frame =
      { w.promise frame with m_continuation := c, m_state := state.consumer_suspended,
                             m_valueStorage := some v } := by
    simp [w2, co_return, return_value, world.set_promise, world.emit, upd, h1]
  have hl2 : w2.log = w.log ++ [event.construct_value frame] := by
    simp [w2, co_return, return_value, world.set_promise, world.emit, hl1]
  have h3 : w3.promise frame =
      { w.promise frame with m_continuation := c, m_state := state.finished,
                             m_valueStorage := some v } := by
    simp [w3, final_suspend, final_suspend_await_ready, final_suspend_await_suspend,
      world.set_promise, world.emit, upd, h2]
  have hl3 : w3.log = w.log ++ [event.construct_value frame, event.resume_coroutine awaiter] := by
    simp [w3, final_suspend, final_suspend_await_ready, final_suspend_await_suspend,
      world.set_promise, world.emit, h2, hl2, continuation.resume, c]
  have hc : c.resume = event.resume_coroutine awaiter := by
    simp [c, continuation.resume]
  have hnt : event.terminate ∉ w.log := by
    simpa [world.terminated] using hlive
  refine ⟨?_, ?_, ?_, ?_, ?_, hl1, hl2, ?_, hl3, ?_, ?_, ?_, ?_⟩
  · simp [async.await_ready, is_ready, hrun]
  · simp [try_await, hrun]
  · simp [async.await_suspend, try_await, hrun]
  · rw [h1]
  · rw [h1]
  · rw [h3]
  · simp [world.resumed, hl3, hc, List.count_append]
  · simp [async.await_resume, result, h3, hexc]
  · intro p
    refine ⟨rfl, ?_⟩
    by_cases h : p.m_state = state.consumer_suspended <;>
      simp [final_suspend_await_suspend, h]
  · intro sched hs
    simp only [List.mem_cons, List.mem_singleton, List.not_mem_nil, or_false] at hs
    rcases hs with rfl | rfl | rfl | rfl | rfl | rfl <;>
      simp [run, step, start_config, world.terminated, hnt, hh, hrun, hexc,
        async.operator_co_await, async.await_ready, async.await_suspend, async.await_resume,
        try_await, detail.is_ready, result, co_return, return_value,
        final_suspend_await_ready, final_suspend_await_suspend,
        world.set_handle, world.set_promise, world.emit, continuation.resume]

theorem attach_before_completion_resumed_once_witness :
    let w : world Nat Nat := { promise := fun _ => {}, handle := fun _ => some 0 }
    w.handle 1 = some 0 ∧ (w.promise 0).m_state = state.running ∧
    (w.promise 0).m_exception = none ∧ w.terminated = false ∧
    ((final_suspend 0 (co_return 0 7 (async.await_suspend (some 0) 5 w).2)).2.log =
        [event.construct_value 0, event.resume_coroutine 5]) :=
  ⟨rfl, rfl, rfl, rfl, by
    have h := (attach_before_completion_resumed_once
      ({ promise := fun _ => {}, handle := fun _ => some 0 } : world Nat Nat) 1 0 5 7
      rfl rfl rfl rfl)
    simpa using h.2.2.2.2.2.2.2.2.1⟩

/-- C2: attaching to a finished Result Computation never suspends, and `await_resume` yields
the stored value when the body returned one and rethrows the stored failure when the body
failed; a body that ends by `co_return v` (or by throwing `e`) while the consumer has not
detached leaves exactly such a finished promise, for every `v` and every `e`. -/
theorem attach_after_completion_returns_stored (w : world T E) (frame : Nat)
    (hfin : (w.promise frame).m_state = state.finished) :
    async.await_ready (some frame) w = true ∧
    (∀ v : T, (w.promise frame).m_exception = none →
      (w.promise frame).m_valueStorage = some v →
      (async.await_resume (some frame) w).1 = Except.ok (some v)) ∧
    (∀ e : E, (w.promise frame).m_exception = some e →
      (async.await_resume (some frame) w).1 = Except.error (thrown.rethrown e)) ∧
    (∀ (w0 : world T E) (v : T),
      (w0.promise frame).m_state = state.running ∨
        (w0.promise frame).m_state = state.consumer_suspended →
      (w0.promise frame).m_exception = none →
      ((final_suspend frame (co_return frame v w0)).2.promise frame).m_state = state.finished ∧
      async.await_ready (some frame) (final_suspend frame (co_return frame v w0)).2 = true ∧
      (async.await_resume (some frame) (final_suspend frame (co_return frame v w0)).2).1
        = Except.ok (some v)) ∧
    (∀ (w0 : world T E) (e : E),
      (w0.promise frame).m_state = state.running ∨
        (w0.promise frame).m_state = state.consumer_suspended →
      ((final_suspend frame (body_throws frame e w0)).2.promise frame).m_state = state.finished ∧
      async.await_ready (some frame) (final_suspend frame (body_throws frame e w0)).2 = true ∧
      (async.await_resume (some frame) (final_suspend frame (body_throws frame e w0)).2).1
        = Except.error (thrown.rethrown e)) := by
  refine ⟨?_, ?_, ?_, ?_, ?_⟩
  · simp [async.await_ready, is_ready, hfin]
  · intro v he hv
    simp [async.await_resume, result, he, hv]
  · intro e he
    simp [async.await_resume, result, he]
  · intro w0 v hs he
    rcases hs with hs | hs <;>
      simp [final_suspend, final_suspend_await_ready, final_suspend_await_suspend, co_return,
        return_value, world.set_promise, world.emit, upd, hs, he, async.await_ready,
        async.await_resume, result, is_ready]
  · intro w0 e hs
    rcases hs with hs | hs <;>
      simp [final_suspend, final_suspend_await_ready, final_suspend_await_suspend, body_throws,
        unhandled_exception, world.set_promise, world.emit, upd, hs, async.await_ready,
        async.await_resume, result, is_ready]

theorem attach_after_completion_returns_stored_witness :
    let w : world Nat Nat :=
      { promise := fun _ => { m_state := state.finished, m_valueStorage := some 7 },
        handle := fun _ => some 0 }
    (w.promise 0).m_state = state.finished ∧
    async.await_ready (some 0) w = true ∧
    (async.await_resume (some 0) w).1 = Except.ok (some 7) :=
  ⟨rfl,
   (attach_after_completion_returns_stored
      ({ promise := fun _ => { m_state := state.finished, m_valueStorage := some 7 },
         handle := fun _ => some 0 } : world Nat Nat) 0 rfl).1,
   (attach_after_completion_returns_stored
      ({ promise := fun _ => { m_state := state.finished, m_valueStorage := some 7 },
         handle := fun _ => some 0 } : world Nat Nat) 0 rfl).2.1 7 rfl rfl⟩

/-- C4 (the code at the failing input): a consumer awaits a running computation through the
handle and is suspended; `detach()` on the still non-empty handle then finds the state
`consumer_suspended`, so `try_detach` returns false and `detach()` destroys the frame of a
computation that has not finished; the suspended consumer is never resumed. -/
theorem detach_with_suspended_consumer_destroys_frame :
    let w0 : world Nat Nat := { promise := fun _ => {}, handle := fun _ => some 0 }
    let w1 := (async.await_suspend (async.operator_co_await 1 w0) 5 w0).2
    let w2 := async.detach 1 w1
    (w1.promise 0).m_state = state.consumer_suspended ∧
    w1.handle 1 = some 0 ∧
    (try_detach (w1.promise 0)).1 = false ∧
    w2.log = [event.destroy_value 0 false, event.destroy_frame 0] ∧
    w2.frame_destroyed 0 = 1 ∧
    (w2.promise 0).m_state = state.consumer_detached ∧
    w2.handle 1 = none := by
  decide

/-- C5: awaiting through an empty handle never suspends and `await_resume` throws
`broken_promise`, so it never returns a value; the `when_ready` awaitable of the same handle is
ready and its `await_resume` completes without throwing.  A default-constructed handle, a
moved-from handle and a detached handle are all empty. -/
theorem await_empty_handle_broken_promise (w : world T E) (self : Nat)
    (hempty : w.handle self = none) :
    async.await_ready (async.operator_co_await self w) w = true ∧
    async.await_resume (async.operator_co_await self w) w
      = (Except.error thrown.broken_promise, w) ∧
    (∀ r : Option T,
      (async.await_resume (async.operator_co_await self w) w).1 ≠ Except.ok r) ∧
    async.await_ready (async.when_ready self w) w = true ∧
    async.when_ready_await_resume (async.when_ready self w) w = ((), w) ∧
    (∀ w0 : world T E, (async.default_construct self w0).handle self = none) ∧
    (∀ w0 : world T E, (async.detach self w0).handle self = none) ∧
    (∀ (w0 : world T E) (target : Nat), target ≠ self →
      (async.move_construct target self w0).handle self = none) ∧
    (∀ (w0 : world T E) (target : Nat), target ≠ self →
      (async.move_assign target self w0).terminated = false →
      (async.move_assign target self w0).handle self = none) := by
  refine ⟨?_, ?_, ?_, ?_, rfl, ?_, ?_, ?_, ?_⟩
  · simp [async.operator_co_await, hempty, async.await_ready]
  · simp [async.operator_co_await, hempty, async.await_resume]
  · intro r
    simp [async.operator_co_await, hempty, async.await_resume]
  · simp [async.when_ready, hempty, async.await_ready]
  · intro w0
    simp [async.default_construct, world.set_handle, upd]
  · intro w0
    unfold async.detach
    cases h : w0.handle self with
    | none => simpa using h
    | some coro =>
      simp only []
      split <;> simp [coroutine_destroy, world.emit, world.set_promise, world.set_handle, upd]
  · intro w0 target hne
    have hne2 : self ≠ target := fun h => hne h.symm
    simp [async.move_construct, world.set_handle, upd, hne2]
  · intro w0 target hne hterm
    have hne2 : self ≠ target := fun h => hne h.symm
    unfold async.move_assign at hterm ⊢
    simp only [hne2, ne_eq, not_false_eq_true, if_true] at hterm ⊢
    split
    · rename_i ht
      rw [if_pos ht] at hterm
      rw [ht] at hterm
      exact Bool.noConfusion hterm
    · simp [world.set_handle, upd, hne2]

theorem await_empty_handle_broken_promise_witness :
    let w : world Nat Nat := { promise := fun _ => {}, handle := fun _ => none }
    w.handle 0 = none ∧
    (async.await_resume (async.operator_co_await 0 w) w).1 = Except.error thrown.broken_promise :=
  ⟨rfl, by
    have h := await_empty_handle_broken_promise
      ({ promise := fun _ => {}, handle := fun _ => none } : world Nat Nat) 0 rfl
    exact congrArg Prod.fst h.2.1⟩

/-- C6 as stated fails: move-assigning a non-empty handle whose computation is still running
to itself neither terminates the process nor changes anything. -/
theorem self_move_assign_does_not_terminate :
    let w : world Nat Nat := { promise := fun _ => {}, handle := fun _ => some 0 }
    ¬ ((async.move_assign 1 1 w).terminated = true ↔
        (w.handle 1 ≠ none ∧ (w.promise 0).m_state ≠ state.finished)) := by
  decide

/-- C6, amended: destroying a handle, or move-assigning a different handle object over it,
terminates the process if and only if the handle is non-empty and the state of its computation
is not `finished`; if the state is `finished` the frame is destroyed exactly once without
terminating; if the handle is empty nothing is destroyed.  Move-assigning a handle to itself
does nothing. -/
theorem destroy_terminates_iff_unfinished (w : world T E) (self : Nat)
    (hlive : w.terminated = false) :
    ((async.destroy self w).terminated = true ↔
      ∃ frame, w.handle self = some frame ∧ (w.promise frame).m_state ≠ state.finished) ∧
    (async.destructor self w = async.destroy self w) ∧
    (∀ other, other ≠ self →
      ((async.move_assign self other w).terminated = true ↔
        ∃ frame, w.handle self = some frame ∧ (w.promise frame).m_state ≠ state.finished)) ∧
    (∀ other, other ≠ self → (async.move_assign self other w).log = (async.destroy self w).log) ∧
    (∀ frame, w.handle self = some frame → (w.promise frame).m_state = state.finished →
      (async.destroy self w).log =
        w.log ++ promise_destructor frame (w.promise frame) ++ [event.destroy_frame frame] ∧
      (async.destroy self w).terminated = false ∧
      (async.destroy self w).frame_destroyed frame = w.frame_destroyed frame + 1) ∧
    (w.handle self = none → async.destroy self w = w) ∧
    (∀ other, other ≠ self → (async.move_assign self other w).terminated = false →
      (async.move_assign self other w).handle self = w.handle other ∧
      (async.move_assign self other w).handle other = none) ∧
    async.move_assign self self w = w := by
  have hnot : event.terminate ∉ w.log := by
    simpa [world.terminated] using hlive
  have hdestroy : (async.destroy self w).terminated = true ↔
      ∃ frame, w.handle self = some frame ∧ (w.promise frame).m_state ≠ state.finished := by
    unfold async.destroy
    cases h : w.handle self with
    | none => simp [hlive]
    | some frame =>
      by_cases hf : (w.promise frame).m_state = state.finished
      · simp [detail.is_ready, hf, coroutine_destroy, world.emit, world.terminated,
          promise_destructor, hnot]
      · simp [detail.is_ready, hf, world.emit, world.terminated]
  refine ⟨hdestroy, rfl, ?_, ?_, ?_, ?_, ?_, ?_⟩
  · intro other hne
    unfold async.move_assign
    rw [if_pos hne]
    rw [← hdestroy]
    by_cases ht : (async.destroy self w).terminated = true
    · simp only [ht, if_true]
    · simp only [ht]
      simp [world.set_handle, world.terminated] at ht ⊢
      exact ht
  · intro other hne
    unfold async.move_assign
    rw [if_pos hne]
    by_cases ht : (async.destroy self w).terminated = true
    · simp only [ht, if_true]
    · simp [ht, world.set_handle]
  · intro frame hh hf
    have hlog : (async.destroy self w).log =
        w.log ++ promise_destructor frame (w.promise frame) ++ [event.destroy_frame frame] := by
      simp [async.destroy, hh, detail.is_ready, hf, coroutine_destroy, world.emit]
    refine ⟨hlog, ?_, ?_⟩
    · simp only [world.terminated, hlog]
      simp [hnot, promise_destructor]
    · simp only [world.frame_destroyed, hlog, List.count_append]
      simp [promise_destructor]
      split <;> simp
  · intro hh
    simp [async.destroy, hh]
  · intro other hne hterm
    unfold async.move_assign at hterm ⊢
    rw [if_pos hne] at hterm ⊢
    by_cases ht : (async.destroy self w).terminated = true
    · rw [if_pos ht] at hterm
      rw [ht] at hterm
      exact Bool.noConfusion hterm
    · rw [if_neg ht]
      have hhandle : (async.destroy self w).handle = w.handle := by
        unfold async.destroy
        cases w.handle self with
        | none => rfl
        | some frame =>
          simp only []
          split <;> simp [coroutine_destroy, world.emit]
      have hne2 : self ≠ other := fun h => hne h.symm
      simp [world.set_handle, upd, hhandle, hne]
  · simp [async.move_assign]

theorem destroy_terminates_iff_unfinished_witness :
    let w : world Nat Nat := { promise := fun _ => {}, handle := fun _ => some 0 }
    w.terminated = false ∧ (async.destroy 1 w).terminated = true :=
  ⟨rfl, (destroy_terminates_iff_unfinished
      ({ promise := fun _ => {}, handle := fun _ => some 0 } : world Nat Nat) 1 rfl).1.2
      ⟨0, rfl, by decide⟩⟩

/-- C7: `start(c)` resumes `c` synchronously exactly when the handle is empty, or the
computation is already finished, or `try_await(c)` fails; otherwise it stores `c` and resumes
nothing.  For a computation that is running when `start` is called the later completion
resumes `c`, and for one that is finished `start` itself does: in both cases `c` is resumed
exactly once overall. -/
theorem starter_resumes_exactly_once (w : world T E) (m_coroutine : Option Nat)
    (c : continuation) :
    ((async.start m_coroutine c w).log = w.log ++ [c.resume] ↔
      (m_coroutine = none ∨ ∃ frame, m_coroutine = some frame ∧
        (is_ready (w.promise frame) = true ∨ (try_await (w.promise frame) c).1 = false))) ∧
    ((async.start m_coroutine c w).log = w.log ↔
      ¬ (m_coroutine = none ∨ ∃ frame, m_coroutine = some frame ∧
        (is_ready (w.promise frame) = true ∨ (try_await (w.promise frame) c).1 = false))) ∧
    (∀ frame, m_coroutine = some frame → (w.promise frame).m_state = state.running →
      (async.start m_coroutine c w).log = w.log ∧
      ((async.start m_coroutine c w).promise frame).m_continuation = c ∧
      ((async.start m_coroutine c w).promise frame).m_state = state.consumer_suspended ∧
      (∀ v : T,
        (final_suspend frame (co_return frame v (async.start m_coroutine c w))).2.log
          = w.log ++ [event.construct_value frame, c.resume] ∧
        (final_suspend frame (co_return frame v (async.start m_coroutine c w))).2.resumed c
          = w.resumed c + 1) ∧
      (∀ e : E,
        (final_suspend frame (body_throws frame e (async.start m_coroutine c w))).2.log
          = w.log ++ [c.resume] ∧
        (final_suspend frame (body_throws frame e (async.start m_coroutine c w))).2.resumed c
          = w.resumed c + 1)) ∧
    (∀ frame, m_coroutine = some frame → (w.promise frame).m_state = state.finished →
      (async.start m_coroutine c w).log = w.log ++ [c.resume] ∧
      (async.start m_coroutine c w).resumed c = w.resumed c + 1) := by
  have hlen : w.log ++ [c.resume] ≠ w.log := by
    intro h
    have := congrArg List.length h
    simp at this
  refine ⟨?_, ?_, ?_, ?_⟩
  · cases m_coroutine with
    | none => simp [async.start, world.emit]
    | some frame =>
      by_cases hr : is_ready (w.promise frame) = true
      · simp [async.start, world.emit, hr]
      · by_cases ht : (try_await (w.promise frame) c).1 = true
        · simp [async.start, world.emit, world.set_promise, hr, ht]
        · simp [async.start, world.emit, world.set_promise, hr, ht]
  · cases m_coroutine with
    | none => simp [async.start, world.emit]
    | some frame =>
      by_cases hr : is_ready (w.promise frame) = true
      · simp [async.start, world.emit, hr]
      · by_cases ht : (try_await (w.promise frame) c).1 = true
        · simp [async.start, world.emit, world.set_promise, hr, ht]
        · simp [async.start, world.emit, world.set_promise, hr, ht]
  · intro frame hm hrun
    subst hm
    have hp : (async.start (some frame) c w).promise frame =
        { w.promise frame with m_continuation := c, m_state := state.consumer_suspended } := by
      simp [async.start, is_ready, try_await, world.set_promise, world.emit, upd, hrun]
    have hl : (async.start (some frame) c w).log = w.log := by
      simp [async.start, is_ready, try_await, world.set_promise, world.emit, hrun]
    refine ⟨hl, by rw [hp], by rw [hp], ?_, ?_⟩
    · intro v
      have hlog : (final_suspend frame (co_return frame v (async.start (some frame) c w))).2.log
          = w.log ++ [event.construct_value frame, c.resume] := by
        simp [final_suspend, final_suspend_await_ready, final_suspend_await_suspend, co_return,
          return_value, world.set_promise, world.emit, upd, hp, hl]
      refine ⟨hlog, ?_⟩
      simp only [world.resumed, hlog, List.count_append]
      simp [List.count_cons, (resume_ne_construct c frame).symm]
    · intro e
      have hlog : (final_suspend frame (body_throws frame e (async.start (some frame) c w))).2.log
          = w.log ++ [c.resume] := by
        simp [final_suspend, final_suspend_await_ready, final_suspend_await_suspend, body_throws,
          unhandled_exception, world.set_promise, world.emit, upd, hp, hl]
      refine ⟨hlog, ?_⟩
      simp only [world.resumed, hlog, List.count_append]
      simp
  · intro frame hm hfin
    subst hm
    have hl : (async.start (some frame) c w).log = w.log ++ [c.resume] := by
      simp [async.start, is_ready, world.emit, hfin]
    refine ⟨hl, ?_⟩
    simp only [world.resumed, hl, List.count_append]
    simp

theorem starter_resumes_exactly_once_witness :
    let w : world Nat Nat := { promise := fun _ => {}, handle := fun _ => some 0 }
    (w.promise 0).m_state = state.running ∧
    (final_suspend 0 (co_return 0 7 (async.start (some 0) { m_callback := 3, m_state := 4 } w))).2.log
      = [event.construct_value 0, event.invoke_callback 3 4] :=
  ⟨rfl, by
    have h := ((starter_resumes_exactly_once
      ({ promise := fun _ => {}, handle := fun _ => some 0 } : world Nat Nat) (some 0)
      { m_callback := 3, m_state := 4 }).2.2.1 0 rfl rfl).2.2.2.1 7
    simpa [continuation.resume] using h.1⟩

/-! ## Executions: the invariant and what it gives -/

set_option maxHeartbeats 1000000 in
theorem inv_body_returns (frame self : Nat) (v : T) (s : config T E)
    (h : exec_inv frame self s) : exec_inv frame self (step frame self (action.body_returns v) s) := by
  unfold step
  by_cases ht : s.w.terminated = true
  · simpa [ht] using h
  · simp only [ht]
    obtain ⟨w, pc, cc, de⟩ := s
    obtain ⟨hh, hd, hr, hc, hp⟩ := h
    simp only at hh hd hr hc hp
    cases pc <;> first
      | exact ⟨hh, hd, hr, hc, hp⟩
      | (cases cc <;> rcases hh with hh | hh <;>
          cases hst : (w.promise frame).m_state <;>
          simp_all [exec_inv, consumer_inv, producer_inv, co_return, return_value,
            world.set_promise, world.set_handle, world.emit])

set_option maxHeartbeats 1000000 in
theorem inv_body_throws (frame self : Nat) (e : E) (s : config T E)
    (h : exec_inv frame self s) : exec_inv frame self (step frame self (action.body_throws e) s) := by
  unfold step
  by_cases ht : s.w.terminated = true
  · simpa [ht] using h
  · simp only [ht]
    obtain ⟨w, pc, cc, de⟩ := s
    obtain ⟨hh, hd, hr, hc, hp⟩ := h
    simp only at hh hd hr hc hp
    cases pc <;> first
      | exact ⟨hh, hd, hr, hc, hp⟩
      | (cases cc <;> rcases hh with hh | hh <;>
          cases hst : (w.promise frame).m_state <;>
          simp_all [exec_inv, consumer_inv, producer_inv, body_throws, unhandled_exception,
            world.set_promise, world.set_handle, world.emit])

set_option maxHeartbeats 1000000 in
theorem inv_final_await_ready (frame self : Nat) (s : config T E)
    (h : exec_inv frame self s) : exec_inv frame self (step frame self (action.final_await_ready) s) := by
  unfold step
  by_cases ht : s.w.terminated = true
  · simpa [ht] using h
  · simp only [ht]
    obtain ⟨w, pc, cc, de⟩ := s
    obtain ⟨hh, hd, hr, hc, hp⟩ := h
    simp only at hh hd hr hc hp
    cases pc <;> first
      | exact ⟨hh, hd, hr, hc, hp⟩
      | (cases cc <;> rcases hh with hh | hh <;>
          cases hst : (w.promise frame).m_state <;>
          simp_all [exec_inv, consumer_inv, producer_inv, final_suspend_await_ready, coroutine_destroy, promise_destructor,
            world.set_promise, world.set_handle, world.emit])

set_option maxHeartbeats 1000000 in
theorem inv_final_await_suspend (frame self : Nat) (s : config T E)
    (h : exec_inv frame self s) : exec_inv frame self (step frame self (action.final_await_suspend) s) := by
  unfold step
  by_cases ht : s.w.terminated = true
  · simpa [ht] using h
  · simp only [ht]
    obtain ⟨w, pc, cc, de⟩ := s
    obtain ⟨hh, hd, hr, hc, hp⟩ := h
    simp only at hh hd hr hc hp
    cases pc <;> first
      | exact ⟨hh, hd, hr, hc, hp⟩
      | (cases cc <;> rcases hh with hh | hh <;>
          cases hst : (w.promise frame).m_state <;>
          simp_all [exec_inv, consumer_inv, producer_inv, final_suspend_await_suspend, coroutine_destroy, promise_destructor,
            world.set_promise, world.set_handle, world.emit])

set_option maxHeartbeats 1000000 in
theorem inv_co_await_ready (frame self : Nat) (s : config T E)
    (h : exec_inv frame self s) : exec_inv frame self (step frame self (action.co_await_ready) s) := by
  unfold step
  by_cases ht : s.w.terminated = true
  · simpa [ht] using h
  · simp only [ht]
    obtain ⟨w, pc, cc, de⟩ := s
    obtain ⟨hh, hd, hr, hc, hp⟩ := h
    simp only at hh hd hr hc hp
    cases cc <;> first
      | exact ⟨hh, hd, hr, hc, hp⟩
      | (cases pc <;> rcases hh with hh | hh <;>
          cases hst : (w.promise frame).m_state <;>
          simp_all [exec_inv, consumer_inv, producer_inv, async.operator_co_await, async.await_ready, detail.is_ready,
            world.set_promise, world.set_handle, world.emit])

set_option maxHeartbeats 1000000 in
theorem inv_co_await_suspend (frame self : Nat) (awaiter : Nat) (s : config T E)
    (h : exec_inv frame self s) : exec_inv frame self (step frame self (action.co_await_suspend awaiter) s) := by
  unfold step
  by_cases ht : s.w.terminated = true
  · simpa [ht] using h
  · simp only [ht]
    obtain ⟨w, pc, cc, de⟩ := s
    obtain ⟨hh, hd, hr, hc, hp⟩ := h
    simp only at hh hd hr hc hp
    cases cc <;> first
      | exact ⟨hh, hd, hr, hc, hp⟩
      | (cases pc <;> rcases hh with hh | hh <;>
          cases hst : (w.promise frame).m_state <;>
          simp_all [exec_inv, consumer_inv, producer_inv, async.await_suspend, try_await,
            world.set_promise, world.set_handle, world.emit])

set_option maxHeartbeats 1000000 in
theorem inv_co_await_resume (frame self : Nat) (s : config T E)
    (h : exec_inv frame self s) : exec_inv frame self (step frame self (action.co_await_resume) s) := by
  unfold step
  by_cases ht : s.w.terminated = true
  · simpa [ht] using h
  · simp only [ht]
    obtain ⟨w, pc, cc, de⟩ := s
    obtain ⟨hh, hd, hr, hc, hp⟩ := h
    simp only at hh hd hr hc hp
    cases cc <;> first
      | exact ⟨hh, hd, hr, hc, hp⟩
      | (cases pc <;> rcases hh with hh | hh <;>
          cases hst : (w.promise frame).m_state <;>
          simp_all [exec_inv, consumer_inv, producer_inv, async.await_resume, result,
            world.set_promise, world.set_handle, world.emit])

set_option maxHeartbeats 1000000 in
theorem inv_detach (frame self : Nat) (s : config T E)
    (h : exec_inv frame self s) : exec_inv frame self (step frame self (action.detach) s) := by
  unfold step
  by_cases ht : s.w.terminated = true
  · simpa [ht] using h
  · simp only [ht]
    obtain ⟨w, pc, cc, de⟩ := s
    obtain ⟨hh, hd, hr, hc, hp⟩ := h
    simp only at hh hd hr hc hp
    cases cc <;> first
      | exact ⟨hh, hd, hr, hc, hp⟩
      | (cases pc <;> rcases hh with hh | hh <;>
          cases hst : (w.promise frame).m_state <;>
          simp_all [exec_inv, consumer_inv, producer_inv, async.detach, try_detach, coroutine_destroy, promise_destructor,
            world.set_promise, world.set_handle, world.emit])

set_option maxHeartbeats 1000000 in
theorem inv_destruct (frame self : Nat) (s : config T E)
    (h : exec_inv frame self s) : exec_inv frame self (step frame self (action.destruct) s) := by
  unfold step
  by_cases ht : s.w.terminated = true
  · simpa [ht] using h
  · simp only [ht]
    obtain ⟨w, pc, cc, de⟩ := s
    obtain ⟨hh, hd, hr, hc, hp⟩ := h
    simp only at hh hd hr hc hp
    cases cc <;> first
      | exact ⟨hh, hd, hr, hc, hp⟩
      | (cases pc <;> rcases hh with hh | hh <;>
          cases hst : (w.promise frame).m_state <;>
          simp_all [exec_inv, consumer_inv, producer_inv, async.destructor, async.destroy, detail.is_ready, coroutine_destroy, promise_destructor,
            world.set_promise, world.set_handle, world.emit])

theorem step_preserves_inv (frame self : Nat) (a : action T E) (s : config T E)
    (h : exec_inv frame self s) : exec_inv frame self (step frame self a s) := by
  cases a with
  | body_returns v => exact inv_body_returns frame self v s h
  | body_throws e => exact inv_body_throws frame self e s h
  | final_await_ready => exact inv_final_await_ready frame self s h
  | final_await_suspend => exact inv_final_await_suspend frame self s h
  | co_await_ready => exact inv_co_await_ready frame self s h
  | co_await_suspend awaiter => exact inv_co_await_suspend frame self awaiter s h
  | co_await_resume => exact inv_co_await_resume frame self s h
  | detach => exact inv_detach frame self s h
  | destruct => exact inv_destruct frame self s h

theorem run_preserves_inv (frame self : Nat) (sched : List (action T E)) (s : config T E)
    (h : exec_inv frame self s) : exec_inv frame self (run frame self sched s) := by
  induction sched generalizing s with
  | nil => exact h
  | cons a rest ih => exact ih _ (step_preserves_inv frame self a s h)

theorem start_config_inv (frame self : Nat) (w : world T E) (h : fresh frame self w) :
    exec_inv frame self (start_config w) := by
  obtain ⟨h1, _, _, h4, h5⟩ := h
  simp [exec_inv, start_config, consumer_inv, producer_inv, h1, h4, h5]


theorem step_new_events (frame self : Nat) (a : action T E) (s : config T E)
    (h : exec_inv frame self s) :
    ∀ ev ∈ new_events s (step frame self a s),
      (ev = event.construct_value frame → ∃ v, a = action.body_returns v) ∧
      (ev = event.read_value frame → (s.w.promise frame).m_state = state.finished) := by
  unfold step new_events
  by_cases ht : s.w.terminated = true
  · simp [ht]
  · simp only [ht]
    obtain ⟨w, pc, cc, de⟩ := s
    obtain ⟨hh, hd, hr, hc, hp⟩ := h
    simp only at hh hd hr hc hp
    cases a with
    | body_returns v =>
      cases pc <;> simp [co_return, return_value, world.set_promise, world.emit]
    | body_throws e =>
      cases pc <;> simp [body_throws, world.set_promise]
    | final_await_ready =>
      cases pc <;> cases hex : (w.promise frame).m_exception <;>
        cases hst : (w.promise frame).m_state <;>
        simp [final_suspend_await_ready, coroutine_destroy, promise_destructor,
          completed_with_unhandled_exception, world.emit, hex, hst]
    | final_await_suspend =>
      cases pc <;> cases hex : (w.promise frame).m_exception <;>
        cases hst : (w.promise frame).m_state <;>
        simp [final_suspend_await_suspend, coroutine_destroy, promise_destructor,
          completed_with_unhandled_exception, world.emit, world.set_promise, hex, hst]
    | co_await_ready =>
      cases cc <;> simp
      split <;> simp
    | co_await_suspend awaiter =>
      cases cc <;> simp
      split <;> simp [async.await_suspend, world.set_promise] <;> split <;> simp
    | co_await_resume =>
      cases cc <;> simp
      rename_i m
      cases m with
      | none => simp [async.await_resume]
      | some f =>
        cases hex : (w.promise f).m_exception <;>
          simp_all [async.await_resume, result, world.emit, consumer_inv]
    | detach =>
      cases cc <;> simp
      cases hw : w.handle self with
      | none => simp [async.detach, hw]
      | some coro =>
        cases hex : (w.promise coro).m_exception <;>
          cases hst : (w.promise coro).m_state <;>
          simp [async.detach, hw, try_detach, coroutine_destroy, promise_destructor,
            completed_with_unhandled_exception, world.emit, world.set_promise,
            world.set_handle, hex, hst]
    | destruct =>
      cases cc <;> simp
      cases hw : w.handle self with
      | none => simp [async.destructor, async.destroy, hw]
      | some coro =>
        cases hex : (w.promise coro).m_exception <;>
          cases hst : (w.promise coro).m_state <;>
          simp [async.destructor, async.destroy, detail.is_ready, hw, coroutine_destroy,
            promise_destructor, completed_with_unhandled_exception, world.emit, hex, hst]

/-- Outside the executions considered below: a second consumer that awaits while a first
one is suspended.  Its `try_await` fails, so `await_suspend` returns false and `await_resume`
runs at once, reading the value slot while the state is `consumer_suspended` and the slot
holds no object. -/
theorem second_consumer_reads_unfinished_slot :
    let w0 : world Nat Nat := { promise := fun _ => {}, handle := fun _ => some 0 }
    let w1 := (async.await_suspend (some 0) 5 w0).2
    let r := async.await_suspend (some 0) 6 w1
    r.1 = false ∧ (r.2.promise 0).m_state = state.consumer_suspended ∧
    (async.await_resume (some 0) r.2).1 = Except.ok none ∧
    (async.await_resume (some 0) r.2).2.log = [event.read_value 0] :=
  ⟨rfl, rfl, rfl, rfl⟩

/-- C8 as stated fails: the consumer detaches while the computation is running, the body then
returns a value; `return_value` constructs the value slot and the promise destructor destroys
it, so the slot of a computation detached before completing is touched. -/
theorem detached_slot_is_constructed_and_destroyed :
    let w0 : world Nat Nat := { promise := fun _ => {}, handle := fun _ => some 0 }
    let s := run 0 1 [action.detach, action.body_returns 7, action.final_await_ready]
      (start_config w0)
    s.detached_early = true ∧
    s.w.log = [event.construct_value 0, event.destroy_value 0 true, event.destroy_frame 0] ∧
    ¬ (s.detached_early = true → ∀ ev ∈ s.w.log,
        ev ≠ event.construct_value 0 ∧ ev ≠ event.read_value 0 ∧
        ev ≠ event.destroy_value 0 true ∧ ev ≠ event.destroy_value 0 false) := by
  decide

/-- C8, amended: in every execution of a value-producing Result Computation with one consumer
using the handle sequentially, the value slot is constructed only by `return_value` (the
success path) and is read only when the state is `finished`; if the consumer detached before
the computation completed the slot is never read, while a body that then returns a value still
constructs the slot, which the promise destructor destroys once when the coroutine ends. -/
theorem value_slot_discipline (frame self : Nat) (w0 : world T E) (sched : List (action T E))
    (h0 : fresh frame self w0) :
    (∀ a, ∀ ev ∈ new_events (run frame self sched (start_config w0))
        (step frame self a (run frame self sched (start_config w0))),
      (ev = event.construct_value frame → ∃ v, a = action.body_returns v) ∧
      (ev = event.read_value frame →
        ((run frame self sched (start_config w0)).w.promise frame).m_state = state.finished)) ∧
    ((run frame self sched (start_config w0)).detached_early = true →
      event.read_value frame ∉ (run frame self sched (start_config w0)).w.log) ∧
    (∀ v : T,
      (run frame self [action.detach, action.body_returns v, action.final_await_ready]
        (start_config w0)).w.log =
      [event.construct_value frame, event.destroy_value frame true,
       event.destroy_frame frame]) := by
  have hinv := run_preserves_inv frame self sched _ (start_config_inv frame self w0 h0)
  refine ⟨fun a => step_new_events frame self a _ hinv, fun hd => (hinv.2.1 hd).2, ?_⟩
  intro v
  obtain ⟨h1, h2, h3, h4, h5⟩ := h0
  simp [run, step, start_config, world.terminated, h5, h4, h1, h2, async.detach, try_detach,
    world.set_handle, world.set_promise, world.emit, co_return, return_value,
    final_suspend_await_ready, coroutine_destroy, promise_destructor,
    completed_with_unhandled_exception]

theorem value_slot_discipline_witness :
    let w0 : world Nat Nat := { promise := fun _ => {}, handle := fun _ => some 0 }
    fresh 0 1 w0 ∧
    event.read_value 0 ∉
      (run 0 1 [action.detach, action.body_returns 7, action.co_await_ready,
        action.co_await_resume] (start_config w0)).w.log :=
  ⟨⟨rfl, rfl, rfl, rfl, rfl⟩,
   (value_slot_discipline 0 1
      ({ promise := fun _ => {}, handle := fun _ => some 0 } : world Nat Nat)
      [action.detach, action.body_returns 7, action.co_await_ready, action.co_await_resume]
      ⟨rfl, rfl, rfl, rfl, rfl⟩).2.1 (by decide)⟩


/-! ## Properties of the mutex -/

namespace async_mutex

theorem is_list_congr (ops ops1 : Nat → lock_operation) (xs : List Nat) (head : Nat)
    (h : ∀ x ∈ xs, ops1 x = ops x) : is_list ops1 head xs ↔ is_list ops head xs := by
  induction xs generalizing head with
  | nil => simp [is_list]
  | cons x xs ih =>
    simp only [is_list]
    rw [h x (List.mem_cons_self x xs), ih _ (fun y hy => h y (List.mem_cons_of_mem x hy))]

theorem is_list_null (ops : Nat → lock_operation) (xs : List Nat) (h : is_list ops 0 xs) :
    xs = [] := by
  cases xs with
  | nil => rfl
  | cons x xs =>
    simp only [is_list] at h
    exact absurd h.1.symm h.2.1

theorem is_list_nonnull (ops : Nat → lock_operation) (head : Nat) (xs : List Nat)
    (h : is_list ops head xs) (hne : head ≠ 0) :
    ∃ rest, xs = head :: rest ∧ is_list ops (ops head).m_next rest := by
  cases xs with
  | nil => exact absurd h hne
  | cons x xs =>
    simp only [is_list] at h
    obtain ⟨h1, _, h3⟩ := h
    subst h1
    exact ⟨xs, rfl, h3⟩

theorem set_next_other (ops : Nat → lock_operation) (a next x : Nat) (h : x ≠ a) :
    set_next ops a next x = ops x := by
  simp [set_next, upd, h]

theorem set_next_same (ops : Nat → lock_operation) (a next : Nat) :
    (set_next ops a next a).m_next = next := by
  simp [set_next]

theorem set_next_awaiter (ops : Nat → lock_operation) (a next x : Nat) :
    (set_next ops a next x).m_awaiter = (ops x).m_awaiter := by
  by_cases h : x = a
  · subst h
    simp [set_next]
  · rw [set_next_other ops a next x h]

theorem set_awaiter_other (ops : Nat → lock_operation) (a c x : Nat) (h : x ≠ a) :
    set_awaiter ops a c x = ops x := by
  simp [set_awaiter, upd, h]

theorem set_next_idem (ops : Nat → lock_operation) (a next : Nat) :
    set_next (set_next ops a next) a next = set_next ops a next := by
  funext x
  by_cases h : x = a
  · subst h
    simp [set_next]
  · simp [set_next, upd, h]

theorem await_suspend_loop_spurious (this n : Nat) (m : mutex) :
    await_suspend_loop this n m = await_suspend_loop this 0 m := by
  induction n generalizing m with
  | zero => rfl
  | succ n ih =>
    by_cases h : m.m_state = not_locked
    · simp only [await_suspend_loop, h, if_true]
      rw [ih]
      simp [await_suspend_loop, h]
    · simp only [await_suspend_loop, h, if_false]
      rw [ih]
      simp [await_suspend_loop, h, set_next_idem]

theorem reverse_loop_spec (xs : List Nat) :
    ∀ (ys : List Nat) (ops : Nat → lock_operation) (next acc : Nat) (accessed : List Nat)
      (fuel : Nat),
      xs ≠ [] → is_list ops next xs → is_list ops acc ys → (xs ++ ys).Nodup →
      xs.length ≤ fuel →
      ∃ ops1 head, reverse_loop fuel ops next acc accessed = some (ops1, head, accessed ++ xs) ∧
        is_list ops1 head (xs.reverse ++ ys) ∧
        (∀ a, a ∉ xs → ops1 a = ops a) ∧
        (∀ a, (ops1 a).m_awaiter = (ops a).m_awaiter) := by
  induction xs with
  | nil => intro ys ops next acc accessed fuel hne; exact absurd rfl hne
  | cons x xs ih =>
    intro ys ops next acc accessed fuel _ hl hacc hnd hfuel
    simp only [is_list] at hl
    obtain ⟨hx, hx0, hrest⟩ := hl
    subst hx
    cases fuel with
    | zero => simp at hfuel
    | succ fuel =>
      have hnd1 : (next :: (xs ++ ys)).Nodup := by simpa using hnd
      have hxnot : next ∉ xs ++ ys := (List.nodup_cons.mp hnd1).1
      have hxs : next ∉ xs := fun h => hxnot (List.mem_append_left _ h)
      have hys : next ∉ ys := fun h => hxnot (List.mem_append_right _ h)
      have hacc1 : is_list (set_next ops next acc) next (next :: ys) := by
        show next = next ∧ next ≠ 0 ∧ is_list (set_next ops next acc)
          (set_next ops next acc next).m_next ys
        refine ⟨rfl, hx0, ?_⟩
        rw [set_next_same]
        rw [is_list_congr ops]
        · exact hacc
        · intro y hy
          exact set_next_other ops next acc y (fun h => hys (h ▸ hy))
      cases xs with
      | nil =>
        have htemp : (ops next).m_next = 0 := hrest
        refine ⟨set_next ops next acc, next, ?_, ?_, ?_, ?_⟩
        · simp [reverse_loop, htemp]
        · simpa using hacc1
        · intro a ha
          exact set_next_other ops next acc a (by simpa using ha)
        · intro a
          exact set_next_awaiter ops next acc a
      | cons y xs1 =>
        have hrest1 := hrest
        simp only [is_list] at hrest
        obtain ⟨hy, hy0, _⟩ := hrest
        have hrest2 : is_list (set_next ops next acc) (ops next).m_next (y :: xs1) := by
          rw [is_list_congr ops]
          · exact hrest1
          · intro z hz
            exact set_next_other ops next acc z (fun h => hxs (h ▸ hz))
        have hnd2 : ((y :: xs1) ++ (next :: ys)).Nodup := by
          have hp : ((y :: xs1) ++ (next :: ys)).Perm (next :: ((y :: xs1) ++ ys)) :=
            List.perm_middle
          exact hp.nodup_iff.mpr hnd1
        obtain ⟨ops1, head, h1, h2, h3, h4⟩ :=
          ih (next :: ys) (set_next ops next acc) (ops next).m_next next (accessed ++ [next]) fuel
            (by simp) hrest2 hacc1 hnd2 (by simpa using hfuel)
        refine ⟨ops1, head, ?_, ?_, ?_, ?_⟩
        · have hne : (ops next).m_next ≠ 0 := by rw [hy]; exact hy0
          simp only [reverse_loop, hne, ne_eq, not_false_eq_true, if_true]
          rw [h1]
          simp
        · simpa using h2
        · intro a ha
          have ha1 : a ≠ next := by
            intro h
            exact ha (h ▸ List.mem_cons_self _ _)
          have ha2 : a ∉ y :: xs1 := fun h => ha (List.mem_cons_of_mem _ h)
          rw [h3 a ha2, set_next_other ops next acc a ha1]
        · intro a
          rw [h4 a, set_next_awaiter]

theorem filter_served (c t : Nat) (rest : List (Nat × Nat))
    (hnd : (((c, t) :: rest).map Prod.snd).Nodup) :
    ((c, t) :: rest).filter (fun p => p.2 ≠ t) = rest := by
  have hnot : t ∉ rest.map Prod.snd := by
    have h := hnd
    rw [List.map_cons, List.nodup_cons] at h
    exact h.1
  rw [List.filter_cons_of_neg (by simp)]
  rw [List.filter_eq_self]
  intro p hp
  have : p.2 ≠ t := by
    intro h
    exact hnot (List.mem_map.mpr ⟨p, hp, h⟩)
  simpa using this

theorem apply_try_lock_spec (fuel c : Nat) (s : system) (hinv : invariant s) :
    ∃ s1, apply_op fuel (op.try_lock c) s = Except.ok s1 ∧ invariant s1 ∧
      s1.waiting = s.waiting ∧ s1.granted = s.granted ∧
      (s.holders = [] → s1.holders = [c]) ∧ (s.holders ≠ [] → s1.holders = s.holders) := by
  rcases hinv with ⟨h1, h2, h3, h4⟩ | ⟨h1, h2, hrest⟩
  · refine ⟨{ s with m := { s.m with m_state := locked_no_waiters }, holders := c :: s.holders },
      ?_, ?_, rfl, rfl, ?_, ?_⟩
    · simp [apply_op, try_lock, h1]
    · right
      refine ⟨by simp [locked_no_waiters, not_locked], by simp [h2], [], [], ?_, ?_, ?_, ?_, ?_, ?_⟩
      · simpa [is_list] using h4
      · simp [is_list, locked_no_waiters]
      · simp
      · simp
      · simp [h3]
      · simp [h3]
    · intro _
      simp [h2]
    · intro h
      exact absurd h2 h
  · refine ⟨s, ?_, Or.inr ⟨h1, h2, hrest⟩, rfl, rfl, ?_, ?_⟩
    · simp [apply_op, try_lock, h1]
    · intro h
      rw [h] at h2
      simp at h2
    · intro _
      rfl

theorem apply_lock_spec (fuel c self spurious : Nat) (s : system) (hinv : invariant s)
    (h0 : self ≠ 0) (h1 : self ≠ 1) (hfresh : self ∉ s.waiting.map Prod.snd) :
    ∃ s1, apply_op fuel (op.lock c self spurious) s = Except.ok s1 ∧ invariant s1 ∧
      (s.holders = [] →
        s1.holders = [c] ∧ s1.waiting = s.waiting ∧ s1.granted = s.granted ++ [c]) ∧
      (s.holders ≠ [] →
        s1.holders = s.holders ∧ s1.waiting = s.waiting ++ [(c, self)] ∧
        s1.granted = s.granted) := by
  have hvalid : ¬ (self = 0 ∨ self = 1 ∨ self ∈ s.waiting.map Prod.snd) := by
    simp only [not_or]
    exact ⟨h0, h1, hfresh⟩
  rcases hinv with ⟨hs, hh, hw, hmw⟩ | ⟨hs, hh, cache, queued, hc, hq, hnd, hne1, hmap, haw⟩
  · refine ⟨⟨⟨locked_no_waiters, s.m.m_waiters, set_awaiter s.m.ops self c⟩,
      c :: s.holders, s.waiting, s.granted ++ [c]⟩, ?_, ?_, ?_, ?_⟩
    · simp only [apply_op, if_neg hvalid, await_suspend]
      rw [await_suspend_loop_spurious]
      simp [await_suspend_loop, hs]
    · right
      refine ⟨by simp [locked_no_waiters, not_locked], by simp [hh], [], [], ?_, ?_, ?_, ?_, ?_, ?_⟩
      · simpa [is_list] using hmw
      · simp [is_list, locked_no_waiters]
      · simp
      · simp
      · simp [hw]
      · simp [hw]
    · intro _
      simp [hh]
    · intro h
      exact absurd hh h
  · have hnotin : self ∉ cache ++ queued := by
      intro h
      apply hfresh
      rw [hmap]
      rcases List.mem_append.mp h with h | h
      · exact List.mem_append_left _ h
      · exact List.mem_append_right _ (List.mem_reverse.mpr h)
    have hframe : ∀ x, x ≠ self →
        set_next (set_awaiter s.m.ops self c) self s.m.m_state x = s.m.ops x := by
      intro x hx
      rw [set_next_other _ _ _ _ hx, set_awaiter_other _ _ _ _ hx]
    refine ⟨⟨⟨self, s.m.m_waiters, set_next (set_awaiter s.m.ops self c) self s.m.m_state⟩,
      s.holders, s.waiting ++ [(c, self)], s.granted⟩, ?_, ?_, ?_, ?_⟩
    · simp only [apply_op, if_neg hvalid, await_suspend]
      rw [await_suspend_loop_spurious]
      simp [await_suspend_loop, hs]
    · right
      refine ⟨by simpa [not_locked] using h1, hh, cache, self :: queued, ?_, ?_, ?_, ?_, ?_, ?_⟩
      · show is_list (set_next (set_awaiter s.m.ops self c) self s.m.m_state) s.m.m_waiters cache
        rw [is_list_congr s.m.ops]
        · exact hc
        · intro x hx
          exact hframe x (fun h => hnotin (h ▸ List.mem_append_left _ hx))
      · show self = self ∧ self ≠ 0 ∧
          is_list (set_next (set_awaiter s.m.ops self c) self s.m.m_state)
            (set_next (set_awaiter s.m.ops self c) self s.m.m_state self).m_next queued
        refine ⟨rfl, h0, ?_⟩
        rw [set_next_same, is_list_congr s.m.ops]
        · exact hq
        · intro x hx
          exact hframe x (fun h => hnotin (h ▸ List.mem_append_right _ hx))
      · have hp : (cache ++ self :: queued).Perm (self :: (cache ++ queued)) := List.perm_middle
        rw [hp.nodup_iff]
        exact List.nodup_cons.mpr ⟨hnotin, hnd⟩
      · intro x hx
        rcases List.mem_append.mp hx with h | h
        · exact hne1 x (List.mem_append_left _ h)
        · rcases List.mem_cons.mp h with h | h
          · rw [h]; exact h1
          · exact hne1 x (List.mem_append_right _ h)
      · simp [hmap]
      · intro p hp
        show (set_next (set_awaiter s.m.ops self c) self s.m.m_state p.2).m_awaiter = p.1
        rcases List.mem_append.mp hp with h | h
        · have hpne : p.2 ≠ self := by
            intro heq
            exact hfresh (List.mem_map.mpr ⟨p, h, heq⟩)
          rw [hframe _ hpne]
          exact haw p h
        · have hpe : p = (c, self) := by simpa using h
          subst hpe
          rw [set_next_awaiter]
          simp [set_awaiter]
    · intro h
      rw [h] at hh
      simp at hh
    · intro _
      exact ⟨rfl, rfl, rfl⟩

theorem waiting_head_of_map (waiting : List (Nat × Nat)) (x : Nat) (rest : List Nat)
    (h : waiting.map Prod.snd = x :: rest) :
    ∃ c tail, waiting = (c, x) :: tail ∧ tail.map Prod.snd = rest := by
  cases waiting with
  | nil => simp at h
  | cons p tail =>
    obtain ⟨c, t⟩ := p
    simp only [List.map_cons, List.cons.injEq] at h
    obtain ⟨h1, h2⟩ := h
    subst h1
    exact ⟨c, tail, rfl, h2⟩

theorem apply_unlock_spec (fuel caller : Nat) (s : system) (hinv : invariant s)
    (hcaller : caller ∈ s.holders) (hfuel : s.waiting.length ≤ fuel) :
    ∃ s1, apply_op fuel (op.unlock caller) s = Except.ok s1 ∧ invariant s1 ∧
      (s.waiting = [] → s1.holders = [] ∧ s1.waiting = [] ∧ s1.granted = s.granted) ∧
      (∀ c t rest, s.waiting = (c, t) :: rest →
        s1.holders = [c] ∧ s1.waiting = rest ∧ s1.granted = s.granted ++ [c]) := by
  rcases hinv with ⟨_, hh, _, _⟩ | ⟨hs, hh, cache, queued, hc, hq, hnd, hne1, hmap, haw⟩
  · rw [hh] at hcaller
    simp at hcaller
  have hholders : s.holders = [caller] := by
    cases hl : s.holders with
    | nil => rw [hl] at hh; simp at hh
    | cons a rest =>
      rw [hl] at hh hcaller
      have hr : rest = [] := by
        cases rest with
        | nil => rfl
        | cons b r => simp at hh
      subst hr
      have : caller = a := by simpa using hcaller
      rw [this]
  have herase : s.holders.erase caller = [] := by
    rw [hholders]
    simp
  have hwnd : (s.waiting.map Prod.snd).Nodup := by
    rw [hmap]
    have hp : (cache ++ queued.reverse).Perm (cache ++ queued) :=
      List.Perm.append_left cache (List.reverse_perm queued)
    exact hp.nodup_iff.mpr hnd
  by_cases hmw : s.m.m_waiters = 0
  · -- the cached list is empty
    have hcache : cache = [] := is_list_null s.m.ops cache (hmw ▸ hc)
    subst hcache
    by_cases hst : s.m.m_state = locked_no_waiters
    · -- nobody is waiting: the lock is released
      have hqueued : queued = [] := is_list_null s.m.ops queued (by
        have := hq
        rw [hst] at this
        exact this)
      subst hqueued
      have hwait : s.waiting = [] := by
        simpa using hmap
      refine ⟨⟨⟨not_locked, s.m.m_waiters, s.m.ops⟩, [], s.waiting, s.granted⟩,
        ?_, ?_, ?_, ?_⟩
      · have hne : locked_no_waiters ≠ not_locked := by simp [locked_no_waiters, not_locked]
        simp [apply_op, hcaller, unlock, hmw, hst, herase, hne]
      · left
        exact ⟨rfl, rfl, hwait, hmw⟩
      · intro _
        exact ⟨rfl, hwait, rfl⟩
      · intro c t rest h
        rw [hwait] at h
        simp at h
    · -- the queued list is taken, reversed, and its oldest waiter is resumed
      have hst0 : s.m.m_state ≠ 0 := hst
      obtain ⟨qrest, hqeq, _⟩ := is_list_nonnull s.m.ops s.m.m_state queued hq hst0
      have hqne : queued ≠ [] := by rw [hqeq]; simp
      have hlen : queued.length ≤ fuel := by
        have : (s.waiting.map Prod.snd).length = queued.length := by
          rw [hmap]; simp
        rw [← this]
        simpa using hfuel
      obtain ⟨ops1, head, hrev, hlist, _, hawait⟩ :=
        reverse_loop_spec queued [] s.m.ops s.m.m_state 0 [] fuel hqne hq
          (by simp [is_list]) (by simpa using hnd) hlen
      have hlist1 : is_list ops1 head queued.reverse := by simpa using hlist
      have hmap1 : s.waiting.map Prod.snd = queued.reverse := by simpa using hmap
      have hrevne : queued.reverse ≠ [] := by simpa using hqne
      obtain ⟨x, xs, hx⟩ := List.exists_cons_of_ne_nil hrevne
      rw [hx] at hlist1 hmap1
      have hl := hlist1
      simp only [is_list] at hl
      obtain ⟨hhead, hx0, htail⟩ := hl
      subst hhead
      obtain ⟨c, tail, hweq, htmap⟩ := waiting_head_of_map s.waiting head xs hmap1
      have hserved : s.waiting.filter (fun p => p.2 ≠ head) = tail := by
        rw [hweq]
        exact filter_served c head tail (by rw [← hweq]; exact hwnd)
      have hc1 : (ops1 head).m_awaiter = c := by
        rw [hawait]
        exact haw (c, head) (by rw [hweq]; exact List.mem_cons_self _ _)
      have hxsnd : xs.Nodup := by
        have h1 : (queued.reverse).Nodup := List.nodup_reverse.mpr (by simpa using hnd)
        rw [hx] at h1
        exact (List.nodup_cons.mp h1).2
      refine ⟨⟨⟨locked_no_waiters, (ops1 head).m_next, ops1⟩, [c], tail, s.granted ++ [c]⟩,
        ?_, ?_, ?_, ?_⟩
      · have hnot : ¬ (s.m.m_state = locked_no_waiters ∨ s.m.m_state = not_locked) := by
          simp only [not_or]
          exact ⟨hst, hs⟩
        simp only [apply_op, if_pos hcaller, unlock, if_neg hs, hmw, if_true, if_neg hst,
          if_neg hnot]
        simp only [hrev, unlock_resume, if_neg hx0, hserved, herase, hc1]
      · right
        refine ⟨by simp [locked_no_waiters, not_locked], rfl, xs, [], htail, ?_, ?_, ?_, ?_, ?_⟩
        · simp [is_list, locked_no_waiters]
        · simpa using hxsnd
        · intro y hy
          have hy1 : y ∈ queued := by
            have : y ∈ queued.reverse := by
              rw [hx]
              exact List.mem_cons_of_mem _ (by simpa using hy)
            exact List.mem_reverse.mp this
          exact hne1 y (by simpa using hy1)
        · simpa using htmap
        · intro p hp
          show (ops1 p.2).m_awaiter = p.1
          rw [hawait]
          exact haw p (by rw [hweq]; exact List.mem_cons_of_mem _ hp)
      · intro h
        rw [hweq] at h
        simp at h
      · intro c1 t1 rest1 h
        rw [hweq] at h
        simp only [List.cons.injEq, Prod.mk.injEq] at h
        obtain ⟨⟨h1, _⟩, h3⟩ := h
        subst h1 h3
        exact ⟨rfl, rfl, rfl⟩
  · -- the cached list is not empty: its first waiter is resumed
    obtain ⟨crest, hceq, hctail⟩ := is_list_nonnull s.m.ops s.m.m_waiters cache hc hmw
    have hmap1 : s.waiting.map Prod.snd = s.m.m_waiters :: (crest ++ queued.reverse) := by
      rw [hmap, hceq]
      rfl
    obtain ⟨c, tail, hweq, htmap⟩ := waiting_head_of_map s.waiting _ _ hmap1
    have hserved : s.waiting.filter (fun p => p.2 ≠ s.m.m_waiters) = tail := by
      rw [hweq]
      exact filter_served c _ tail (by rw [← hweq]; exact hwnd)
    have hc1 : (s.m.ops s.m.m_waiters).m_awaiter = c :=
      haw (c, s.m.m_waiters) (by rw [hweq]; exact List.mem_cons_self _ _)
    refine ⟨⟨⟨s.m.m_state, (s.m.ops s.m.m_waiters).m_next, s.m.ops⟩, [c], tail,
      s.granted ++ [c]⟩, ?_, ?_, ?_, ?_⟩
    · simp only [apply_op, if_pos hcaller, unlock, if_neg hs, if_neg hmw, unlock_resume,
        hserved, herase, hc1]
    · right
      rw [hceq] at hnd hne1
      refine ⟨hs, rfl, crest, queued, hctail, hq, ?_, ?_, htmap, ?_⟩
      · exact (List.nodup_cons.mp (by simpa using hnd)).2
      · intro y hy
        exact hne1 y (List.mem_cons_of_mem _ hy)
      · intro p hp
        exact haw p (by rw [hweq]; exact List.mem_cons_of_mem _ hp)
    · intro h
      rw [hweq] at h
      simp at h
    · intro c1 t1 rest1 h
      rw [hweq] at h
      simp only [List.cons.injEq, Prod.mk.injEq] at h
      obtain ⟨⟨h1, _⟩, h3⟩ := h
      subst h1 h3
      exact ⟨rfl, rfl, rfl⟩

theorem initial_invariant (ops : Nat → lock_operation) : invariant (initial ops) := by
  left
  exact ⟨rfl, rfl, rfl, rfl⟩

theorem invariant_holders (s : system) (hinv : invariant s) :
    s.holders.length ≤ 1 ∧ (s.m.m_state = not_locked ↔ s.holders = []) ∧
    (s.waiting.map Prod.snd).Nodup ∧ (s.waiting ≠ [] → s.holders ≠ []) := by
  rcases hinv with ⟨hs, hh, hw, _⟩ | ⟨hs, hh, cache, queued, _, _, hnd, _, hmap, _⟩
  · refine ⟨by simp [hh], ⟨fun _ => hh, fun _ => hs⟩, by simp [hw], fun h => absurd hw h⟩
  · have hne : s.holders ≠ [] := by
      intro h
      rw [h] at hh
      simp at hh
    refine ⟨by omega, ⟨fun h => absurd h hs, fun h => absurd h hne⟩, ?_, fun _ => hne⟩
    rw [hmap]
    have hp : (cache ++ queued.reverse).Perm (cache ++ queued) :=
      List.Perm.append_left cache (List.reverse_perm queued)
    exact hp.nodup_iff.mpr hnd

theorem run_ops_spec (fuel : Nat) (seq : List op) :
    ∀ s : system, invariant s → s.waiting.length + seq.length ≤ fuel →
      run_ops fuel seq s = Except.error failure.invalid_sequence ∨
      ∃ s1, run_ops fuel seq s = Except.ok s1 ∧ invariant s1 ∧
        s1.waiting.length ≤ s.waiting.length + seq.length ∧
        ∀ c, attempts c seq + (s.granted.count c + (s.waiting.map Prod.fst).count c)
          = s1.granted.count c + (s1.waiting.map Prod.fst).count c := by
  induction seq with
  | nil =>
    intro s hinv _
    right
    exact ⟨s, rfl, hinv, by simp, by simp [attempts]⟩
  | cons o rest ih =>
    intro s hinv hfuel
    simp only [List.length_cons] at hfuel
    cases o with
    | try_lock c =>
      obtain ⟨s1, hstep, hinv1, hw, hg, _, _⟩ := apply_try_lock_spec fuel c s hinv
      rcases ih s1 hinv1 (by rw [hw]; omega) with herr | ⟨s2, hrun, hinv2, hlen, hcount⟩
      · left
        simp only [run_ops, hstep, herr]
      · right
        refine ⟨s2, by simp only [run_ops, hstep, hrun], hinv2, ?_, ?_⟩
        · rw [hw] at hlen
          simp only [List.length_cons]
          omega
        · intro c1
          rw [← hcount c1, hw, hg]
          simp [attempts]
    | lock c self spurious =>
      by_cases hvalid : self = 0 ∨ self = 1 ∨ self ∈ s.waiting.map Prod.snd
      · left
        simp only [run_ops, apply_op, if_pos hvalid]
      · simp only [not_or] at hvalid
        obtain ⟨s1, hstep, hinv1, hfree, hheld⟩ :=
          apply_lock_spec fuel c self spurious s hinv hvalid.1 hvalid.2.1 hvalid.2.2
        have hwl : s1.waiting.length ≤ s.waiting.length + 1 := by
          by_cases hh : s.holders = []
          · rw [(hfree hh).2.1]
            omega
          · rw [(hheld hh).2.1]
            simp
        have hc1 : ∀ c1, (if c = c1 then 1 else 0) +
            (s.granted.count c1 + (s.waiting.map Prod.fst).count c1)
            = s1.granted.count c1 + (s1.waiting.map Prod.fst).count c1 := by
          intro c1
          by_cases hh : s.holders = []
          · rw [(hfree hh).2.1, (hfree hh).2.2, List.count_append, List.count_singleton]
            simp only [beq_iff_eq]
            omega
          · rw [(hheld hh).2.1, (hheld hh).2.2, List.map_append, List.count_append]
            simp only [List.map_cons, List.map_nil, List.count_singleton, beq_iff_eq]
            omega
        rcases ih s1 hinv1 (by omega) with herr | ⟨s2, hrun, hinv2, hlen, hcount⟩
        · left
          simp only [run_ops, hstep, herr]
        · right
          refine ⟨s2, by simp only [run_ops, hstep, hrun], hinv2, ?_, ?_⟩
          · simp only [List.length_cons]
            omega
          · intro c1
            rw [← hcount c1, ← hc1 c1]
            simp only [attempts]
            omega
    | unlock caller =>
      by_cases hcaller : caller ∈ s.holders
      · obtain ⟨s1, hstep, hinv1, hnone, hsome⟩ :=
          apply_unlock_spec fuel caller s hinv hcaller (by omega)
        have hwl : s1.waiting.length ≤ s.waiting.length := by
          cases hw : s.waiting with
          | nil => rw [(hnone hw).2.1]
          | cons p tail =>
            obtain ⟨c, t⟩ := p
            rw [(hsome c t tail hw).2.1]
            simp
        have hc1 : ∀ c1, s.granted.count c1 + (s.waiting.map Prod.fst).count c1
            = s1.granted.count c1 + (s1.waiting.map Prod.fst).count c1 := by
          intro c1
          cases hw : s.waiting with
          | nil => rw [(hnone hw).2.1, (hnone hw).2.2]
          | cons p tail =>
            obtain ⟨c, t⟩ := p
            rw [(hsome c t tail hw).2.1, (hsome c t tail hw).2.2, List.count_append,
              List.count_singleton, List.map_cons, List.count_cons]
            simp only [beq_iff_eq]
            omega
        rcases ih s1 hinv1 (by omega) with herr | ⟨s2, hrun, hinv2, hlen, hcount⟩
        · left
          simp only [run_ops, hstep, herr]
        · right
          refine ⟨s2, by simp only [run_ops, hstep, hrun], hinv2, ?_, ?_⟩
          · simp only [List.length_cons]
            omega
          · intro c1
            rw [← hcount c1, ← hc1 c1]
            simp only [attempts]
      · left
        simp only [run_ops, apply_op, if_neg hcaller]

theorem drain_spec (fuel : Nat) (w : List (Nat × Nat)) :
    ∀ (s : system) (h : Nat), invariant s → s.waiting = w → h ∈ s.holders →
      w.length ≤ fuel →
      ∃ s2, run_ops fuel (op.unlock h :: w.map (fun p => op.unlock p.1)) s = Except.ok s2 ∧
        invariant s2 ∧
        s2.holders = [] ∧ s2.waiting = [] ∧ s2.granted = s.granted ++ w.map Prod.fst := by
  induction w with
  | nil =>
    intro s h hinv hw hh _
    obtain ⟨s1, hstep, hinv1, hnone, _⟩ := apply_unlock_spec fuel h s hinv hh (by rw [hw]; simp)
    refine ⟨s1, by simp only [run_ops, List.map_nil, hstep], hinv1, (hnone hw).1,
      (hnone hw).2.1, ?_⟩
    rw [(hnone hw).2.2]
    simp
  | cons p rest ih =>
    intro s h hinv hw hh hfuel
    obtain ⟨c, t⟩ := p
    obtain ⟨s1, hstep, hinv1, _, hsome⟩ :=
      apply_unlock_spec fuel h s hinv hh (by rw [hw]; exact hfuel)
    obtain ⟨h1, h2, h3⟩ := hsome c t rest hw
    simp only [List.length_cons] at hfuel
    obtain ⟨s2, hrun, hinv2, hh2, hw2, hg2⟩ :=
      ih s1 c hinv1 h2 (by rw [h1]; exact List.mem_cons_self _ _) (by omega)
    refine ⟨s2, ?_, hinv2, hh2, hw2, ?_⟩
    · simp only [List.map_cons]
      rw [run_ops, hstep]
      exact hrun
    · rw [hg2, h3]
      simp

/-- C9: for every sequence of `try_lock`, `lock` and `unlock` operations on a newly
constructed mutex in which `unlock` is called only by the holder (and each pending `lock` has
its own operation object), no call fails; at every point at most one caller holds the lock;
every `lock` attempt is accounted for exactly once, as granted (immediately or by the
resumption of one `unlock`) or as still suspended; the suspended attempts have distinct
operation objects and there is a holder whenever one is suspended; the next `unlock` resumes
the oldest suspended attempt; and when each holder in turn unlocks, every suspended attempt is
granted, once, oldest first, and the mutex ends unlocked. -/
theorem mutex_exclusion_and_exactly_once (ops0 : Nat → lock_operation) (seq : List op)
    (fuel : Nat) (hfuel : seq.length ≤ fuel) :
    run_ops fuel seq (initial ops0) ≠ Except.error failure.assertion_failed ∧
    run_ops fuel seq (initial ops0) ≠ Except.error failure.out_of_fuel ∧
    ∀ s, run_ops fuel seq (initial ops0) = Except.ok s →
      s.holders.length ≤ 1 ∧
      (s.m.m_state = not_locked ↔ s.holders = []) ∧
      (∀ c, attempts c seq = s.granted.count c + (s.waiting.map Prod.fst).count c) ∧
      (s.waiting.map Prod.snd).Nodup ∧
      (s.waiting ≠ [] → s.holders ≠ []) ∧
      (∀ h ∈ s.holders, ∀ c t rest, s.waiting = (c, t) :: rest →
        ∃ s1, apply_op fuel (op.unlock h) s = Except.ok s1 ∧ s1.holders = [c] ∧
          s1.waiting = rest ∧ s1.granted = s.granted ++ [c]) ∧
      (∀ h ∈ s.holders,
        ∃ s2, run_ops fuel (op.unlock h :: s.waiting.map (fun p => op.unlock p.1)) s
            = Except.ok s2 ∧
          s2.holders = [] ∧ s2.waiting = [] ∧ s2.m.m_state = not_locked ∧
          s2.granted = s.granted ++ s.waiting.map Prod.fst) := by
  have hspec := run_ops_spec fuel seq (initial ops0) (initial_invariant ops0)
    (by simpa [initial] using hfuel)
  rcases hspec with herr | ⟨s1, hrun, hinv, hlen, hcount⟩
  · rw [herr]
    refine ⟨by simp, by simp, ?_⟩
    intro s hs
    simp at hs
  · rw [hrun]
    refine ⟨by simp, by simp, ?_⟩
    intro s hs
    have hss : s1 = s := by simpa using hs
    subst hss
    have hlen1 : s1.waiting.length ≤ fuel := by
      simp only [initial, List.length_nil, Nat.zero_add] at hlen
      omega
    obtain ⟨hh1, hh2, hh3, hh4⟩ := invariant_holders s1 hinv
    refine ⟨hh1, hh2, ?_, hh3, hh4, ?_, ?_⟩
    · intro c
      have := hcount c
      simpa [initial] using this
    · intro h hh c t rest hw
      obtain ⟨s2, hstep, _, _, hsome⟩ := apply_unlock_spec fuel h s1 hinv hh hlen1
      exact ⟨s2, hstep, hsome c t rest hw⟩
    · intro h hh
      obtain ⟨s2, hrun2, hinv2, h1, h2, h3⟩ :=
        drain_spec fuel s1.waiting s1 h hinv rfl hh hlen1
      exact ⟨s2, hrun2, h1, h2, (invariant_holders s2 hinv2).2.1.mpr h1, h3⟩

theorem mutex_exclusion_and_exactly_once_witness :
    [op.lock 1 10 0, op.lock 2 20 1, op.lock 3 30 0, op.try_lock 4, op.unlock 1].length ≤ 5 ∧
    ∃ s, run_ops 5 [op.lock 1 10 0, op.lock 2 20 1, op.lock 3 30 0, op.try_lock 4, op.unlock 1]
        (initial (fun _ => {})) = Except.ok s ∧
      s.holders = [2] ∧ s.waiting = [(3, 30)] ∧ s.granted = [1, 2] ∧ s.holders.length ≤ 1 :=
  ⟨by decide, _, rfl, rfl, rfl, rfl,
    ((mutex_exclusion_and_exactly_once (fun _ => {})
      [op.lock 1 10 0, op.lock 2 20 1, op.lock 3 30 0, op.try_lock 4, op.unlock 1] 5
      (by decide)).2.2 _ rfl).1⟩

/-- C10: `unlock` on a held mutex with no waiter present (null cached list, state word
`locked_no_waiters`) returns with the state word `not_locked`, resumes no coroutine and
dereferences no operation object; the memory of the operation objects is not changed either,
whatever it holds, and no fuel is used. -/
theorem unlock_without_waiters (fuel : Nat) (m : mutex) (hcache : m.m_waiters = 0)
    (hstate : m.m_state = locked_no_waiters) :
    ∃ r, unlock fuel m = Except.ok r ∧ r.m.m_state = not_locked ∧ r.m.m_waiters = 0 ∧
      r.resumed = none ∧ r.waiter = none ∧ r.accessed = [] ∧ r.m.ops = m.ops := by
  refine ⟨{ m := { m with m_state := not_locked }, waiter := none, resumed := none,
            accessed := [] }, ?_, rfl, hcache, rfl, rfl, rfl, rfl⟩
  have hne : locked_no_waiters ≠ not_locked := by simp [locked_no_waiters, not_locked]
  simp [unlock, hcache, hstate, hne]

theorem unlock_without_waiters_witness :
    let m : mutex := { m_state := locked_no_waiters, m_waiters := 0, ops := fun _ => {} }
    m.m_waiters = 0 ∧ m.m_state = locked_no_waiters ∧
    ∃ r, unlock 0 m = Except.ok r ∧ r.m.m_state = not_locked ∧ r.resumed = none ∧
      r.accessed = [] :=
  ⟨rfl, rfl, by
    obtain ⟨r, h1, h2, _, h4, _, h6, _⟩ := unlock_without_waiters 0
      { m_state := locked_no_waiters, m_waiters := 0, ops := fun _ => {} } rfl rfl
    exact ⟨r, h1, h2, h4, h6⟩⟩

/-- C13: `try_lock` returns true if and only if the state word was `not_locked`; on success
the word becomes `locked_no_waiters` and nothing else changes; on failure the word, the list
of pending waiters and the cached list are all unchanged. -/
theorem try_lock_spec (m : mutex) :
    ((try_lock m).1 = true ↔ m.m_state = not_locked) ∧
    ((try_lock m).1 = true →
      (try_lock m).2.m_state = locked_no_waiters ∧ (try_lock m).2.m_waiters = m.m_waiters ∧
      (try_lock m).2.ops = m.ops) ∧
    ((try_lock m).1 = false → (try_lock m).2 = m) := by
  by_cases h : m.m_state = not_locked
  · simp [try_lock, h]
  · simp [try_lock, h]

theorem unlock_resumed_state (fuel : Nat) (m : mutex) (r : unlock_result) (awaiter : Nat)
    (hok : unlock fuel m = Except.ok r) (hres : r.resumed = some awaiter) :
    r.m.m_state ≠ not_locked ∧
    (r.m.m_state = locked_no_waiters ∨ r.m.m_state = m.m_state) := by
  unfold unlock at hok
  by_cases hs : m.m_state = not_locked
  · simp [hs] at hok
  · simp only [if_neg hs] at hok
    by_cases hw : m.m_waiters = 0
    · simp only [hw, if_true] at hok
      by_cases hst : m.m_state = locked_no_waiters
      · simp only [hst, if_true] at hok
        have hr : r.resumed = none := by
          cases hok
          rfl
        rw [hr] at hres
        exact Option.noConfusion hres
      · have hnot : ¬ (m.m_state = locked_no_waiters ∨ m.m_state = not_locked) := by
          simp only [not_or]
          exact ⟨hst, hs⟩
        simp only [if_neg hst, if_neg hnot] at hok
        cases hrev : reverse_loop fuel m.ops m.m_state 0 [] with
        | none => simp [hrev] at hok
        | some t =>
          obtain ⟨ops1, head, accessed⟩ := t
          simp only [hrev, unlock_resume] at hok
          by_cases hh : head = 0
          · simp [hh] at hok
          · simp only [if_neg hh] at hok
            cases hok
            exact ⟨by simp [locked_no_waiters, not_locked], Or.inl rfl⟩
    · simp only [if_neg hw, unlock_resume] at hok
      cases hok
      exact ⟨hs, Or.inr rfl⟩

/-- C11: whenever `unlock` resumes a waiter, the state word at that moment is not
`not_locked`: it is `locked_no_waiters` or the word found, which heads the list of queued
operations; so a `try_lock` at that moment fails and changes nothing, and the resumed waiter,
whose `await_resume` does nothing to the mutex, holds the lock without acquiring it again.  In
every state reached by a valid sequence of operations an `unlock` with a waiter suspended
resumes the oldest one, which is then the only holder, and leaves a state word that heads a
list of queued operations. -/
theorem resumed_waiter_holds_lock (fuel : Nat) (m : mutex) (r : unlock_result) (awaiter : Nat)
    (hok : unlock fuel m = Except.ok r) (hres : r.resumed = some awaiter) :
    r.m.m_state ≠ not_locked ∧
    (r.m.m_state = locked_no_waiters ∨ r.m.m_state = m.m_state) ∧
    (try_lock r.m).1 = false ∧ (try_lock r.m).2 = r.m ∧
    await_resume r.m = r.m ∧
    (∀ (ops0 : Nat → lock_operation) (seq : List op) (s : system) (caller c t : Nat)
      (rest : List (Nat × Nat)),
      seq.length ≤ fuel → run_ops fuel seq (initial ops0) = Except.ok s →
      caller ∈ s.holders → s.waiting = (c, t) :: rest →
      ∃ s1, apply_op fuel (op.unlock caller) s = Except.ok s1 ∧
        s1.holders = [c] ∧ s1.waiting = rest ∧
        s1.m.m_state ≠ not_locked ∧ (try_lock s1.m).1 = false ∧
        ∃ queued, is_list s1.m.ops s1.m.m_state queued) := by
  obtain ⟨h1, h2⟩ := unlock_resumed_state fuel m r awaiter hok hres
  refine ⟨h1, h2, ?_, ?_, rfl, ?_⟩
  · simp [try_lock, h1]
  · simp [try_lock, h1]
  · intro ops0 seq s caller c t rest hfuel hrun hcaller hw
    rcases run_ops_spec fuel seq (initial ops0) (initial_invariant ops0)
      (by simpa [initial] using hfuel) with herr | ⟨s0, hrun0, hinv, hlen, _⟩
    · rw [herr] at hrun
      simp at hrun
    · rw [hrun0] at hrun
      have hs0 : s0 = s := by simpa using hrun
      subst hs0
      have hlen1 : s0.waiting.length ≤ fuel := by
        simp only [initial, List.length_nil, Nat.zero_add] at hlen
        omega
      obtain ⟨s1, hstep, hinv1, _, hsome⟩ :=
        apply_unlock_spec fuel caller s0 hinv hcaller hlen1
      obtain ⟨hh1, hh2, _⟩ := hsome c t rest hw
      have hne : s1.m.m_state ≠ not_locked := by
        intro h
        have := (invariant_holders s1 hinv1).2.1.mp h
        rw [hh1] at this
        simp at this
      refine ⟨s1, hstep, hh1, hh2, hne, by simp [try_lock, hne], ?_⟩
      rcases hinv1 with ⟨hst, _, _, _⟩ | ⟨_, _, cache, queued, _, hq, _⟩
      · exact absurd hst hne
      · exact ⟨queued, hq⟩

theorem resumed_waiter_holds_lock_witness :
    let m : mutex := { m_state := 10, m_waiters := 0,
                       ops := fun a => if a = 10 then { m_next := 0, m_awaiter := 7 } else {} }
    ∃ r, unlock 1 m = Except.ok r ∧ r.resumed = some 7 ∧ r.m.m_state ≠ not_locked ∧
      (try_lock r.m).1 = false :=
  ⟨_, rfl, rfl,
    (resumed_waiter_holds_lock 1
      { m_state := 10, m_waiters := 0,
        ops := fun a => if a = 10 then { m_next := 0, m_awaiter := 7 } else {} } _ 7
      rfl rfl).1,
    (resumed_waiter_holds_lock 1
      { m_state := 10, m_waiters := 0,
        ops := fun a => if a = 10 then { m_next := 0, m_awaiter := 7 } else {} } _ 7
      rfl rfl).2.2.1⟩

theorem unlock_cached (fuel : Nat) (m : mutex) (x : Nat) (rest : List Nat)
    (hlist : is_list m.ops m.m_waiters (x :: rest)) (hlocked : m.m_state ≠ not_locked) :
    unlock fuel m = Except.ok
      { m := ⟨m.m_state, (m.ops x).m_next, m.ops⟩, waiter := some x,
        resumed := some (m.ops x).m_awaiter, accessed := [x] } ∧
    is_list m.ops (m.ops x).m_next rest := by
  obtain ⟨hx, hx0, hrest⟩ := hlist
  have hw : m.m_waiters ≠ 0 := by rw [hx]; exact hx0
  refine ⟨?_, hrest⟩
  simp only [unlock, if_neg hlocked, if_neg hw, unlock_resume, List.nil_append]
  rw [hx]

theorem unlock_repeat_cached (fuel : Nat) (cache : List Nat) :
    ∀ m : mutex, is_list m.ops m.m_waiters cache → m.m_state ≠ not_locked →
      unlock_repeat fuel cache.length m = Except.ok
        (⟨m.m_state, 0, m.ops⟩, cache.map (fun a => (a, (m.ops a).m_awaiter))) := by
  induction cache with
  | nil =>
    intro m hlist _
    have h0 : m.m_waiters = 0 := hlist
    simp only [List.length_nil, unlock_repeat, List.map_nil]
    rw [← h0]
  | cons x rest ih =>
    intro m hlist hlocked
    obtain ⟨hun, hrest⟩ := unlock_cached fuel m x rest hlist hlocked
    have hih := ih ⟨m.m_state, (m.ops x).m_next, m.ops⟩ hrest hlocked
    simp only [List.length_cons, unlock_repeat, hun, hih, List.map_cons]

/-- C12: when `unlock` finds its cached list empty and the state word heads a list of
waiters pushed in the order `w1, ..., wn` (so `wn` is at the head), it sets the word to
`locked_no_waiters`, reverses the list, resumes `w1` and caches `w2, ..., wn` in that order;
the next `n - 1` calls of `unlock` resume `w2, ..., wn` in arrival order and leave the cached
list empty. -/
theorem unlock_refills_in_arrival_order (fuel : Nat) (m : mutex) (w1 : Nat) (ws : List Nat)
    (hcache : m.m_waiters = 0)
    (hlist : is_list m.ops m.m_state (w1 :: ws).reverse)
    (hnd : (w1 :: ws).Nodup)
    (hlocked : m.m_state ≠ not_locked)
    (hfuel : (w1 :: ws).length ≤ fuel) :
    ∃ r, unlock fuel m = Except.ok r ∧
      r.m.m_state = locked_no_waiters ∧
      r.waiter = some w1 ∧ r.resumed = some (m.ops w1).m_awaiter ∧
      is_list r.m.ops r.m.m_waiters ws ∧
      (∀ a, (r.m.ops a).m_awaiter = (m.ops a).m_awaiter) ∧
      unlock_repeat fuel ws.length r.m = Except.ok
        (⟨locked_no_waiters, 0, r.m.ops⟩, ws.map (fun a => (a, (m.ops a).m_awaiter))) := by
  have hne : (w1 :: ws).reverse ≠ [] := by simp
  have hnd1 : ((w1 :: ws).reverse ++ []).Nodup := by
    rw [List.append_nil]
    exact List.nodup_reverse.mpr hnd
  have hlen : (w1 :: ws).reverse.length ≤ fuel := by simpa using hfuel
  obtain ⟨ops1, head, hrev, hl, _, hawait⟩ :=
    reverse_loop_spec (w1 :: ws).reverse [] m.ops m.m_state 0 [] fuel hne hlist
      (by simp [is_list]) hnd1 hlen
  have hl1 : is_list ops1 head (w1 :: ws) := by simpa using hl
  obtain ⟨hhead, hw0, htail⟩ := hl1
  subst hhead
  have hst0 : m.m_state ≠ locked_no_waiters := by
    intro h
    rw [h] at hlist
    exact hne (is_list_null m.ops _ hlist)
  have hnot : ¬ (m.m_state = locked_no_waiters ∨ m.m_state = not_locked) := by
    simp only [not_or]
    exact ⟨hst0, hlocked⟩
  have hun : unlock fuel m = Except.ok
      { m := ⟨locked_no_waiters, (ops1 head).m_next, ops1⟩, waiter := some head,
        resumed := some (ops1 head).m_awaiter,
        accessed := ([] ++ (head :: ws).reverse) ++ [head] } := by
    simp only [unlock, if_neg hlocked, hcache, if_true, if_neg hst0, if_neg hnot, hrev,
      unlock_resume, if_neg hw0]
  refine ⟨_, hun, rfl, rfl, ?_, htail, hawait, ?_⟩
  · show some (ops1 head).m_awaiter = some (m.ops head).m_awaiter
    rw [hawait]
  · have h := unlock_repeat_cached fuel ws ⟨locked_no_waiters, (ops1 head).m_next, ops1⟩ htail
      (by simp [locked_no_waiters, not_locked])
    rw [h]
    congr 2
    apply List.map_congr_left
    intro a _
    rw [hawait]

theorem unlock_refills_in_arrival_order_witness :
    let m : mutex :=
      { m_state := 30, m_waiters := 0,
        ops := fun a => if a = 30 then { m_next := 20, m_awaiter := 3 }
          else if a = 20 then { m_next := 10, m_awaiter := 2 }
          else if a = 10 then { m_next := 0, m_awaiter := 1 } else {} }
    m.m_waiters = 0 ∧ is_list m.ops m.m_state [30, 20, 10] ∧
    ∃ r, unlock 3 m = Except.ok r ∧ r.waiter = some 10 ∧ r.resumed = some 1 ∧
      is_list r.m.ops r.m.m_waiters [20, 30] := by
  refine ⟨rfl, by simp [is_list], ?_⟩
  obtain ⟨r, h1, _, h3, h4, h5, _⟩ := unlock_refills_in_arrival_order 3
    { m_state := 30, m_waiters := 0,
      ops := fun a => if a = 30 then { m_next := 20, m_awaiter := 3 }
        else if a = 20 then { m_next := 10, m_awaiter := 2 }
        else if a = 10 then { m_next := 0, m_awaiter := 1 } else {} }
    10 [20, 30] rfl (by simp [is_list]) (by decide) (by decide) (by decide)
  exact ⟨r, h1, h3, h4, h5⟩

end async_mutex

/-! ## Properties of the execution context -/

/-- C20: for every value of the packed word, `stop()` sets the stop flag and leaves the
thread count unchanged; it posts a wake if and only if the flag was clear and the thread
count was greater than zero; it returns true if and only if the thread count was zero; a
second `stop()` posts no wake. -/
theorem stop_spec (c : context) (hword : c.state_ < 2 ^ 32) :
    (c.stop.2.state_ &&& stop_requested_flag = 1) ∧
    (c.stop.2.state_ / thread_count_increment = c.state_ / thread_count_increment) ∧
    (c.stop.2.state_ < 2 ^ 32) ∧
    (c.stop.2.wakes = c.wakes + 1 ↔
      (c.state_ &&& stop_requested_flag = 0 ∧ c.state_ / thread_count_increment > 0)) ∧
    (c.stop.2.wakes = c.wakes ∨ c.stop.2.wakes = c.wakes + 1) ∧
    (c.stop.1 = true ↔ c.state_ / thread_count_increment = 0) ∧
    (c.stop.2.stop.2.wakes = c.stop.2.wakes) ∧
    (c.stop.2.stop.2.state_ = c.stop.2.state_) := by
  have hlt : c.state_ ||| 1 < 2 ^ 32 := Nat.or_lt_two_pow hword (by norm_num)
  have hmod : (c.state_ ||| 1) % 2 ^ 32 = c.state_ ||| 1 := Nat.mod_eq_of_lt hlt
  have hbit : (c.state_ ||| 1) % 2 = 1 := by simp
  have hdiv : (c.state_ ||| 1) / 2 = c.state_ / 2 := by
    rw [Nat.or_div_two]
    simp
  have hidem : (c.state_ ||| 1) ||| 1 = c.state_ ||| 1 := by
    rw [Nat.or_assoc]
    simp
  have hstate : c.stop.2.state_ = c.state_ ||| 1 := by
    have hmod1 : (c.state_ ||| 1) % 4294967296 = c.state_ ||| 1 :=
      Nat.mod_eq_of_lt (by norm_num at hlt; exact hlt)
    simp only [context.stop, context.interrupt, stop_requested_flag]
    split <;> simp [hmod1]
  have hwakes : c.stop.2.wakes =
      if c.state_ % 2 = 0 ∧ c.state_ / 2 > 0 then c.wakes + 1 else c.wakes := by
    simp only [context.stop, context.interrupt, stop_requested_flag, thread_count_increment,
      Nat.and_one_is_mod]
    split <;> rfl
  have hwakes2 : c.stop.2.stop.2.wakes = c.stop.2.wakes := by
    have h : ¬ (c.stop.2.state_ % 2 = 0 ∧ c.stop.2.state_ / 2 > 0) := by
      rw [hstate, hbit]
      simp
    generalize c.stop.2 = d at h
    simp only [context.stop, context.interrupt, stop_requested_flag, thread_count_increment,
      Nat.and_one_is_mod]
    rw [if_neg h]
  have hstate2 : c.stop.2.stop.2.state_ = c.stop.2.state_ := by
    have hd : c.stop.2.state_ < 2 ^ 32 := by rw [hstate]; exact hlt
    have h2 : (c.stop.2.state_ ||| 1) = c.stop.2.state_ := by rw [hstate, hidem]
    generalize c.stop.2 = d at hd h2
    have hm : (d.state_ ||| 1) % 2 ^ 32 = d.state_ := by
      rw [h2]
      exact Nat.mod_eq_of_lt hd
    have hm1 : (d.state_ ||| 1) % 4294967296 = d.state_ := by
      rw [h2]
      exact Nat.mod_eq_of_lt (by norm_num at hd; exact hd)
    simp only [context.stop, context.interrupt, stop_requested_flag]
    split <;> simp [hm1]
  refine ⟨?_, ?_, ?_, ?_, ?_, ?_, hwakes2, hstate2⟩
  · rw [hstate]
    simp [stop_requested_flag]
  · rw [hstate]
    simpa [thread_count_increment] using hdiv
  · rw [hstate]
    exact hlt
  · rw [hwakes]
    simp only [stop_requested_flag, thread_count_increment, Nat.and_one_is_mod]
    by_cases h : c.state_ % 2 = 0 ∧ c.state_ / 2 > 0
    · simp [h]
    · rw [if_neg h]
      constructor
      · intro h1
        omega
      · intro h1
        exact absurd h1 h
  · rw [hwakes]
    split
    · right; rfl
    · left; rfl
  · simp [context.stop, thread_count_increment]

theorem stop_spec_witness :
    (6 : Nat) < 2 ^ 32 ∧
    (context.stop { state_ := 6, wakes := 0 }).2.state_ = 7 ∧
    ((context.stop { state_ := 6, wakes := 0 }).2.state_ &&& stop_requested_flag = 1) :=
  ⟨by norm_num, by decide, (stop_spec { state_ := 6, wakes := 0 } (by norm_num)).1⟩

/-! ## Properties of the asynchronous generator -/

namespace async_generator

@[simp] theorem store_promise (f : frame E) (s : state) :
    (f.store s).promise = { f.promise with m_state := s } := rfl

@[simp] theorem store_log (f : frame E) (s : state) : (f.store s).log = f.log := rfl

@[simp] theorem emit_promise (f : frame E) (e : effect) : (f.emit e).promise = f.promise := rfl

@[simp] theorem emit_log (f : frame E) (e : effect) : (f.emit e).log = f.log ++ [e] := rfl

@[simp] theorem store_value_promise (f : frame E) (a : Nat) :
    (store_value f a).promise = { f.promise with m_currentValue := a } := rfl

@[simp] theorem store_value_log (f : frame E) (a : Nat) : (store_value f a).log = f.log := rfl

/-- Claim C14: a generator on which `begin` was never called is destroyed without its body
ever running.  The producer is created suspended and the promise starts in
`value_ready_producer_suspended`; `request_cancellation` on it returns `true`; the
destructor of the owner then destroys the frame itself, and the effects it adds are that one
destruction: the producer is not resumed. -/
theorem destructor_before_begin (handle : Nat) (log : List effect) :
    initial_suspend_suspends = true ∧
    ({} : promise E).m_state = state.value_ready_producer_suspended ∧
    (∃ p : promise E, request_cancellation ({} : promise E) = Except.ok (true, p) ∧
      p.m_state = state.cancelled) ∧
    (∃ f : frame E, destructor (some handle) { promise := {}, log := log } = Except.ok f ∧
      f.promise.m_state = state.cancelled ∧
      f.log = log ++ [effect.destroy_producer] ∧
      f.log.count effect.resume_producer = log.count effect.resume_producer) := by
  refine ⟨rfl, rfl, ⟨_, rfl, rfl⟩, ⟨_, rfl, rfl, rfl, ?_⟩⟩
  simp [frame.emit]

/-- The first part of `internal_yield_value` leaves the value pointer and the stored exception
as they are. -/
theorem internal_yield_value_begin_keeps (f f1 : frame E) (r : Option state)
    (h : internal_yield_value_begin f = Except.ok (r, f1)) :
    f1.promise.m_currentValue = f.promise.m_currentValue ∧
    f1.promise.m_exception = f.promise.m_exception := by
  unfold internal_yield_value_begin at h
  simp only at h
  split at h
  · cases h
  · split at h
    · cases h
    · split at h
      · simp only [Except.ok.injEq, Prod.mk.injEq] at h
        rw [← h.2]
        exact ⟨rfl, rfl⟩
      · simp only [Except.ok.injEq, Prod.mk.injEq] at h
        rw [← h.2]
        exact ⟨rfl, rfl⟩

/-- Claim C18: the end of the sequence is signalled exactly by a null value pointer.
`finished` holds iff the pointer is null.  After the producer yields the object at a
(non-null) `address`, the promise is not finished, and the `await_resume` of `begin` and of
`operator++` return an iterator on the coroutine that dereferences to that object.  After the
producer body has returned (`final_suspend`), the pointer is null, the promise is finished, and
both return the end iterator, or raise the stored exception if there is one; they never
return an iterator on the coroutine. -/
theorem finished_iff_null_value (memory : Nat → T) (moved_from : Option E) (f f1 : frame E)
    (r : Option state) (address handle : Nat) (haddress : address ≠ 0) :
    (∀ p : promise E, finished p = true ↔ p.m_currentValue = 0) ∧
    (internal_yield_value_begin (store_value f address) = Except.ok (r, f1) →
      f1.promise.m_currentValue = address ∧
      finished f1.promise = false ∧
      value memory f1.promise = memory address ∧
      begin_await_resume moved_from (some handle) f1.promise =
        (Except.ok { m_coroutine := some handle }, f1.promise) ∧
      (increment_await_resume moved_from { m_coroutine := some handle } f1.promise).result =
        Except.ok { m_coroutine := some handle } ∧
      iterator.deref memory { m_coroutine := some handle } f1.promise =
        Except.ok (memory address)) ∧
    (internal_yield_value_begin (store_value f 0) = Except.ok (r, f1) →
      f1.promise.m_currentValue = 0 ∧
      finished f1.promise = true ∧
      (begin_await_resume moved_from (some handle) f1.promise).1 ≠
        Except.ok { m_coroutine := some handle } ∧
      (increment_await_resume moved_from { m_coroutine := some handle } f1.promise).result ≠
        Except.ok { m_coroutine := some handle } ∧
      (increment_await_resume moved_from { m_coroutine := some handle }
        f1.promise).m_iterator = iterator_end ∧
      (f.promise.m_exception = none →
        (begin_await_resume moved_from (some handle) f1.promise).1 = Except.ok iterator_end ∧
        (increment_await_resume moved_from { m_coroutine := some handle } f1.promise).result =
          Except.ok iterator_end)) := by
  refine ⟨fun p => by simp [finished], fun h => ?_, fun h => ?_⟩
  · have hk := (internal_yield_value_begin_keeps _ _ _ h).1
    simp only [store_value_promise] at hk
    have hfin : finished f1.promise = false := by simp [finished, hk, haddress]
    refine ⟨hk, hfin, by simp [value, hk], ?_, ?_, ?_⟩
    · simp [begin_await_resume, hfin]
    · simp [increment_await_resume, hfin]
    · simp [iterator.deref, value, hk]
  · have hk := internal_yield_value_begin_keeps _ _ _ h
    simp only [store_value_promise] at hk
    have hfin : finished f1.promise = true := by simp [finished, hk.1]
    refine ⟨hk.1, hfin, ?_, ?_, ?_, ?_⟩
    · simp only [begin_await_resume, hfin, if_true, rethrow_if_unhandled_exception]
      cases f1.promise.m_exception <;> simp [iterator_end]
    · simp only [increment_await_resume, hfin, if_true, rethrow_if_unhandled_exception]
      cases f1.promise.m_exception <;> simp [iterator_end]
    · simp only [increment_await_resume, hfin, if_true, rethrow_if_unhandled_exception]
      cases f1.promise.m_exception <;> simp
    · intro hnone
      have hex : f1.promise.m_exception = none := by rw [hk.2]; exact hnone
      simp [begin_await_resume, increment_await_resume, hfin, rethrow_if_unhandled_exception,
        hex]

theorem finished_iff_null_value_witness :
    (7 : Nat) ≠ 0 ∧
    internal_yield_value_begin (store_value
        ({ promise := { m_state := state.value_not_ready_consumer_active }, log := [] } :
          frame Nat) 7) =
      Except.ok (some state.value_not_ready_consumer_active,
        { promise := { m_state := state.value_not_ready_consumer_active, m_currentValue := 7 },
          log := [] }) ∧
    iterator.deref (fun a => a + 35)
        ({ m_coroutine := some 1 } : iterator)
        ({ m_state := state.value_not_ready_consumer_active, m_currentValue := 7 } :
          promise Nat) =
      Except.ok 42 :=
  ⟨by decide, rfl,
    ((finished_iff_null_value (fun a => a + 35) (none : Option Nat)
      { promise := { m_state := state.value_not_ready_consumer_active }, log := [] }
      { promise := { m_state := state.value_not_ready_consumer_active, m_currentValue := 7 },
        log := [] }
      (some state.value_not_ready_consumer_active) 7 1 (by decide)).2.1 rfl).2.2.2.2.2⟩

/-- Claim C17: an exception that leaves the producer body is stored iff the state is not
`cancelled` at that moment.  When it is stored, the body ends in `final_suspend`, and the
`await_resume` of the advance that then observes the finished producer (`begin` or
`operator++`) raises that exception to the consumer, the iterator of `operator++` being set
to the end.  When the state is `cancelled`, the promise is left as it was, so with nothing
stored before, nothing is raised by `rethrow_if_unhandled_exception` or by either
`await_resume`. -/
theorem exception_stored_unless_cancelled (moved_from : Option E) (f f1 : frame E)
    (r : Option state) (e : E) (handle : Nat)
    (hyield : internal_yield_value_begin
      (store_value { f with promise := unhandled_exception f.promise e } 0) =
        Except.ok (r, f1)) :
    ((unhandled_exception f.promise e).m_exception = some e ↔
      (f.promise.m_state ≠ state.cancelled ∨ f.promise.m_exception = some e)) ∧
    (f.promise.m_state ≠ state.cancelled →
      unhandled_exception f.promise e = { f.promise with m_exception := some e } ∧
      f1.promise.m_exception = some e ∧
      finished f1.promise = true ∧
      begin_await_resume moved_from (some handle) f1.promise =
        (Except.error e, { f1.promise with m_exception := moved_from }) ∧
      (increment_await_resume moved_from { m_coroutine := some handle } f1.promise).result =
        Except.error e ∧
      (increment_await_resume moved_from { m_coroutine := some handle }
        f1.promise).m_iterator = iterator_end) ∧
    (f.promise.m_state = state.cancelled →
      unhandled_exception f.promise e = f.promise ∧
      f1.promise.m_exception = f.promise.m_exception ∧
      (f.promise.m_exception = none →
        rethrow_if_unhandled_exception moved_from f1.promise = (Except.ok (), f1.promise) ∧
        begin_await_resume moved_from (some handle) f1.promise =
          (Except.ok iterator_end, f1.promise) ∧
        (increment_await_resume moved_from { m_coroutine := some handle } f1.promise).result =
          Except.ok iterator_end)) := by
  have hk := internal_yield_value_begin_keeps _ _ _ hyield
  simp only [store_value_promise] at hk
  have hfin : finished f1.promise = true := by simp [finished, hk.1]
  refine ⟨?_, fun hlive => ?_, fun hcancelled => ?_⟩
  · by_cases hc : f.promise.m_state = state.cancelled
    · simp [unhandled_exception, hc]
    · simp [unhandled_exception, hc]
  · have hu : unhandled_exception f.promise e = { f.promise with m_exception := some e } := by
      simp [unhandled_exception, hlive]
    have hex : f1.promise.m_exception = some e := by rw [hk.2, hu]
    refine ⟨hu, hex, hfin, ?_, ?_, ?_⟩
    · simp [begin_await_resume, hfin, rethrow_if_unhandled_exception, hex]
    · simp [increment_await_resume, hfin, rethrow_if_unhandled_exception, hex]
    · simp [increment_await_resume, hfin, rethrow_if_unhandled_exception, hex]
  · have hu : unhandled_exception f.promise e = f.promise := by
      simp [unhandled_exception, hcancelled]
    have hex : f1.promise.m_exception = f.promise.m_exception := by rw [hk.2, hu]
    refine ⟨hu, hex, fun hnone => ?_⟩
    rw [hnone] at hex
    simp [begin_await_resume, increment_await_resume, hfin, rethrow_if_unhandled_exception,
      hex]

theorem exception_stored_unless_cancelled_witness :
    internal_yield_value_begin (store_value
        { ({ promise := { m_state := state.value_not_ready_consumer_active }, log := [] } :
            frame Nat) with
          promise := unhandled_exception
            ({ m_state := state.value_not_ready_consumer_active } : promise Nat) 13 } 0) =
      Except.ok (some state.value_not_ready_consumer_active,
        { promise := { m_state := state.value_not_ready_consumer_active,
                       m_exception := some 13 },
          log := [] }) ∧
    begin_await_resume (none : Option Nat) (some 1)
        ({ m_state := state.value_not_ready_consumer_active, m_exception := some 13 } :
          promise Nat) =
      (Except.error 13, { m_state := state.value_not_ready_consumer_active }) :=
  ⟨rfl,
    ((exception_stored_unless_cancelled (none : Option Nat)
      { promise := { m_state := state.value_not_ready_consumer_active }, log := [] }
      { promise := { m_state := state.value_not_ready_consumer_active,
                     m_exception := some 13 },
        log := [] }
      (some state.value_not_ready_consumer_active) 13 1 rfl).2.1 (by decide)).2.2.2.1⟩

/-- Claim C16, the advance after the finish is not guarded.  A generator whose body returns at
once: `begin` resumes the producer, `final_suspend` nulls the value pointer and suspends the
producer at its final suspend point, and `begin` gives the end iterator.  A second `begin` on
that generator finds `value_ready_producer_suspended`, stores
`value_not_ready_consumer_active` and calls `producerCoroutine.resume()` once more, on a
coroutine that is suspended at its final suspend point; `operator++` on the end iterator
reaches the promise through a null handle. -/
theorem second_begin_resumes_finished_producer :
    advance_begin ({} : frame Nat) =
      (none, { promise := { m_state := state.value_not_ready_consumer_active },
               log := [effect.resume_producer] }) ∧
    internal_yield_value_begin (store_value
        ({ promise := { m_state := state.value_not_ready_consumer_active },
           log := [effect.resume_producer] } : frame Nat) 0) =
      Except.ok (some state.value_not_ready_consumer_active,
        { promise := { m_state := state.value_not_ready_consumer_active },
          log := [effect.resume_producer] }) ∧
    yield_operation.await_ready { m_initialState := state.value_not_ready_consumer_active } =
      false ∧
    yield_await_suspend_begin { m_initialState := state.value_not_ready_consumer_active }
        ({ promise := { m_state := state.value_not_ready_consumer_active },
           log := [effect.resume_producer] } : frame Nat) =
      Except.ok (some true, { promise := {}, log := [effect.resume_producer] }) ∧
    advance_end ({ promise := {}, log := [effect.resume_producer] } : frame Nat) =
      state.value_ready_producer_suspended ∧
    begin_await_resume (none : Option Nat) (some 1) ({} : promise Nat) =
      (Except.ok iterator_end, {}) ∧
    advance_begin ({ promise := {}, log := [effect.resume_producer] } : frame Nat) =
      (none, { promise := { m_state := state.value_not_ready_consumer_active },
               log := [effect.resume_producer, effect.resume_producer] }) ∧
    increment (fun f => f) iterator_end
        ({ promise := {}, log := [effect.resume_producer] } : frame Nat) =
      Except.error failure.null_handle :=
  ⟨rfl, rfl, rfl, rfl, rfl, rfl, rfl, rfl⟩

/-- Claim C16, as the code has it.  Let the producer reach `final_suspend` while the consumer
waits in the constructor of its advance operation (`value_not_ready_consumer_active`), with
no exception stored.  Then `final_suspend` nulls the value pointer without resuming anybody,
the yield operation suspends the producer (`value_ready_producer_suspended`), the advance
operation is ready, and the `await_resume` of `begin` and of `operator++` give the end
iterator and leave the promise as it is, finished; so observing it again gives the end
again.  Nothing guards a later advance: the constructor of a further `begin` calls
`producerCoroutine.resume()` again, and a further `operator++` is applied to the end iterator,
whose handle is null. -/
theorem finished_observed_but_not_guarded (moved_from : Option E) (f : frame E)
    (handle : Nat) (consumer_runs producer_runs : frame E → frame E)
    (hactive : f.promise.m_state = state.value_not_ready_consumer_active)
    (hnone : f.promise.m_exception = none) :
    final_suspend consumer_runs f =
      Except.ok ({ m_initialState := state.value_not_ready_consumer_active },
        store_value f 0) ∧
    yield_operation.await_ready { m_initialState := state.value_not_ready_consumer_active } =
      false ∧
    yield_operation.await_suspend consumer_runs
        { m_initialState := state.value_not_ready_consumer_active } (store_value f 0) =
      Except.ok (some true, (store_value f 0).store state.value_ready_producer_suspended) ∧
    ((store_value f 0).store state.value_ready_producer_suspended).log = f.log ∧
    advance_operation.await_ready
      { m_initialState :=
          advance_end ((store_value f 0).store state.value_ready_producer_suspended) } = true ∧
    (∀ p : promise E,
      p = ((store_value f 0).store state.value_ready_producer_suspended).promise →
      finished p = true ∧
      begin_await_resume moved_from (some handle) p = (Except.ok iterator_end, p) ∧
      (increment_await_resume moved_from { m_coroutine := some handle } p).result =
        Except.ok iterator_end ∧
      (increment_await_resume moved_from { m_coroutine := some handle } p).m_iterator =
        iterator_end ∧
      (increment_await_resume moved_from { m_coroutine := some handle } p).promise = p) ∧
    (∀ g : frame E, g.promise.m_state = state.value_ready_producer_suspended →
      advance_begin g =
        (none, (g.store state.value_not_ready_consumer_active).emit effect.resume_producer) ∧
      (begin_operation producer_runs (some handle) g).2 =
        producer_runs
          ((g.store state.value_not_ready_consumer_active).emit effect.resume_producer) ∧
      increment producer_runs iterator_end g = Except.error failure.null_handle) := by
  have hbegin : internal_yield_value_begin (store_value f 0) =
      Except.ok (some state.value_not_ready_consumer_active, store_value f 0) := by
    simp [internal_yield_value_begin, hactive]
  have hsuspend : yield_await_suspend_begin
      { m_initialState := state.value_not_ready_consumer_active } (store_value f 0) =
      Except.ok (some true, (store_value f 0).store state.value_ready_producer_suspended) := by
    simp [yield_await_suspend_begin, hactive]
  refine ⟨?_, rfl, ?_, rfl, rfl, ?_, ?_⟩
  · simp [final_suspend, internal_yield_value, hbegin]
  · simp [yield_operation.await_suspend, hsuspend]
  · intro p hp
    have hfin : finished p = true := by rw [hp]; rfl
    have hex : p.m_exception = none := by rw [hp]; exact hnone
    simp [begin_await_resume, increment_await_resume, hfin, rethrow_if_unhandled_exception,
      hex]
  · intro g hg
    have hb : advance_begin g =
        (none, (g.store state.value_not_ready_consumer_active).emit
          effect.resume_producer) := by
      simp [advance_begin, hg]
    refine ⟨hb, ?_, rfl⟩
    simp [begin_operation, advance, hb]

theorem finished_observed_but_not_guarded_witness :
    (({ promise := { m_state := state.value_not_ready_consumer_active },
        log := [effect.resume_producer] } : frame Nat).promise.m_state =
      state.value_not_ready_consumer_active) ∧
    final_suspend (fun f => f)
        ({ promise := { m_state := state.value_not_ready_consumer_active },
           log := [effect.resume_producer] } : frame Nat) =
      Except.ok ({ m_initialState := state.value_not_ready_consumer_active },
        { promise := { m_state := state.value_not_ready_consumer_active },
          log := [effect.resume_producer] }) :=
  ⟨rfl,
    (finished_observed_but_not_guarded (none : Option Nat)
      { promise := { m_state := state.value_not_ready_consumer_active },
        log := [effect.resume_producer] } 1 (fun f => f) (fun f => f) rfl rfl).1⟩

/-! ### The system on one thread: the invariant -/

@[simp] theorem destroys_append (p q : promise E) (l : List effect) (e : effect) :
    destroys ({ promise := p, log := l } : frame E) { promise := q, log := l ++ [e] } =
      decide (e = effect.destroy_producer) := by
  simp [destroys, eq_comm]

@[simp] theorem destroys_same (p q : promise E) (l : List effect) :
    destroys ({ promise := p, log := l } : frame E) { promise := q, log := l } = false := by
  simp [destroys]

theorem state_beq (a b : state) : (a == b) = decide (a = b) := by
  cases a <;> cases b <;> rfl

@[simp] theorem advance_await_resume_state (moved_from : Option E) (f : frame E) :
    (advance_await_resume moved_from f).promise.m_state = f.promise.m_state := by
  unfold advance_await_resume rethrow_if_unhandled_exception
  split
  · cases f.promise.m_exception <;> rfl
  · rfl

@[simp] theorem advance_await_resume_log (moved_from : Option E) (f : frame E) :
    (advance_await_resume moved_from f).log = f.log := by
  unfold advance_await_resume
  split <;> rfl

theorem step_advance_invariant (moved_from : Option E) (s s1 : system E)
    (h : invariant s) (hs : step moved_from s action.advance = some s1) : invariant s1 := by
  obtain ⟨⟨⟨tag, cc, ex, cv⟩, log⟩, p, c, hc⟩ := s
  obtain ⟨h1, h2⟩ := h
  cases tag <;>
    rcases p with _ | _ | _ | ⟨_ | _⟩ | ⟨_ | _⟩ | ⟨_ | _⟩ | ⟨_ | _⟩ | ⟨_ | _⟩ | _ | _ <;>
    cases c <;> simp [positions_agree] at h1 <;> simp at h2 <;>
    simp [step, advance_begin, advance_operation_runs, advance_operation.await_ready,
      after_advance_await_suspend, advance_await_suspend_begin, advance_await_suspend_tail,
      resume_producer, frame.store, frame.emit,
      producer_position.returned] at hs <;>
    (subst hs; simp [invariant, positions_agree, h2])

theorem step_consumer_continues_invariant (moved_from : Option E) (s s1 : system E)
    (h : invariant s) (hs : step moved_from s action.consumer_continues = some s1) : invariant s1 := by
  obtain ⟨⟨⟨tag, cc, ex, cv⟩, log⟩, p, c, hc⟩ := s
  obtain ⟨h1, h2⟩ := h
  cases tag <;>
    rcases p with _ | _ | _ | ⟨_ | _⟩ | ⟨_ | _⟩ | ⟨_ | _⟩ | ⟨_ | _⟩ | ⟨_ | _⟩ | _ | _ <;>
    cases c <;> simp [positions_agree] at h1 <;> simp at h2 <;>
    simp [step, advance_begin, advance_end, advance_operation_runs,
      advance_operation.await_ready, after_advance_await_suspend, advance_await_suspend_begin,
      advance_await_suspend_end, advance_await_suspend_tail, resume_producer, frame.store,
      frame.emit, producer_position.returned,
      consumer_position.returned, producer_position.running, consumer_position.running,
      destructor, request_cancellation, state_beq] at hs <;>
    (subst hs; simp [invariant, positions_agree, h2])

theorem step_destroy_generator_invariant (moved_from : Option E) (s s1 : system E)
    (h : invariant s) (hs : step moved_from s action.destroy_generator = some s1) : invariant s1 := by
  obtain ⟨⟨⟨tag, cc, ex, cv⟩, log⟩, p, c, hc⟩ := s
  obtain ⟨h1, h2⟩ := h
  cases tag <;>
    rcases p with _ | _ | _ | ⟨_ | _⟩ | ⟨_ | _⟩ | ⟨_ | _⟩ | ⟨_ | _⟩ | ⟨_ | _⟩ | _ | _ <;>
    cases c <;> simp [positions_agree] at h1 <;> simp at h2 <;>
    simp [step, advance_begin, advance_end, advance_operation_runs,
      advance_operation.await_ready, after_advance_await_suspend, advance_await_suspend_begin,
      advance_await_suspend_end, advance_await_suspend_tail, resume_producer, frame.store,
      frame.emit, producer_position.returned,
      consumer_position.returned, producer_position.running, consumer_position.running,
      destructor, request_cancellation, state_beq] at hs <;>
    (subst hs; simp [invariant, positions_agree, h2])

theorem step_consumer_awaits_elsewhere_invariant (moved_from : Option E) (s s1 : system E)
    (h : invariant s) (hs : step moved_from s action.consumer_awaits_elsewhere = some s1) : invariant s1 := by
  obtain ⟨⟨⟨tag, cc, ex, cv⟩, log⟩, p, c, hc⟩ := s
  obtain ⟨h1, h2⟩ := h
  cases tag <;>
    rcases p with _ | _ | _ | ⟨_ | _⟩ | ⟨_ | _⟩ | ⟨_ | _⟩ | ⟨_ | _⟩ | ⟨_ | _⟩ | _ | _ <;>
    cases c <;> simp [positions_agree] at h1 <;> simp at h2 <;>
    simp [step, advance_begin, advance_end, advance_operation_runs,
      advance_operation.await_ready, after_advance_await_suspend, advance_await_suspend_begin,
      advance_await_suspend_end, advance_await_suspend_tail, resume_producer, frame.store,
      frame.emit, producer_position.returned,
      consumer_position.returned, producer_position.running, consumer_position.running,
      destructor, request_cancellation, state_beq] at hs <;>
    (subst hs; simp [invariant, positions_agree, h2])

theorem step_consumer_resumed_elsewhere_invariant (moved_from : Option E) (s s1 : system E)
    (h : invariant s) (hs : step moved_from s action.consumer_resumed_elsewhere = some s1) : invariant s1 := by
  obtain ⟨⟨⟨tag, cc, ex, cv⟩, log⟩, p, c, hc⟩ := s
  obtain ⟨h1, h2⟩ := h
  cases tag <;>
    rcases p with _ | _ | _ | ⟨_ | _⟩ | ⟨_ | _⟩ | ⟨_ | _⟩ | ⟨_ | _⟩ | ⟨_ | _⟩ | _ | _ <;>
    cases c <;> simp [positions_agree] at h1 <;> simp at h2 <;>
    simp [step, advance_begin, advance_end, advance_operation_runs,
      advance_operation.await_ready, after_advance_await_suspend, advance_await_suspend_begin,
      advance_await_suspend_end, advance_await_suspend_tail, resume_producer, frame.store,
      frame.emit, producer_position.returned,
      consumer_position.returned, producer_position.running, consumer_position.running,
      destructor, request_cancellation, state_beq] at hs <;>
    (subst hs; simp [invariant, positions_agree, h2])

theorem step_consumer_leaves_invariant (moved_from : Option E) (s s1 : system E)
    (h : invariant s) (hs : step moved_from s action.consumer_leaves = some s1) : invariant s1 := by
  obtain ⟨⟨⟨tag, cc, ex, cv⟩, log⟩, p, c, hc⟩ := s
  obtain ⟨h1, h2⟩ := h
  cases tag <;>
    rcases p with _ | _ | _ | ⟨_ | _⟩ | ⟨_ | _⟩ | ⟨_ | _⟩ | ⟨_ | _⟩ | ⟨_ | _⟩ | _ | _ <;>
    cases c <;> simp [positions_agree] at h1 <;> simp at h2 <;>
    simp [step, advance_begin, advance_end, advance_operation_runs,
      advance_operation.await_ready, after_advance_await_suspend, advance_await_suspend_begin,
      advance_await_suspend_end, advance_await_suspend_tail, resume_producer, frame.store,
      frame.emit, producer_position.returned,
      consumer_position.returned, producer_position.running, consumer_position.running,
      destructor, request_cancellation, state_beq] at hs <;>
    (subst hs; simp [invariant, positions_agree, h2])

theorem step_co_yield_invariant (moved_from : Option E) (s s1 : system E) (address : Nat)
    (h : invariant s) (hs : step moved_from s (action.co_yield address) = some s1) : invariant s1 := by
  obtain ⟨⟨⟨tag, cc, ex, cv⟩, log⟩, p, c, hc⟩ := s
  obtain ⟨h1, h2⟩ := h
  cases tag <;>
    rcases p with _ | _ | _ | ⟨_ | _⟩ | ⟨_ | _⟩ | ⟨_ | _⟩ | ⟨_ | _⟩ | ⟨_ | _⟩ | _ | _ <;>
    cases c <;> simp [positions_agree] at h1 <;> simp at h2 <;>
    simp [step, yield_runs, yield_operation_runs, yield_operation.await_ready,
      after_yield_await_suspend, internal_yield_value_begin, internal_yield_value_end,
      yield_await_suspend_begin, yield_await_suspend_end, yield_await_suspend_tail,
      yield_await_suspend_destroy, resume_consumer, producer_goes_on, store_value,
      unhandled_exception, frame.store, frame.emit,
      producer_position.returned, consumer_position.returned, producer_position.running,
      consumer_position.running] at hs <;>
    (subst hs; simp [invariant, positions_agree, h2])

theorem step_body_returns_invariant (moved_from : Option E) (s s1 : system E)
    (h : invariant s) (hs : step moved_from s action.body_returns = some s1) : invariant s1 := by
  obtain ⟨⟨⟨tag, cc, ex, cv⟩, log⟩, p, c, hc⟩ := s
  obtain ⟨h1, h2⟩ := h
  cases tag <;>
    rcases p with _ | _ | _ | ⟨_ | _⟩ | ⟨_ | _⟩ | ⟨_ | _⟩ | ⟨_ | _⟩ | ⟨_ | _⟩ | _ | _ <;>
    cases c <;> simp [positions_agree] at h1 <;> simp at h2 <;>
    simp [step, yield_runs, yield_operation_runs, yield_operation.await_ready,
      after_yield_await_suspend, internal_yield_value_begin, internal_yield_value_end,
      yield_await_suspend_begin, yield_await_suspend_end, yield_await_suspend_tail,
      yield_await_suspend_destroy, resume_consumer, producer_goes_on, store_value,
      unhandled_exception, frame.store, frame.emit,
      producer_position.returned, consumer_position.returned, producer_position.running,
      consumer_position.running] at hs <;>
    (subst hs; simp [invariant, positions_agree, h2])

theorem step_body_throws_invariant (moved_from : Option E) (s s1 : system E) (e : E)
    (h : invariant s) (hs : step moved_from s (action.body_throws e) = some s1) : invariant s1 := by
  obtain ⟨⟨⟨tag, cc, ex, cv⟩, log⟩, p, c, hc⟩ := s
  obtain ⟨h1, h2⟩ := h
  cases tag <;>
    rcases p with _ | _ | _ | ⟨_ | _⟩ | ⟨_ | _⟩ | ⟨_ | _⟩ | ⟨_ | _⟩ | ⟨_ | _⟩ | _ | _ <;>
    cases c <;> simp [positions_agree] at h1 <;> simp at h2 <;>
    simp [step, yield_runs, yield_operation_runs, yield_operation.await_ready,
      after_yield_await_suspend, internal_yield_value_begin, internal_yield_value_end,
      yield_await_suspend_begin, yield_await_suspend_end, yield_await_suspend_tail,
      yield_await_suspend_destroy, resume_consumer, producer_goes_on, store_value,
      unhandled_exception, frame.store, frame.emit,
      producer_position.returned, consumer_position.returned, producer_position.running,
      consumer_position.running] at hs <;>
    (subst hs; simp [invariant, positions_agree, h2])

theorem step_producer_continues_invariant (moved_from : Option E) (s s1 : system E)
    (h : invariant s) (hs : step moved_from s action.producer_continues = some s1) : invariant s1 := by
  obtain ⟨⟨⟨tag, cc, ex, cv⟩, log⟩, p, c, hc⟩ := s
  obtain ⟨h1, h2⟩ := h
  cases tag <;>
    rcases p with _ | _ | _ | ⟨_ | _⟩ | ⟨_ | _⟩ | ⟨_ | _⟩ | ⟨_ | _⟩ | ⟨_ | _⟩ | _ | _ <;>
    cases c <;> simp [positions_agree] at h1 <;> simp at h2 <;>
    simp [step, yield_runs, yield_operation_runs, yield_operation.await_ready,
      after_yield_await_suspend, internal_yield_value_begin, internal_yield_value_end,
      yield_await_suspend_begin, yield_await_suspend_end, yield_await_suspend_tail,
      yield_await_suspend_destroy, resume_consumer, producer_goes_on, store_value,
      unhandled_exception, frame.store, frame.emit,
      producer_position.returned, consumer_position.returned, producer_position.running,
      consumer_position.running] at hs <;>
    (subst hs; simp [invariant, positions_agree, h2])

theorem step_producer_awaits_elsewhere_invariant (moved_from : Option E) (s s1 : system E)
    (h : invariant s) (hs : step moved_from s action.producer_awaits_elsewhere = some s1) : invariant s1 := by
  obtain ⟨⟨⟨tag, cc, ex, cv⟩, log⟩, p, c, hc⟩ := s
  obtain ⟨h1, h2⟩ := h
  cases tag <;>
    rcases p with _ | _ | _ | ⟨_ | _⟩ | ⟨_ | _⟩ | ⟨_ | _⟩ | ⟨_ | _⟩ | ⟨_ | _⟩ | _ | _ <;>
    cases c <;> simp [positions_agree] at h1 <;> simp at h2 <;>
    simp [step, yield_runs, yield_operation_runs, yield_operation.await_ready,
      after_yield_await_suspend, internal_yield_value_begin, internal_yield_value_end,
      yield_await_suspend_begin, yield_await_suspend_end, yield_await_suspend_tail,
      yield_await_suspend_destroy, resume_consumer, producer_goes_on, store_value,
      unhandled_exception, frame.store, frame.emit,
      producer_position.returned, consumer_position.returned, producer_position.running,
      consumer_position.running] at hs <;>
    (subst hs; simp [invariant, positions_agree, h2])

theorem step_producer_resumed_elsewhere_invariant (moved_from : Option E) (s s1 : system E)
    (h : invariant s) (hs : step moved_from s action.producer_resumed_elsewhere = some s1) : invariant s1 := by
  obtain ⟨⟨⟨tag, cc, ex, cv⟩, log⟩, p, c, hc⟩ := s
  obtain ⟨h1, h2⟩ := h
  (cases tag <;>
    rcases p with _ | _ | _ | ⟨_ | _⟩ | ⟨_ | _⟩ | ⟨_ | _⟩ | ⟨_ | _⟩ | ⟨_ | _⟩ | _ | _ <;>
    cases c <;> simp [positions_agree] at h1 <;> simp at h2 <;>
    simp [step, yield_runs, yield_operation_runs, yield_operation.await_ready,
      after_yield_await_suspend, internal_yield_value_begin, internal_yield_value_end,
      yield_await_suspend_begin, yield_await_suspend_end, yield_await_suspend_tail,
      yield_await_suspend_destroy, resume_consumer, producer_goes_on, store_value,
      unhandled_exception, frame.store, frame.emit,
      producer_position.returned, consumer_position.returned, producer_position.running,
      consumer_position.running] at hs)
  subst hs
  simp [invariant, positions_agree, h2]

/-- Every step keeps the invariant. -/
theorem step_invariant (moved_from : Option E) (s s1 : system E) (a : action E)
    (h : invariant s) (hs : step moved_from s a = some s1) : invariant s1 := by
  cases a
  · exact step_advance_invariant moved_from s s1 h hs
  · exact step_consumer_continues_invariant moved_from s s1 h hs
  · exact step_destroy_generator_invariant moved_from s s1 h hs
  · exact step_consumer_awaits_elsewhere_invariant moved_from s s1 h hs
  · exact step_consumer_resumed_elsewhere_invariant moved_from s s1 h hs
  · exact step_consumer_leaves_invariant moved_from s s1 h hs
  · exact step_co_yield_invariant moved_from s s1 _ h hs
  · exact step_body_returns_invariant moved_from s s1 h hs
  · exact step_body_throws_invariant moved_from s s1 _ h hs
  · exact step_producer_continues_invariant moved_from s s1 h hs
  · exact step_producer_awaits_elsewhere_invariant moved_from s s1 h hs
  · exact step_producer_resumed_elsewhere_invariant moved_from s s1 h hs

/-- Every run keeps the invariant. -/
theorem run_invariant (moved_from : Option E) (acts : List (action E)) :
    ∀ s s1 : system E, invariant s → run moved_from s acts = some s1 → invariant s1 := by
  induction acts with
  | nil =>
    intro s s1 h hs
    simp only [run, Option.some.injEq] at hs
    rw [← hs]
    exact h
  | cons a rest ih =>
    intro s s1 h hs
    simp only [run] at hs
    cases hstep : step moved_from s a with
    | none => rw [hstep] at hs; cases hs
    | some s2 =>
      rw [hstep] at hs
      exact ih s2 s1 (step_invariant moved_from s s2 a h hstep) hs

theorem initial_invariant_holds : invariant ({} : system E) := by
  simp [invariant, positions_agree]

/-! ### Cancellation and alternation -/

/-- Claim C15: in each of the three states in which cancellation is permitted,
`request_cancellation` stores `cancelled` and returns `true` exactly for
`value_ready_producer_suspended`, so the destructor of the owner destroys the producer iff the
producer was suspended at a yield.  Otherwise the producer meets `cancelled` at its next yield
or final suspend: `internal_yield_value` does not resume the consumer and hands `cancelled` to
the yield operation, which is not ready, and `await_suspend` destroys the producer, once, and
returns `true`; the same holds when the state was read before the cancellation
(`m_initialState` still `value_not_ready_consumer_active` or `value_ready_producer_active`) and
when the cancellation happened while the producer was inside a call of
`m_consumerCoroutine.resume()`.  In every run of the system on one thread `destroy()` is
called on the producer at most once, and once exactly when the producer is destroyed. -/
theorem cancellation_destroys_once (moved_from : Option E) (f g : frame E)
    (handle address : Nat) (consumer_runs : frame E → frame E)
    (hpermitted : f.promise.m_state = state.value_not_ready_consumer_active ∨
      f.promise.m_state = state.value_ready_producer_active ∨
      f.promise.m_state = state.value_ready_producer_suspended)
    (hcancelled : g.promise.m_state = state.cancelled) :
    request_cancellation f.promise =
      Except.ok (decide (f.promise.m_state = state.value_ready_producer_suspended),
        { f.promise with m_state := state.cancelled }) ∧
    (∃ f1 : frame E, destructor (some handle) f = Except.ok f1 ∧
      f1.promise = { f.promise with m_state := state.cancelled } ∧
      (f.promise.m_state = state.value_ready_producer_suspended →
        f1.log = f.log ++ [effect.destroy_producer]) ∧
      (f.promise.m_state ≠ state.value_ready_producer_suspended → f1.log = f.log)) ∧
    internal_yield_value_begin (store_value g address) =
      Except.ok (some state.cancelled, store_value g address) ∧
    yield_value consumer_runs address g =
      Except.ok ({ m_initialState := state.cancelled }, store_value g address) ∧
    final_suspend consumer_runs g =
      Except.ok ({ m_initialState := state.cancelled }, store_value g 0) ∧
    yield_operation.await_ready { m_initialState := state.cancelled } = false ∧
    internal_yield_value_end g = state.cancelled ∧
    yield_await_suspend_end g = Except.ok (some true, g.emit effect.destroy_producer) ∧
    (∀ op : yield_operation,
      (op.m_initialState = state.value_not_ready_consumer_active ∨
        op.m_initialState = state.value_ready_producer_active ∨
        op.m_initialState = state.cancelled) →
      yield_await_suspend_begin op g = Except.ok (some true, g.emit effect.destroy_producer) ∧
      op.await_suspend consumer_runs g =
        Except.ok (some true, g.emit effect.destroy_producer)) ∧
    (g.emit effect.destroy_producer).log.count effect.destroy_producer =
      g.log.count effect.destroy_producer + 1 ∧
    (∀ c : Nat, (g.emit effect.destroy_producer).log.count (effect.resume_consumer c) =
      g.log.count (effect.resume_consumer c)) ∧
    (∀ (acts : List (action E)) (s : system E), run moved_from {} acts = some s →
      s.frame.log.count effect.destroy_producer ≤ 1 ∧
      (s.frame.log.count effect.destroy_producer = 1 ↔
        s.producer = producer_position.destroyed)) := by
  have hbegin : internal_yield_value_begin (store_value g address) =
      Except.ok (some state.cancelled, store_value g address) := by
    simp [internal_yield_value_begin, hcancelled]
  have hbegin0 : internal_yield_value_begin (store_value g 0) =
      Except.ok (some state.cancelled, store_value g 0) := by
    simp [internal_yield_value_begin, hcancelled]
  have hop : ∀ op : yield_operation,
      (op.m_initialState = state.value_not_ready_consumer_active ∨
        op.m_initialState = state.value_ready_producer_active ∨
        op.m_initialState = state.cancelled) →
      yield_await_suspend_begin op g =
        Except.ok (some true, g.emit effect.destroy_producer) := by
    intro op h
    rcases h with h | h | h <;>
      simp [yield_await_suspend_begin, yield_await_suspend_tail, yield_await_suspend_destroy,
        h, hcancelled]
  refine ⟨?_, ?_, hbegin, ?_, ?_, rfl, hcancelled, ?_, ?_, ?_, ?_, ?_⟩
  · rcases hpermitted with h | h | h <;> simp [request_cancellation, h]
  · rcases hpermitted with h | h | h
    · refine ⟨{ f with promise := { f.promise with m_state := state.cancelled } }, ?_, rfl,
        by simp [h], fun _ => rfl⟩
      simp only [destructor, request_cancellation, h]
      rfl
    · refine ⟨{ f with promise := { f.promise with m_state := state.cancelled } }, ?_, rfl,
        by simp [h], fun _ => rfl⟩
      simp only [destructor, request_cancellation, h]
      rfl
    · refine ⟨frame.emit { f with promise := { f.promise with m_state := state.cancelled } }
        effect.destroy_producer, ?_, rfl, fun _ => rfl, fun hne => absurd h hne⟩
      simp only [destructor, request_cancellation, h]
      rfl
  · simp [yield_value, internal_yield_value, hbegin]
  · simp [final_suspend, internal_yield_value, hbegin0]
  · simp [yield_await_suspend_end, yield_await_suspend_tail, yield_await_suspend_destroy,
      hcancelled]
  · intro op h
    refine ⟨hop op h, ?_⟩
    simp [yield_operation.await_suspend, hop op h]
  · simp
  · intro c
    simp
  · intro acts s hrun
    have hinv := (run_invariant moved_from acts {} s initial_invariant_holds hrun).2
    by_cases hd : s.producer = producer_position.destroyed
    · rw [if_pos hd] at hinv
      rw [hinv]
      exact ⟨Nat.le_refl 1, fun _ => hd, fun _ => rfl⟩
    · rw [if_neg hd] at hinv
      rw [hinv]
      exact ⟨Nat.zero_le 1, fun h => absurd h (by decide), fun h => absurd h hd⟩

theorem cancellation_destroys_once_witness :
    (∃ f1 : frame Nat,
      destructor (some 1)
        ({ promise := { m_state := state.value_ready_producer_active }, log := [] } :
          frame Nat) = Except.ok f1 ∧
      f1.promise = { m_state := state.cancelled } ∧
      (state.value_ready_producer_active = state.value_ready_producer_suspended →
        f1.log = [] ++ [effect.destroy_producer]) ∧
      (state.value_ready_producer_active ≠ state.value_ready_producer_suspended →
        f1.log = [])) ∧
    yield_await_suspend_end
        ({ promise := { m_state := state.cancelled }, log := [] } : frame Nat) =
      Except.ok (some true, { promise := { m_state := state.cancelled },
                              log := [effect.destroy_producer] }) :=
  ⟨(cancellation_destroys_once (none : Option Nat)
      ({ promise := { m_state := state.value_ready_producer_active }, log := [] } : frame Nat)
      { promise := { m_state := state.cancelled }, log := [] } 1 5 (fun f => f)
      (Or.inr (Or.inl rfl)) rfl).2.1,
    rfl⟩

/-- Claim C19, a state in which neither side runs.  The consumer calls `begin()`: the
constructor stores `value_not_ready_consumer_active` and resumes the producer, which runs
while the consumer waits inside the constructor.  The body then awaits something that is not
a yield, so `resume()` returns with the state unchanged, the operation is not ready, and
`await_suspend` moves the state to `value_not_ready_consumer_suspended` and suspends the
consumer.  Now the producer is suspended elsewhere and the consumer is suspended in the
generator: nobody runs. -/
theorem nobody_runs_while_producer_waits_elsewhere :
    (run none ({} : system Nat) [action.advance]).map
        (fun s => (s.frame.promise.m_state, s.producer, s.consumer)) =
      some (state.value_not_ready_consumer_active, producer_position.body,
        consumer_position.ctor_resume) ∧
    (run none ({} : system Nat)
        [action.advance, action.producer_awaits_elsewhere, action.consumer_continues]).map
        (fun s => (s.frame.promise.m_state, s.producer, s.consumer,
          s.producer.running, s.consumer.running)) =
      some (state.value_not_ready_consumer_suspended, producer_position.elsewhere,
        consumer_position.suspended, false, false) :=
  ⟨rfl, rfl⟩

end async_generator

/-! ## Properties of `run`, `stop` and `reset` -/

theorem and_clear_flag (s : Nat) (h : s < 4294967296) : s &&& 4294967294 = 2 * (s / 2) := by
  have h1 : (s &&& 4294967294) / 2 = s / 2 := by
    rw [Nat.and_div_two]
    have h31 : (4294967294 : Nat) / 2 = 2 ^ 31 - 1 := by norm_num
    rw [h31, Nat.and_pow_two_sub_one_eq_mod]
    exact Nat.mod_eq_of_lt (by omega)
  have h2 : (s &&& 4294967294) % 2 ≠ 1 := by
    intro h4
    have h5 := (@Nat.and_mod_two_eq_one s 4294967294).mp h4
    omega
  omega

theorem or_set_flag (s : Nat) : s ||| 1 = 2 * (s / 2) + 1 := by
  have h1 : (s ||| 1) / 2 = s / 2 := by
    rw [Nat.or_div_two]
    simp
  have h2 : (s ||| 1) % 2 = 1 := (@Nat.or_mod_two_eq_one s 1).mpr (Or.inr rfl)
  omega

/-- The word after `stop()`. -/
theorem stop_state (c : context) (hword : c.state_ < 2 ^ 32) :
    c.stop.2.state_ = 2 * (c.state_ / 2) + 1 := by
  have h1 : c.stop.2.state_ = (c.state_ ||| 1) % 2 ^ 32 := by
    simp only [context.stop, context.interrupt, stop_requested_flag]
    split <;> rfl
  rw [h1, or_set_flag]
  exact Nat.mod_eq_of_lt (by omega)

/-- The word after `reset()`. -/
theorem reset_state (c : context) (hword : c.state_ < 2 ^ 32) :
    c.reset.2.state_ = 2 * (c.state_ / 2) := by
  have h1 : c.reset.2.state_ = c.state_ &&& 4294967294 := by
    simp [context.reset, stop_requested_flag]
  rw [h1]
  exact and_clear_flag _ (by norm_num at hword; exact hword)

/-- The word and the wakes after the exit of `run`. -/
theorem run_exit_state (error : Int) (c : context) (hword : c.state_ < 2 ^ 32)
    (hcounted : 2 ≤ c.state_) :
    (c.run_exit error).2.state_ = c.state_ - 2 ∧
    (c.run_exit error).2.wakes =
      if c.state_ % 2 = 1 ∧ 1 < c.state_ / 2 then c.wakes + 1 else c.wakes := by
  have hmod : (c.state_ + 2 ^ 32 - 2) % 2 ^ 32 = c.state_ - 2 := by
    have h1 : c.state_ + 2 ^ 32 - 2 = (c.state_ - 2) + 2 ^ 32 := by omega
    rw [h1, Nat.add_mod_right]
    exact Nat.mod_eq_of_lt (by omega)
  have hne : ¬ c.state_ % 2 = 0 ↔ c.state_ % 2 = 1 := by omega
  constructor
  · simp only [context.run_exit, context.interrupt, thread_count_increment]
    split <;> exact hmod
  · simp only [context.run_exit, context.interrupt, thread_count_increment,
      stop_requested_flag, Nat.and_one_is_mod, ne_eq, hne]
    split <;> rfl

/-- Claim C21, the last runner does not wake anybody.  With the stop flag set and one thread
counted (word 3) the exit of `run` leaves the word 1 and posts no wake; with two threads
counted (word 5) it leaves word 3, a thread still counted, and posts one. -/
theorem last_runner_does_not_interrupt :
    (context.run_exit 0 { state_ := 3, wakes := 0 }).2 = { state_ := 1, wakes := 0 } ∧
    (context.run_exit 0 { state_ := 5, wakes := 0 }).2 = { state_ := 3, wakes := 1 } := by
  decide

/-- Claim C21, as the code has it.  The exit of `run`, for a thread that is counted,
decrements the thread count and leaves the stop flag as it is.  It calls `interrupt()` iff
the stop flag was set and the count before the decrement was greater than one, that is iff a
stop is pending and other threads are still counted; the last runner never does. -/
theorem run_exit_spec (error : Int) (c : context) (hword : c.state_ < 2 ^ 32)
    (hcounted : 1 ≤ c.state_ / thread_count_increment) :
    (c.run_exit error).2.state_ / thread_count_increment =
      c.state_ / thread_count_increment - 1 ∧
    (c.run_exit error).2.state_ &&& stop_requested_flag =
      c.state_ &&& stop_requested_flag ∧
    ((c.run_exit error).2.wakes = c.wakes + 1 ↔
      (c.state_ &&& stop_requested_flag ≠ 0 ∧ 1 < c.state_ / thread_count_increment)) ∧
    ((c.run_exit error).2.wakes = c.wakes + 1 ↔
      (c.state_ &&& stop_requested_flag ≠ 0 ∧
        0 < (c.run_exit error).2.state_ / thread_count_increment)) ∧
    ((c.run_exit error).2.wakes = c.wakes ∨ (c.run_exit error).2.wakes = c.wakes + 1) ∧
    (c.state_ / thread_count_increment = 1 → (c.run_exit error).2.wakes = c.wakes) := by
  simp only [thread_count_increment, stop_requested_flag, Nat.and_one_is_mod] at *
  obtain ⟨hs, hw⟩ := run_exit_state error c hword (by omega)
  rw [hs, hw]
  refine ⟨by omega, by omega, ?_, ?_, ?_, ?_⟩
  · by_cases h : c.state_ % 2 = 1 ∧ 1 < c.state_ / 2
    · rw [if_pos h]
      exact ⟨fun _ => ⟨by omega, h.2⟩, fun _ => rfl⟩
    · rw [if_neg h]
      exact ⟨fun h1 => by omega, fun h1 => absurd ⟨by omega, h1.2⟩ h⟩
  · by_cases h : c.state_ % 2 = 1 ∧ 1 < c.state_ / 2
    · rw [if_pos h]
      exact ⟨fun _ => ⟨by omega, by omega⟩, fun _ => rfl⟩
    · rw [if_neg h]
      exact ⟨fun h1 => by omega, fun h1 => absurd ⟨by omega, by omega⟩ h⟩
  · by_cases h : c.state_ % 2 = 1 ∧ 1 < c.state_ / 2
    · rw [if_pos h]
      exact Or.inr rfl
    · rw [if_neg h]
      exact Or.inl rfl
  · intro h1
    rw [if_neg (by omega)]

theorem run_exit_spec_witness :
    (1 : Nat) ≤ (5 : Nat) / thread_count_increment ∧
    (context.run_exit 0 { state_ := 5, wakes := 0 }).2.state_ / thread_count_increment =
      5 / thread_count_increment - 1 :=
  ⟨by decide, (run_exit_spec 0 { state_ := 5, wakes := 0 } (by norm_num) (by decide)).1⟩

/-- A loop of `run` that ends with an error code other than zero ends at a wait that failed
with that code, which is not `EINTR`. -/
theorem run_loop_error (EINTR : Int) (rounds : List round) :
    ∀ (c c1 : context) (dispatched dispatched1 : List Nat) (error : Int),
      context.run_loop EINTR rounds c dispatched = some (error, c1, dispatched1) →
      error ≠ 0 →
      error ≠ EINTR ∧ ∃ r ∈ rounds, r.result = wait_result.failed error := by
  induction rounds with
  | nil =>
    intro c c1 d d1 error h hne
    simp only [context.run_loop] at h
    split at h
    · cases h
    · simp only [Option.some.injEq, Prod.mk.injEq] at h
      exact absurd h.1.symm hne
  | cons r rest ih =>
    intro c c1 d d1 error h hne
    simp only [context.run_loop] at h
    split at h
    · cases hres : r.result with
      | failed errno =>
        rw [hres] at h
        simp only [context.after_wait] at h
        by_cases he : errno ≠ EINTR
        · rw [if_pos he] at h
          simp only [Option.some.injEq, Prod.mk.injEq] at h
          rw [← h.1]
          exact ⟨he, r, List.mem_cons_self r rest, hres⟩
        · rw [if_neg he] at h
          obtain ⟨h1, r1, hr1, hr2⟩ := ih _ _ _ _ _ h hne
          exact ⟨h1, r1, List.mem_cons_of_mem r hr1, hr2⟩
      | entries pointers =>
        rw [hres] at h
        simp only [context.after_wait] at h
        obtain ⟨h1, r1, hr1, hr2⟩ := ih _ _ _ _ _ h hne
        exact ⟨h1, r1, List.mem_cons_of_mem r hr1, hr2⟩
    · simp only [Option.some.injEq, Prod.mk.injEq] at h
      exact absurd h.1.symm hne

/-- Claim C24: in the loop of `run`, with the stop flag clear, a wait that fails with
`EINTR` resumes no event and the loop goes on with the next evaluation of its condition; a
wait that fails with another code ends the loop with `error` set to that code, whatever
would follow.  After the loop the thread count is decremented in every case, and
`throw_error` raises iff the code is not zero, the exception carrying that code: so a loop
ended by the stop flag makes `run` return, and a call of `run` that throws carries the code
of a wait that failed, other than `EINTR`. -/
theorem run_wait_errors (EINTR errno : Int) (rest : List round) (during : context → context)
    (c : context) (dispatched : List Nat) (message : String)
    (hclear : c.state_ &&& stop_requested_flag = 0) :
    context.after_wait EINTR (wait_result.failed EINTR) dispatched =
      loop_step.again dispatched ∧
    context.run_loop EINTR ({ result := wait_result.failed EINTR, during := during } :: rest)
        c dispatched =
      context.run_loop EINTR rest (during c) dispatched ∧
    (errno ≠ EINTR →
      context.run_loop EINTR ({ result := wait_result.failed errno, during := during } :: rest)
          c dispatched =
        some (errno, during c, dispatched)) ∧
    (∀ d : context, d.state_ < 2 ^ 32 → 2 ≤ d.state_ →
      (d.run_exit errno).2.state_ = d.state_ - 2) ∧
    (errno ≠ 0 → ∀ d : context,
      (d.run_exit errno).1 = Except.error { code := errno, message := "run" }) ∧
    (∀ d : context, (d.run_exit 0).1 = Except.ok ()) ∧
    (∀ (rounds : List round) (d : context) (ds : List Nat),
      d.state_ &&& stop_requested_flag ≠ 0 →
      context.run_loop EINTR rounds d ds = some (0, d, ds)) ∧
    ((∃ e, throw_error errno message = Except.error e) ↔ errno ≠ 0) ∧
    (∀ (rounds : List round) (c0 : context) (r : run_result) (e : system_error),
      context.run EINTR rounds c0 = some r → r.outcome = Except.error e →
      e.code ≠ 0 ∧ e.code ≠ EINTR ∧
      ∃ failing ∈ rounds, failing.result = wait_result.failed e.code) := by
  refine ⟨?_, ?_, fun hne => ?_, fun d hd1 hd2 => ?_, fun hne d => ?_, fun d => ?_,
    fun rounds d ds hset => ?_, ?_, fun rounds c0 r e hrun hout => ?_⟩
  · simp [context.after_wait]
  · simp [context.run_loop, context.after_wait, hclear]
  · simp [context.run_loop, context.after_wait, hclear, hne]
  · exact (run_exit_state errno d hd1 hd2).1
  · simp [context.run_exit, throw_error, hne]
  · simp [context.run_exit, throw_error]
  · cases rounds with
    | nil => simp [context.run_loop, hset]
    | cons r rest => simp [context.run_loop, hset]
  · by_cases h0 : errno = 0
    · simp [throw_error, h0]
    · simp [throw_error, h0]
  · simp only [context.run] at hrun
    cases hloop : context.run_loop EINTR rounds c0.run_enter [] with
    | none => rw [hloop] at hrun; cases hrun
    | some res =>
      obtain ⟨error, c1, ds⟩ := res
      rw [hloop] at hrun
      simp only [Option.some.injEq] at hrun
      rw [← hrun] at hout
      simp only [context.run_exit, throw_error] at hout
      by_cases h0 : error = 0
      · simp [h0] at hout
      · simp only [ne_eq, h0, not_false_eq_true, if_true, Except.error.injEq] at hout
        rw [← hout]
        obtain ⟨h1, h2⟩ := run_loop_error EINTR rounds _ _ _ _ _ hloop h0
        exact ⟨h0, h1, h2⟩

theorem run_wait_errors_witness :
    ((2 : Nat) &&& stop_requested_flag = 0) ∧
    context.run 4 [{ result := wait_result.failed 4, during := fun c => c },
                   { result := wait_result.entries [0, 77], during := fun c => c },
                   { result := wait_result.failed 9, during := fun c => c }]
        { state_ := 0, wakes := 0 } =
      some { c := { state_ := 0, wakes := 0 }, dispatched := [77],
             outcome := Except.error { code := 9, message := "run" } } ∧
    context.after_wait 4 (wait_result.failed 4) [] = loop_step.again [] :=
  ⟨by decide, rfl,
    (run_wait_errors 4 9 [] (fun c => c) { state_ := 2, wakes := 0 } [] "run"
      (by decide)).1⟩

/-- The word after a number of threads have entered `run`. -/
theorem run_enter_iterate (k : Nat) :
    ∀ c : context, c.state_ + 2 * k < 2 ^ 32 →
      (context.run_enter^[k] c) = { c with state_ := c.state_ + 2 * k } := by
  induction k with
  | zero => intro c _; rfl
  | succ k ih =>
    intro c h
    have h1 : c.run_enter = { c with state_ := c.state_ + 2 } := by
      simp only [context.run_enter, thread_count_increment]
      rw [Nat.mod_eq_of_lt (by omega)]
    rw [Function.iterate_succ_apply, h1, ih _ (by simp only; omega)]
    simp only [context.mk.injEq, and_true]
    omega

/-- One wake delivered to a thread blocked in `run` while the stop flag is set: the thread
leaves `run`, and posts a wake iff other threads are still counted. -/
theorem wake_stopped (EINTR : Int) (m wakes blocked delivered : Nat) (hm : 1 ≤ m)
    (hfit : 2 * m + 1 < 2 ^ 32) (hpending : delivered < wakes) :
    runners.wake EINTR
        { c := { state_ := 2 * m + 1, wakes := wakes }, blocked := blocked + 1,
          delivered := delivered } =
      some { c := { state_ := 2 * (m - 1) + 1,
                    wakes := if 1 < m then wakes + 1 else wakes },
             blocked := blocked, delivered := delivered + 1 } := by
  have hflag : ¬ (2 * m + 1) % 2 = 0 := by omega
  have hexit := run_exit_state 0 { state_ := 2 * m + 1, wakes := wakes } hfit
    (by simp only; omega)
  simp only at hexit
  have hc : (context.run_exit 0 { state_ := 2 * m + 1, wakes := wakes }).2 =
      { state_ := 2 * (m - 1) + 1, wakes := if 1 < m then wakes + 1 else wakes } := by
    have h1 : (2 * m + 1) % 2 = 1 ∧ 1 < (2 * m + 1) / 2 ↔ 1 < m := by omega
    have h2 : 2 * m + 1 - 2 = 2 * (m - 1) + 1 := by omega
    cases hx : (context.run_exit 0 { state_ := 2 * m + 1, wakes := wakes }).2 with
    | mk s w =>
      rw [hx] at hexit
      simp only at hexit
      rw [hexit.1, hexit.2, h2]
      by_cases h3 : 1 < m
      · rw [if_pos (h1.mpr h3), if_pos h3]
      · rw [if_neg (fun h => h3 (h1.mp h)), if_neg h3]
  have hno : ¬ wakes ≤ delivered := by omega
  simp only [runners.wake, context.run_resumes, context.after_wait, context.run_loop,
    stop_requested_flag, Nat.and_one_is_mod, hflag, hno, Nat.add_one_ne_zero, or_self,
    if_false, hc, Nat.add_sub_cancel]

/-- After `stop()` on `K` blocked threads, `j` wakes delivered in a row leave `K - j`
blocked threads, with one wake pending as long as a thread is left. -/
theorem wakes_after_stop (EINTR : Int) (K : Nat) (hK : 1 ≤ K)
    (hfit : 2 * K + 1 < 2 ^ 32) :
    ∀ j : Nat, j ≤ K →
      runners.wakes EINTR j
          { c := { state_ := 2 * K + 1, wakes := 1 }, blocked := K, delivered := 0 } =
        some { c := { state_ := 2 * (K - j) + 1, wakes := if j < K then j + 1 else K },
               blocked := K - j, delivered := j } := by
  suffices h : ∀ (j i : Nat), i + j ≤ K →
      runners.wakes EINTR j
          { c := { state_ := 2 * (K - i) + 1, wakes := if i < K then i + 1 else K },
            blocked := K - i, delivered := i } =
        some { c := { state_ := 2 * (K - (i + j)) + 1,
                      wakes := if i + j < K then i + j + 1 else K },
               blocked := K - (i + j), delivered := i + j } by
    intro j hj
    have h0 := h j 0 (by omega)
    have hpos : 0 < K := hK
    simpa [hpos] using h0
  intro j
  induction j with
  | zero => intro i _; rfl
  | succ j ih =>
    intro i hi
    have hlt : i < K := by omega
    have hb : K - i = (K - i - 1) + 1 := by omega
    have hstep := wake_stopped EINTR (K - i) (i + 1) (K - i - 1) i (by omega) (by omega)
      (by omega)
    rw [← hb] at hstep
    simp only [runners.wakes, if_pos hlt, hstep]
    have hnext := ih (i + 1) (by omega)
    have e1 : K - i - 1 = K - (i + 1) := by omega
    have e2 : (if 1 < K - i then i + 1 + 1 else i + 1) =
        (if i + 1 < K then i + 1 + 1 else K) := by
      by_cases h1 : 1 < K - i
      · rw [if_pos h1, if_pos (by omega)]
      · rw [if_neg h1, if_neg (by omega)]
        omega
    rw [e1, e2, hnext]
    have e3 : i + 1 + j = i + (j + 1) := by omega
    rw [e3]

/-- Claim C22: let `K >= 1` threads have entered `run` on a new context (word `2 * K`, each
finding the stop flag clear and staying in its wait), and let `stop()` be called once.  It
posts one wake.  The wakes can then be delivered one after the other to the `K` threads:
each delivery makes one thread leave `run`, which posts one further wake while other threads
are still counted, so one wake is pending until the last thread has left, and the last
thread posts none.  In the end no thread is blocked, the thread count is zero with the stop
flag set, `K` wakes have been posted and all of them delivered, and no wake is left. -/
theorem stop_wakes_all_runners (EINTR : Int) (K : Nat) (hK : 1 ≤ K)
    (hfit : 2 * K + 1 < 2 ^ 32) :
    (context.run_enter^[K] {}) = { state_ := 2 * K, wakes := 0 } ∧
    context.run_loop EINTR [] (context.run_enter^[K] {}) [] = none ∧
    runners.stop { c := context.run_enter^[K] {}, blocked := K, delivered := 0 } =
      { c := { state_ := 2 * K + 1, wakes := 1 }, blocked := K, delivered := 0 } ∧
    (∀ j : Nat, j < K →
      runners.wakes EINTR j
          (runners.stop { c := context.run_enter^[K] {}, blocked := K, delivered := 0 }) =
        some { c := { state_ := 2 * (K - j) + 1, wakes := j + 1 }, blocked := K - j,
               delivered := j }) ∧
    runners.wakes EINTR K
        (runners.stop { c := context.run_enter^[K] {}, blocked := K, delivered := 0 }) =
      some { c := { state_ := 1, wakes := K }, blocked := 0, delivered := K } ∧
    (1 : Nat) / thread_count_increment = 0 ∧
    runners.wake EINTR { c := { state_ := 1, wakes := K }, blocked := 0, delivered := K } =
      none := by
  have henter : (context.run_enter^[K] {}) = { state_ := 2 * K, wakes := 0 } := by
    rw [run_enter_iterate K {} (by simp only; omega)]
    simp
  have hstop : runners.stop
      { c := context.run_enter^[K] {}, blocked := K, delivered := 0 } =
      { c := { state_ := 2 * K + 1, wakes := 1 }, blocked := K, delivered := 0 } := by
    rw [henter]
    have hs := stop_state { state_ := 2 * K, wakes := 0 } (by simp only; omega)
    simp only at hs
    have hw : (context.stop { state_ := 2 * K, wakes := 0 }).2.wakes = 1 := by
      have h1 : (2 * K) % 2 = 0 ∧ (2 * K) / 2 > 0 := by omega
      simp only [context.stop, context.interrupt, stop_requested_flag,
        thread_count_increment, Nat.and_one_is_mod, h1, and_self, if_true]
    cases hx : (context.stop { state_ := 2 * K, wakes := 0 }).2 with
    | mk s w =>
      rw [hx] at hs hw
      simp only at hs hw
      simp only [runners.stop, hx, hs, hw]
      have h2 : 2 * (2 * K / 2) + 1 = 2 * K + 1 := by omega
      rw [h2]
  have hall := wakes_after_stop EINTR K hK hfit
  refine ⟨henter, ?_, hstop, fun j hj => ?_, ?_, by decide, ?_⟩
  · rw [henter]
    have h0 : (2 * K) % 2 = 0 := by omega
    simp [context.run_loop, stop_requested_flag, Nat.and_one_is_mod, h0]
  · rw [hstop, hall j (by omega), if_pos hj]
  · rw [hstop, hall K (Nat.le_refl K)]
    simp
  · simp [runners.wake]

theorem stop_wakes_all_runners_witness :
    (1 : Nat) ≤ 3 ∧
    runners.wakes 4 3
        (runners.stop { c := context.run_enter^[3] {}, blocked := 3, delivered := 0 }) =
      some { c := { state_ := 1, wakes := 3 }, blocked := 0, delivered := 3 } :=
  ⟨by decide, (stop_wakes_all_runners 4 3 (by decide) (by norm_num)).2.2.2.2.1⟩

/-! ## Properties of the continuation, of `try_await` and of the reactor event -/

/-- Claim C26: the conversion of a continuation to `bool` is true iff the callback or the
state pointer is not null; it is false for a default-constructed continuation, and for the
two other constructors it is true iff one of their arguments is not null.  `resume()` is
one dispatch: the call of the callback on the state pointer when there is a callback, and
otherwise the resumption of the coroutine whose address the state pointer holds; never
both. -/
theorem continuation_dispatch (c : continuation) (awaiter callback state : Nat) :
    (c.toBool = true ↔ (c.m_callback ≠ 0 ∨ c.m_state ≠ 0)) ∧
    ({} : continuation).toBool = false ∧
    ((continuation.of_awaiter awaiter).toBool = true ↔ awaiter ≠ 0) ∧
    ((continuation.of_callback callback state).toBool = true ↔
      (callback ≠ 0 ∨ state ≠ 0)) ∧
    (c.m_callback ≠ 0 → c.resume = event.invoke_callback c.m_callback c.m_state) ∧
    (c.m_callback = 0 → c.resume = event.resume_coroutine c.m_state) ∧
    c.resume.is_resumption = true ∧
    ((∃ f context, c.resume = event.invoke_callback f context) ↔
      ¬ ∃ address, c.resume = event.resume_coroutine address) ∧
    (continuation.of_awaiter awaiter).resume = event.resume_coroutine awaiter ∧
    (callback ≠ 0 →
      (continuation.of_callback callback state).resume =
        event.invoke_callback callback state) := by
  refine ⟨?_, by decide, ?_, ?_, fun h => ?_, fun h => ?_, ?_, ?_, ?_, fun h => ?_⟩
  · simp [continuation.toBool]
  · simp [continuation.toBool, continuation.of_awaiter]
  · simp [continuation.toBool, continuation.of_callback]
  · simp [continuation.resume, h]
  · simp [continuation.resume, h]
  · by_cases h : c.m_callback = 0 <;> simp [continuation.resume, h, event.is_resumption]
  · by_cases h : c.m_callback = 0 <;> simp [continuation.resume, h]
  · simp [continuation.resume, continuation.of_awaiter]
  · simp [continuation.resume, continuation.of_callback, h]

theorem continuation_dispatch_witness :
    (5 : Nat) ≠ 0 ∧
    (continuation.of_callback 5 9).resume = event.invoke_callback 5 9 :=
  ⟨by decide,
    (continuation_dispatch (continuation.of_callback 5 9) 7 5 9).2.2.2.2.2.2.2.2.2
      (by decide)⟩

/-- Claim C27: `try_await` returns `true` iff the state was `running`, and the state is then
`consumer_suspended`; in the three other states it returns `false` and leaves the state as
it is.  In every case the continuation has been stored, and the exception and the value slot
are untouched. -/
theorem try_await_spec (p : async_promise T E) (c : continuation) :
    ((try_await p c).1 = true ↔ p.m_state = state.running) ∧
    (p.m_state = state.running → (try_await p c).2.m_state = state.consumer_suspended) ∧
    (p.m_state = state.consumer_suspended ∨ p.m_state = state.consumer_detached ∨
        p.m_state = state.finished →
      (try_await p c).1 = false ∧ (try_await p c).2.m_state = p.m_state) ∧
    (try_await p c).2.m_continuation = c ∧
    (try_await p c).2.m_exception = p.m_exception ∧
    (try_await p c).2.m_valueStorage = p.m_valueStorage := by
  cases hs : p.m_state <;> simp [try_await, hs]

theorem try_await_spec_witness :
    (try_await ({ m_state := state.finished } : async_promise Nat Nat) {}).1 = false ∧
    (try_await ({ m_state := state.finished } : async_promise Nat Nat) {}).2.m_state =
      state.finished :=
  (try_await_spec ({ m_state := state.finished } : async_promise Nat Nat) {}).2.2.1
    (Or.inr (Or.inr rfl))

namespace reactor

/-- Claim C25: an event is never ready.  When the registration of `await_suspend` fails
with `errno`, the result slot holds `errno`, the coroutine just stored is resumed, once,
from inside `await_suspend`, and `await_resume` gives `errno`.  When the registration
succeeds, `await_suspend` resumes nothing; `resume()`, called by the loop of `run`, then
resumes the stored coroutine once, and `await_resume` gives the `errno` of the
deregistration if that failed and otherwise what the slot held, which is `0` for an event
as constructed. -/
theorem event_spec (ev : event) (handle : Nat) (errno context fd : Int) :
    ev.await_ready = false ∧
    ev.await_suspend handle (some errno) =
      ({ ev with handle_ := handle, error_ := errno }, [handle]) ∧
    (ev.await_suspend handle (some errno)).1.await_resume = errno ∧
    ev.await_suspend handle none = ({ ev with handle_ := handle }, []) ∧
    ((ev.await_suspend handle none).1.resume none).2 = [handle] ∧
    ((ev.await_suspend handle none).1.resume (some errno)).2 = [handle] ∧
    ((ev.await_suspend handle none).1.resume none).1.await_resume = ev.error_ ∧
    ((ev.await_suspend handle none).1.resume (some errno)).1.await_resume = errno ∧
    (event.create context fd).error_ = 0 ∧
    ((((event.create context fd).await_suspend handle none).1.resume none).1.await_resume
      = 0) ∧
    (∀ deregistration : Option Int,
      ((((event.create context fd).await_suspend handle none).1.resume
          deregistration).1.await_resume ≠ 0 →
        deregistration ≠ none)) := by
  refine ⟨rfl, rfl, rfl, rfl, rfl, rfl, rfl, rfl, rfl, rfl, fun d h hd => ?_⟩
  rw [hd] at h
  exact h rfl

theorem event_spec_witness :
    ((((event.create 3 8).await_suspend 21 none).1.resume (some 2)).1.await_resume ≠ 0) ∧
    (some 2 : Option Int) ≠ none :=
  ⟨by decide, (event_spec (event.create 3 8) 21 2 3 8).2.2.2.2.2.2.2.2.2.2 (some 2)
    (by decide)⟩

end reactor

namespace async_mutex

/-- What the retry loop of `await_suspend` returns and writes. -/
theorem await_suspend_retry_spec (this : Nat) (later : List Nat) :
    ∀ m : mutex,
      ((await_suspend_retry this later m).1 = false ↔
        last_observed m.m_state later = not_locked) ∧
      ((await_suspend_retry this later m).1 = false →
        (await_suspend_retry this later m).2.m_state = locked_no_waiters) ∧
      ((await_suspend_retry this later m).1 = true →
        (await_suspend_retry this later m).2.m_state = this ∧
        ((await_suspend_retry this later m).2.ops this).m_next =
          last_observed m.m_state later) ∧
      (await_suspend_retry this later m).2.m_waiters = m.m_waiters ∧
      (∀ a, a ≠ this → (await_suspend_retry this later m).2.ops a = m.ops a) ∧
      (∀ a, ((await_suspend_retry this later m).2.ops a).m_awaiter = (m.ops a).m_awaiter) := by
  induction later with
  | nil =>
    intro m
    by_cases h : m.m_state = not_locked
    · simp [await_suspend_retry, last_observed, h]
    · have hr : await_suspend_retry this [] m =
          (true, { m with ops := set_next m.ops this m.m_state, m_state := this }) := by
        simp [await_suspend_retry, h]
      rw [hr]
      refine ⟨?_, ?_, fun _ => ⟨rfl, set_next_same _ _ _⟩, rfl,
        fun a ha => set_next_other _ _ _ _ ha, fun a => set_next_awaiter _ _ _ _⟩
      · simp [last_observed, h]
      · intro hf
        cases hf
  | cons w later ih =>
    intro m
    by_cases h : m.m_state = not_locked
    · simp only [await_suspend_retry, last_observed, h, if_true]
      exact ih { m with m_state := w }
    · simp only [await_suspend_retry, last_observed, h, if_false]
      obtain ⟨h1, h2, h3, h4, h5, h6⟩ :=
        ih { m with ops := set_next m.ops this m.m_state, m_state := w }
      refine ⟨h1, h2, h3, h4, fun a ha => ?_, fun a => ?_⟩
      · rw [h5 a ha]
        exact set_next_other _ _ _ _ ha
      · rw [h6 a]
        exact set_next_awaiter _ _ _ _

/-- Spurious failures are failures that read the same word again. -/
theorem await_suspend_loop_eq_retry (this n : Nat) :
    ∀ m : mutex,
      await_suspend_loop this n m =
        await_suspend_retry this (List.replicate n m.m_state) m := by
  induction n with
  | zero => intro m; rfl
  | succ n ih =>
    intro m
    obtain ⟨word, cache, ops⟩ := m
    by_cases h : word = not_locked
    · simp only [await_suspend_loop, List.replicate, await_suspend_retry, h, if_true]
      rw [ih]
    · simp only [await_suspend_loop, List.replicate, await_suspend_retry, h, if_false]
      rw [ih]

/-- Claim C28: let `r` be what `await_suspend` of the lock operation at `this` returns and
leaves, the compare-exchange having failed on the words of `later` before it succeeds.  It
returns `false` iff the word it read last is `not_locked`, and the word is then
`locked_no_waiters`.  Otherwise it returns `true`, the word is the address `this`, and the
field `m_next` of this record is the word read last, the previous head, null when that word
was `locked_no_waiters`.  It writes the awaiter into its own record and nothing into any
other record, nor into the cached list: a list of waiters linked from the previous head is
still linked behind the new head.  A spurious failure is a failure that reads the same word
again. -/
theorem await_suspend_spec (this awaiter spurious : Nat) (later xs : List Nat) (m : mutex)
    (r : Bool × mutex) (hr : await_suspend_contended this awaiter later m = r) :
    (r.1 = false ↔ last_observed m.m_state later = not_locked) ∧
    (r.1 = false → r.2.m_state = locked_no_waiters) ∧
    (r.1 = true →
      r.2.m_state = this ∧ (r.2.ops this).m_next = last_observed m.m_state later) ∧
    (r.1 = true → last_observed m.m_state later = locked_no_waiters →
      (r.2.ops this).m_next = 0) ∧
    r.2.m_waiters = m.m_waiters ∧
    (r.2.ops this).m_awaiter = awaiter ∧
    (∀ a, a ≠ this → r.2.ops a = m.ops a) ∧
    (r.1 = true → this ≠ 0 → this ∉ xs →
      is_list m.ops (last_observed m.m_state later) xs →
      is_list r.2.ops r.2.m_state (this :: xs)) ∧
    await_suspend this awaiter spurious m =
      await_suspend_contended this awaiter (List.replicate spurious m.m_state) m := by
  subst hr
  obtain ⟨h1, h2, h3, h4, h5, h6⟩ :=
    await_suspend_retry_spec this later { m with ops := set_awaiter m.ops this awaiter }
  simp only [await_suspend_contended, await_suspend]
  simp only at h1 h2 h3 h4 h5 h6
  have hothers : ∀ a, a ≠ this →
      (await_suspend_retry this later
        { m with ops := set_awaiter m.ops this awaiter }).2.ops a = m.ops a := by
    intro a ha
    rw [h5 a ha]
    exact set_awaiter_other _ _ _ _ ha
  refine ⟨h1, h2, h3, fun ht hw => ?_, h4, ?_, hothers, fun ht hne hfresh hlist => ?_, ?_⟩
  · rw [(h3 ht).2]
    exact hw
  · rw [h6 this]
    simp [set_awaiter]
  · obtain ⟨hs, hn⟩ := h3 ht
    simp only [is_list]
    refine ⟨hs, hne, ?_⟩
    rw [hn]
    exact (is_list_congr m.ops _ xs _
      (fun x hx => hothers x (fun hxt => hfresh (hxt ▸ hx)))).mpr hlist
  · exact await_suspend_loop_eq_retry this spurious _

theorem await_suspend_spec_witness :
    await_suspend_contended 30 7 [20]
        { m_state := not_locked, m_waiters := 0,
          ops := fun a => if a = 20 then { m_next := 10, m_awaiter := 5 } else {} } =
      (true,
        (await_suspend_contended 30 7 [20]
          { m_state := not_locked, m_waiters := 0,
            ops := fun a => if a = 20 then { m_next := 10, m_awaiter := 5 } else {} }).2) ∧
    ((await_suspend_contended 30 7 [20]
        { m_state := not_locked, m_waiters := 0,
          ops := fun a => if a = 20 then { m_next := 10, m_awaiter := 5 } else {} }).2.ops
      30).m_next = 20 :=
  ⟨rfl,
    ((await_suspend_spec 30 7 0 [20] []
      { m_state := not_locked, m_waiters := 0,
        ops := fun a => if a = 20 then { m_next := 10, m_awaiter := 5 } else {} }
      (true,
        (await_suspend_contended 30 7 [20]
          { m_state := not_locked, m_waiters := 0,
            ops := fun a => if a = 20 then { m_next := 10, m_awaiter := 5 } else {} }).2)
      rfl).2.2.1 rfl).2⟩

end async_mutex

namespace async_generator

/-! ### Advance and yield -/

/-- The states in which a side is found inside a `resume()` call that has returned. -/
theorem positions_agree_returned (tag : state) (p : producer_position)
    (c : consumer_position) (h : positions_agree tag p c = true) :
    (c = consumer_position.ctor_end →
      tag = state.value_ready_producer_suspended ∨
        tag = state.value_not_ready_consumer_active) ∧
    ((∃ final, p = producer_position.internal_end final) →
      tag = state.value_not_ready_consumer_suspended ∨
        tag = state.value_ready_producer_active ∨ tag = state.cancelled) := by
  cases tag <;>
    rcases p with _ | _ | _ | ⟨_ | _⟩ | ⟨_ | _⟩ | ⟨_ | _⟩ | ⟨_ | _⟩ | ⟨_ | _⟩ | _ | _ <;>
    cases c <;> simp [positions_agree] at h <;> simp

/-- Claim C29: an advance that finds `value_ready_producer_suspended` stores
`value_not_ready_consumer_active` and resumes the producer, inside the constructor of the
operation.  Let `g` be the frame when that `resume()` returns.  The operation is ready iff
the state of `g` is `value_ready_producer_suspended` again.  Otherwise the state is still
`value_not_ready_consumer_active` (on one thread it is one of the two), the operation is
not ready, and `await_suspend`, on the frame `h` of that moment, stores the continuation and
returns `true` exactly when its compare-exchange from `value_not_ready_consumer_active` to
`value_not_ready_consumer_suspended` succeeds, resuming nobody; with nothing in between
(`h = g`) it succeeds, so the consumer goes on without suspending iff the state of `g` is
`value_ready_producer_suspended`. -/
theorem advance_spec (moved_from : Option E) (f g h : frame E)
    (producer_runs : frame E → frame E) (consumerCoroutine : Nat)
    (hsuspended : f.promise.m_state = state.value_ready_producer_suspended) :
    advance_begin f =
      (none, (f.store state.value_not_ready_consumer_active).emit effect.resume_producer) ∧
    advance producer_runs f =
      ({ m_initialState := (producer_runs ((f.store
            state.value_not_ready_consumer_active).emit
            effect.resume_producer)).promise.m_state },
        producer_runs ((f.store state.value_not_ready_consumer_active).emit
          effect.resume_producer)) ∧
    (advance_operation.await_ready { m_initialState := advance_end g } = true ↔
      g.promise.m_state = state.value_ready_producer_suspended) ∧
    (∃ b h1,
      advance_await_suspend_begin
          { m_initialState := state.value_not_ready_consumer_active } consumerCoroutine h =
        Except.ok (some b, h1) ∧
      h1.promise.m_consumerCoroutine = consumerCoroutine ∧
      h1.log = h.log ∧
      (b = true ↔ h.promise.m_state = state.value_not_ready_consumer_active) ∧
      (b = true → h1.promise.m_state = state.value_not_ready_consumer_suspended) ∧
      (b = false → h1.promise.m_state = h.promise.m_state)) ∧
    (g.promise.m_state = state.value_ready_producer_suspended ∨
        g.promise.m_state = state.value_not_ready_consumer_active →
      ((advance_operation.await_ready { m_initialState := advance_end g } = true ∨
          ∃ g1, advance_operation.await_suspend producer_runs
            { m_initialState := advance_end g } consumerCoroutine g =
              Except.ok (some false, g1)) ↔
        g.promise.m_state = state.value_ready_producer_suspended)) ∧
    (∀ (acts : List (action E)) (s : system E), run moved_from {} acts = some s →
      s.consumer = consumer_position.ctor_end →
      s.frame.promise.m_state = state.value_ready_producer_suspended ∨
        s.frame.promise.m_state = state.value_not_ready_consumer_active) := by
  have hb : advance_begin f =
      (none, (f.store state.value_not_ready_consumer_active).emit
        effect.resume_producer) := by
    simp [advance_begin, hsuspended]
  refine ⟨hb, ?_, ?_, ?_, fun hg => ?_, fun acts s hrun hc => ?_⟩
  · simp [advance, hb, advance_end]
  · simp [advance_operation.await_ready, advance_end]
  · by_cases hh : h.promise.m_state = state.value_not_ready_consumer_active
    · refine ⟨true,
        frame.store { h with promise :=
          { h.promise with m_consumerCoroutine := consumerCoroutine } }
          state.value_not_ready_consumer_suspended,
        ?_, rfl, rfl, by simp [hh], fun _ => rfl, fun hf => by cases hf⟩
      simp [advance_await_suspend_begin, advance_await_suspend_tail, hh]
    · refine ⟨false,
        { h with promise := { h.promise with m_consumerCoroutine := consumerCoroutine } },
        ?_, rfl, rfl, by simp [hh], fun hf => (by cases hf), fun _ => rfl⟩
      simp [advance_await_suspend_begin, advance_await_suspend_tail, hh]
  · rcases hg with hg | hg
    · simp [advance_operation.await_ready, advance_end, hg]
    · simp [advance_operation.await_ready, advance_end, hg, advance_operation.await_suspend,
        advance_await_suspend_begin, advance_await_suspend_tail]
  · exact (positions_agree_returned _ _ _
      (run_invariant moved_from acts {} s initial_invariant_holds hrun).1).1 hc

theorem advance_spec_witness :
    (({} : frame Nat).promise.m_state = state.value_ready_producer_suspended) ∧
    advance_begin ({} : frame Nat) =
      (none, { promise := { m_state := state.value_not_ready_consumer_active },
               log := [effect.resume_producer] }) :=
  ⟨rfl, (advance_spec (none : Option Nat) {} {} {} (fun f => f) 1 rfl).1⟩

/-- Claim C30: a yield stores the address of the value.  If the state is
`value_not_ready_consumer_suspended`, `internal_yield_value` stores
`value_ready_producer_active` and resumes the waiting consumer, once; when that call
returns on a frame `g`, the rest of the yield resumes nobody: the operation is ready if the
state is `value_not_ready_consumer_suspended` again, and otherwise (the state still
`value_ready_producer_active`) `await_suspend` moves it to `value_ready_producer_suspended`
and suspends the producer; on one thread the state of `g` is one of these two or
`cancelled`.  If the state is `value_not_ready_consumer_active`, nobody is resumed, the
operation is not ready, and `await_suspend` moves the state to
`value_ready_producer_suspended` and suspends the producer.  Whenever the producer goes on
without suspending (the operation is ready, or `await_suspend` returns `false`) the state
is `value_not_ready_consumer_suspended`. -/
theorem yield_spec (moved_from : Option E) (f g : frame E) (address : Nat)
    (consumer_runs : frame E → frame E) :
    (store_value f address).promise.m_currentValue = address ∧
    (f.promise.m_state = state.value_not_ready_consumer_suspended →
      internal_yield_value_begin (store_value f address) =
        Except.ok (none, ((store_value f address).store
          state.value_ready_producer_active).emit
            (effect.resume_consumer f.promise.m_consumerCoroutine)) ∧
      (((store_value f address).store state.value_ready_producer_active).emit
          (effect.resume_consumer f.promise.m_consumerCoroutine)).log =
        f.log ++ [effect.resume_consumer f.promise.m_consumerCoroutine] ∧
      (g.promise.m_state = state.value_not_ready_consumer_suspended →
        yield_operation.await_ready { m_initialState := internal_yield_value_end g } =
          true) ∧
      (g.promise.m_state = state.value_ready_producer_active →
        yield_operation.await_ready { m_initialState := internal_yield_value_end g } =
          false ∧
        yield_operation.await_suspend consumer_runs
            { m_initialState := internal_yield_value_end g } g =
          Except.ok (some true, g.store state.value_ready_producer_suspended))) ∧
    (f.promise.m_state = state.value_not_ready_consumer_active →
      internal_yield_value_begin (store_value f address) =
        Except.ok (some state.value_not_ready_consumer_active, store_value f address) ∧
      yield_value consumer_runs address f =
        Except.ok ({ m_initialState := state.value_not_ready_consumer_active },
          store_value f address) ∧
      yield_operation.await_ready
        { m_initialState := state.value_not_ready_consumer_active } = false ∧
      yield_operation.await_suspend consumer_runs
          { m_initialState := state.value_not_ready_consumer_active }
          (store_value f address) =
        Except.ok (some true,
          (store_value f address).store state.value_ready_producer_suspended) ∧
      ((store_value f address).store state.value_ready_producer_suspended).log = f.log) ∧
    (∀ op : yield_operation, op.await_ready = true ↔
      op.m_initialState = state.value_not_ready_consumer_suspended) ∧
    (∀ (op : yield_operation) (g1 g2 : frame E),
      yield_await_suspend_begin op g1 = Except.ok (some false, g2) →
      g2.promise.m_state = state.value_not_ready_consumer_suspended) ∧
    (∀ g1 g2 : frame E, yield_await_suspend_end g1 = Except.ok (some false, g2) →
      g2.promise.m_state = state.value_not_ready_consumer_suspended) ∧
    (∀ (acts : List (action E)) (s : system E), run moved_from {} acts = some s →
      (∃ final, s.producer = producer_position.internal_end final) →
      s.frame.promise.m_state = state.value_not_ready_consumer_suspended ∨
        s.frame.promise.m_state = state.value_ready_producer_active ∨
        s.frame.promise.m_state = state.cancelled) := by
  refine ⟨rfl, fun hs => ?_, fun ha => ?_, fun op => ?_, fun op g1 g2 h => ?_,
    fun g1 g2 h => ?_, fun acts s hrun hp => ?_⟩
  · refine ⟨by simp [internal_yield_value_begin, hs], rfl, fun hg => ?_, fun hg => ?_⟩
    · simp [yield_operation.await_ready, internal_yield_value_end, hg]
    · simp [yield_operation.await_ready, internal_yield_value_end, hg,
        yield_operation.await_suspend, yield_await_suspend_begin, yield_await_suspend_tail]
  · have hb : internal_yield_value_begin (store_value f address) =
        Except.ok (some state.value_not_ready_consumer_active, store_value f address) := by
      simp [internal_yield_value_begin, ha]
    refine ⟨hb, by simp [yield_value, internal_yield_value, hb], rfl, ?_, rfl⟩
    simp [yield_operation.await_suspend, yield_await_suspend_begin, ha]
  · cases op with
    | mk s => cases s <;> simp [yield_operation.await_ready]
  · obtain ⟨⟨tag, cc, ex, cv⟩, log⟩ := g1
    obtain ⟨s⟩ := op
    (cases s <;> cases tag <;>
      simp [yield_await_suspend_begin, yield_await_suspend_tail, yield_await_suspend_destroy,
        frame.store, frame.emit] at h)
    subst h
    rfl
  · obtain ⟨⟨tag, cc, ex, cv⟩, log⟩ := g1
    (cases tag <;>
      simp [yield_await_suspend_end, yield_await_suspend_tail, yield_await_suspend_destroy,
        frame.store, frame.emit] at h)
    subst h
    rfl
  · exact (positions_agree_returned _ _ _
      (run_invariant moved_from acts {} s initial_invariant_holds hrun).1).2 hp

theorem yield_spec_witness :
    (({ promise := { m_state := state.value_not_ready_consumer_suspended,
                     m_consumerCoroutine := 9 }, log := [] } : frame Nat).promise.m_state =
      state.value_not_ready_consumer_suspended) ∧
    internal_yield_value_begin (store_value
        ({ promise := { m_state := state.value_not_ready_consumer_suspended,
                        m_consumerCoroutine := 9 }, log := [] } : frame Nat) 5) =
      Except.ok (none,
        { promise := { m_state := state.value_ready_producer_active,
                       m_consumerCoroutine := 9, m_currentValue := 5 },
          log := [effect.resume_consumer 9] }) :=
  ⟨rfl,
    ((yield_spec (none : Option Nat)
      { promise := { m_state := state.value_not_ready_consumer_suspended,
                     m_consumerCoroutine := 9 }, log := [] } {} 5 (fun f => f)).2.1 rfl).1⟩

end async_generator

/-! ## Properties of the packed word over sequences of calls -/

/-- What one call does to the packed word of a context whose thread count is the number of
threads inside `run`. -/
theorem tracked_step_spec (t t1 : tracked) (a : context_step)
    (hcount : t.c.state_ / 2 = t.running) (hfew : t.running < 2 ^ 31)
    (hstep : t.step a = some t1) :
    t1.c.state_ / 2 = t1.running ∧ t1.running < 2 ^ 31 ∧
    ((a = context_step.run_entry ∨ ∃ error, a = context_step.run_exit error) →
      t1.c.state_ % 2 = t.c.state_ % 2) ∧
    (a = context_step.run_entry → t1.running = t.running + 1) ∧
    ((∃ error, a = context_step.run_exit error) → t1.running + 1 = t.running) ∧
    ((a = context_step.stop ∨ a = context_step.reset) →
      t1.c.state_ / 2 = t.c.state_ / 2 ∧ t1.running = t.running) ∧
    (a = context_step.interrupt → t1.c.state_ = t.c.state_ ∧ t1.running = t.running) := by
  have hword : t.c.state_ < 2 ^ 32 := by omega
  cases a with
  | run_entry =>
    simp only [tracked.step] at hstep
    split at hstep
    · rename_i hroom
      simp only [Option.some.injEq] at hstep
      subst hstep
      have he : t.c.run_enter.state_ = t.c.state_ + 2 := by
        simp only [context.run_enter, thread_count_increment]
        exact Nat.mod_eq_of_lt (by omega)
      simp only [he]
      refine ⟨by omega, hroom, fun _ => by omega, fun _ => trivial, ?_, ?_, ?_⟩
      · rintro ⟨e, he1⟩
        cases he1
      · rintro (h | h) <;> cases h
      · intro h
        cases h
    · cases hstep
  | run_exit error =>
    simp only [tracked.step] at hstep
    split at hstep
    · rename_i hpos
      simp only [Option.some.injEq] at hstep
      subst hstep
      have he := (run_exit_state error t.c hword (by omega)).1
      simp only [he]
      refine ⟨by omega, by omega, fun _ => by omega, ?_, fun _ => by omega, ?_, ?_⟩
      · intro h
        cases h
      · rintro (h | h) <;> cases h
      · intro h
        cases h
    · cases hstep
  | stop =>
    simp only [tracked.step, Option.some.injEq] at hstep
    subst hstep
    have hs := stop_state t.c hword
    simp only [hs]
    refine ⟨by omega, hfew, ?_, ?_, ?_, fun _ => ⟨by omega, trivial⟩, ?_⟩
    · rintro (h | ⟨e, h⟩) <;> cases h
    · intro h
      cases h
    · rintro ⟨e, h⟩
      cases h
    · intro h
      cases h
  | reset =>
    simp only [tracked.step, Option.some.injEq] at hstep
    subst hstep
    have hs := reset_state t.c hword
    simp only [hs]
    refine ⟨by omega, hfew, ?_, ?_, ?_, fun _ => ⟨by omega, trivial⟩, ?_⟩
    · rintro (h | ⟨e, h⟩) <;> cases h
    · intro h
      cases h
    · rintro ⟨e, h⟩
      cases h
    · intro h
      cases h
  | interrupt =>
    simp only [tracked.step, Option.some.injEq] at hstep
    subst hstep
    refine ⟨hcount, hfew, ?_, ?_, ?_, ?_, fun _ => ⟨rfl, rfl⟩⟩
    · rintro (h | ⟨e, h⟩) <;> cases h
    · intro h
      cases h
    · rintro ⟨e, h⟩
      cases h
    · rintro (h | h) <;> cases h

/-- Every sequence of calls keeps the thread count equal to the number of threads inside
`run`. -/
theorem tracked_steps_count (steps : List context_step) :
    ∀ t t1 : tracked, t.c.state_ / 2 = t.running → t.running < 2 ^ 31 →
      tracked.steps steps t = some t1 →
      t1.c.state_ / 2 = t1.running ∧ t1.running < 2 ^ 31 := by
  induction steps with
  | nil =>
    intro t t1 h1 h2 h
    simp only [tracked.steps, Option.some.injEq] at h
    subst h
    exact ⟨h1, h2⟩
  | cons a rest ih =>
    intro t t1 h1 h2 h
    simp only [tracked.steps] at h
    cases hs : t.step a with
    | none => rw [hs] at h; cases h
    | some t2 =>
      rw [hs] at h
      have h3 := tracked_step_spec t t2 a h1 h2 hs
      exact ih t2 t1 h3.1 h3.2.1 h

/-- Claim C31: start from a new context (word `0`, no thread inside `run`) and let threads
enter and leave `run` and call `stop`, `reset` and `interrupt` in any order, with fewer than
`2 ^ 31` threads inside `run` at a time.  In every state reached the thread count, the word
divided by two, is the number of calls of `run` entered and not yet left, and the word fits
`32` bits.  From there, entering and leaving `run` leave the stop flag as it is and change
the count by one, `stop` and `reset` leave the count as it is, and `interrupt` leaves the word
as it is.  So the assertion of the destructor holds exactly when every `run` has been left.
The entry posted by `interrupt` has a null pointer, for which the loop of `run` resumes no
event. -/
theorem packed_word_invariant (EINTR : Int) (steps : List context_step) (t : tracked)
    (hreach : tracked.steps steps {} = some t) :
    t.c.state_ / thread_count_increment = t.running ∧
    t.c.state_ < 2 ^ 32 ∧
    (t.c.destructor.1 = true ↔ t.running = 0) ∧
    (∀ (a : context_step) (t1 : tracked), t.step a = some t1 →
      t1.c.state_ / thread_count_increment = t1.running ∧
      ((a = context_step.run_entry ∨ ∃ error, a = context_step.run_exit error) →
        t1.c.state_ &&& stop_requested_flag = t.c.state_ &&& stop_requested_flag) ∧
      (a = context_step.run_entry → t1.running = t.running + 1) ∧
      ((∃ error, a = context_step.run_exit error) → t1.running + 1 = t.running) ∧
      ((a = context_step.stop ∨ a = context_step.reset) →
        t1.c.state_ / thread_count_increment = t.c.state_ / thread_count_increment ∧
        t1.running = t.running) ∧
      (a = context_step.interrupt → t1.c.state_ = t.c.state_ ∧ t1.running = t.running)) ∧
    context.interrupt_payload = 0 ∧
    (∀ dispatched : List Nat,
      context.after_wait EINTR (wait_result.entries [context.interrupt_payload]) dispatched =
        loop_step.again dispatched) := by
  obtain ⟨hcount, hfew⟩ := tracked_steps_count steps {} t rfl (by decide) hreach
  simp only [thread_count_increment, stop_requested_flag, Nat.and_one_is_mod]
  refine ⟨hcount, by omega, ?_, fun a t1 hstep => ?_, rfl, fun d => ?_⟩
  · simp only [context.destructor, thread_count_increment, beq_iff_eq, hcount]
  · obtain ⟨h1, _, h3, h4, h5, h6, h7⟩ := tracked_step_spec t t1 a hcount hfew hstep
    exact ⟨h1, h3, h4, h5, h6, h7⟩
  · simp [context.after_wait, context.interrupt_payload]

theorem packed_word_invariant_witness :
    tracked.steps [context_step.run_entry, context_step.run_entry, context_step.stop,
        context_step.run_exit 0, context_step.interrupt]
        {} =
      some { c := { state_ := 3, wakes := 3 }, running := 1 } ∧
    ((3 : Nat) / thread_count_increment = 1) :=
  ⟨by decide,
    (packed_word_invariant 4
      [context_step.run_entry, context_step.run_entry, context_step.stop,
        context_step.run_exit 0, context_step.interrupt]
      { c := { state_ := 3, wakes := 3 }, running := 1 } (by decide)).1⟩

/-! ## The value slot after a detach, the continuation after a second attach, and the close
function after a move assignment -/

/-- Claim C32 (the code at the failing input): the consumer detaches while the computation is
running and the body then ends with an exception.  `unhandled_exception` finds
`consumer_detached` and stores nothing, the final suspend point does not suspend, and the
promise destructor, finding no exception, runs the destructor of the value on a slot in which
`return_value` never constructed one.  Without the detach the exception is stored and the
slot is left alone. -/
theorem detached_failure_destroys_unconstructed_slot :
    let w0 : world Nat Nat := { promise := fun _ => {}, handle := fun _ => some 0 }
    let s := run 0 1 [action.detach, action.body_throws 3, action.final_await_ready]
      (start_config w0)
    let s1 := run 0 1 [action.body_throws 3, action.final_await_ready,
      action.final_await_suspend, action.destruct] (start_config w0)
    s.detached_early = true ∧
    (s.w.promise 0).m_exception = none ∧
    (s.w.promise 0).m_valueStorage = none ∧
    event.construct_value 0 ∉ s.w.log ∧
    s.w.log = [event.destroy_value 0 false, event.destroy_frame 0] ∧
    s1.w.log = [event.destroy_frame 0] := by
  decide

/-- Claim C34, the second consumer replaces the continuation.  A first consumer (coroutine
`5`) awaits a running computation and is suspended.  A second one (coroutine `6`) then
awaits it: `try_await` stores its continuation and only then fails, so the promise now holds
the continuation of coroutine `6`.  When the body returns, the final suspend point resumes
coroutine `6`, and coroutine `5` is not resumed. -/
theorem second_consumer_replaces_continuation :
    let w0 : world Nat Nat := { promise := fun _ => {}, handle := fun _ => some 0 }
    let w1 := (async.await_suspend (some 0) 5 w0).2
    let r := async.await_suspend (some 0) 6 w1
    let w2 := (final_suspend 0 (co_return 0 7 r.2)).2
    (w1.promise 0).m_state = state.consumer_suspended ∧
    (w1.promise 0).m_continuation = continuation.of_awaiter 5 ∧
    r.1 = false ∧
    (r.2.promise 0).m_state = state.consumer_suspended ∧
    (r.2.promise 0).m_continuation = continuation.of_awaiter 6 ∧
    w2.log = [event.construct_value 0, event.resume_coroutine 6] ∧
    event.resume_coroutine 5 ∉ w2.log := by
  decide

/-- Claim C34, as the code has it: `try_await` stores the continuation it is given before
its compare-exchange, so a call that fails leaves the state, the exception and the value
slot as they were and the new continuation in place of the old one.  If a consumer was
suspended, the completion of the computation then resumes the new continuation, once, and
not the one of the suspended consumer; in the states `finished` and `consumer_detached`
nothing is resumed by the exchange of the final suspend point. -/
theorem try_await_stores_continuation (p : async_promise T E) (c : continuation) :
    (try_await p c).2.m_continuation = c ∧
    (p.m_state ≠ state.running →
      (try_await p c).1 = false ∧ (try_await p c).2 = { p with m_continuation := c }) ∧
    (p.m_state = state.consumer_suspended →
      (final_suspend_await_suspend (try_await p c).2).2.2 = [c.resume] ∧
      (p.m_continuation.resume ≠ c.resume →
        p.m_continuation.resume ∉ (final_suspend_await_suspend (try_await p c).2).2.2)) ∧
    (p.m_state = state.finished ∨ p.m_state = state.consumer_detached →
      (final_suspend_await_suspend (try_await p c).2).2.2 = []) := by
  refine ⟨?_, fun h => ?_, fun h => ?_, fun h => ?_⟩
  · cases hs : p.m_state <;> simp [try_await, hs]
  · cases hs : p.m_state <;> simp [try_await, hs] at h ⊢
  · simp only [try_await, h, final_suspend_await_suspend]
    refine ⟨by simp, fun hne => ?_⟩
    simpa using hne
  · rcases h with h | h <;> simp [try_await, h, final_suspend_await_suspend]

theorem try_await_stores_continuation_witness :
    (state.consumer_suspended ≠ state.running) ∧
    (final_suspend_await_suspend
      (try_await ({ m_state := state.consumer_suspended,
                    m_continuation := continuation.of_awaiter 5 } : async_promise Nat Nat)
        (continuation.of_awaiter 6)).2).2.2 = [event.resume_coroutine 6] :=
  ⟨by decide,
    ((try_await_stores_continuation
      ({ m_state := state.consumer_suspended,
         m_continuation := continuation.of_awaiter 5 } : async_promise Nat Nat)
      (continuation.of_awaiter 6)).2.2.1 rfl).1⟩

namespace os

/-- Claim C35 (the code at the failing input): handle `a` holds the value `3` with the close
function at `7`, handle `b` the value `5` with the close function at `9`.  The move
assignment of `b` into `a` closes `3` with the function at `7` and leaves `b` invalid, but
`a` then holds `5` still paired with the function at `7`: `reset` assigns the value only.
The move constructor pairs `5` with the function at `9`.  So the destructor of the assigned
handle closes `5` with the function at `7`, that of the constructed one with the function at
`9`. -/
theorem move_assign_keeps_own_close_function :
    handle.move_assign 100 200 (handle.create 3 7) (handle.create 5 9) =
      ({ close_ := 7, value_ := 5 }, { close_ := 9, value_ := invalid_value },
        [{ close := 7, value := 3 }]) ∧
    handle.move_construct (handle.create 5 9) =
      ({ close_ := 9, value_ := 5 }, { close_ := 9, value_ := invalid_value }) ∧
    (handle.move_assign 100 200 (handle.create 3 7) (handle.create 5 9)).2.1.valid = false ∧
    (handle.move_assign 100 200 (handle.create 3 7) (handle.create 5 9)).1.destructor =
      [{ close := 7, value := 5 }] ∧
    (handle.move_construct (handle.create 5 9)).1.destructor =
      [{ close := 9, value := 5 }] := by
  decide

end os

namespace async_mutex

/-! ### `unlock` in two parts -/

/-- The two parts make up `unlock`. -/
theorem unlock_split (fuel : Nat) (m : mutex) :
    unlock fuel m =
      match unlock_attempt m with
      | Except.error e => Except.error e
      | Except.ok (some r) => Except.ok r
      | Except.ok none => unlock_swap fuel m := by
  by_cases hs : m.m_state = not_locked
  · simp [unlock, unlock_attempt, hs]
  · by_cases hw : m.m_waiters = 0
    · by_cases hl : m.m_state = locked_no_waiters
      · simp only [unlock, unlock_attempt, if_neg hs, hw, if_true, if_pos hl]
      · simp only [unlock, unlock_attempt, unlock_swap, if_neg hs, hw, if_true, if_neg hl]
    · simp only [unlock, unlock_attempt, if_neg hs, if_neg hw]
      cases unlock_resume m m.m_waiters [] <;> rfl

/-- When the first part of `unlock` leaves the second to do. -/
theorem unlock_attempt_none (m : mutex) :
    unlock_attempt m = Except.ok none ↔
      (m.m_state ≠ not_locked ∧ m.m_waiters = 0 ∧ m.m_state ≠ locked_no_waiters) := by
  by_cases hs : m.m_state = not_locked
  · simp [unlock_attempt, hs]
  · by_cases hw : m.m_waiters = 0
    · by_cases hl : m.m_state = locked_no_waiters
      · simp only [unlock_attempt, if_neg hs, hw, if_true, if_pos hl]
        simp [hl]
      · simp [unlock_attempt, hs, hw, hl]
    · simp only [unlock_attempt, if_neg hs, if_neg hw, unlock_resume]
      simp [hw]

/-- On a mutex that is held `await_suspend` enqueues. -/
theorem await_suspend_held (this awaiter spurious : Nat) (m : mutex)
    (h : m.m_state ≠ not_locked) :
    (await_suspend this awaiter spurious m).1 = true ∧
    (await_suspend this awaiter spurious m).2.m_state = this ∧
    (await_suspend this awaiter spurious m).2.m_waiters = m.m_waiters := by
  simp only [await_suspend]
  rw [await_suspend_loop_spurious]
  simp [await_suspend_loop, h]

/-- A filter that removes the head of a list without repetitions removes that head. -/
theorem filter_head_eq (c x w : Nat) (rest : List (Nat × Nat))
    (hnd : (((c, x) :: rest).map Prod.snd).Nodup)
    (h : ((c, x) :: rest).filter (fun p => p.2 ≠ w) = rest) : w = x := by
  by_contra hne
  have hx : x ≠ w := fun e => hne e.symm
  rw [List.filter_cons_of_pos (by simpa using hx)] at h
  have hmem : (c, x) ∈ rest := by
    rw [← h]
    exact List.mem_cons_self _ _
  rw [List.map_cons, List.nodup_cons] at hnd
  exact hnd.1 (List.mem_map.mpr ⟨(c, x), hmem, rfl⟩)

/-- The bookkeeping of a finished `unlock` is that of `apply_op`. -/
theorem unlocked_system (fuel caller : Nat) (t : interleaved) (r : unlock_result)
    (hcaller : caller ∈ t.s.holders) (hr : unlock fuel t.s.m = Except.ok r) :
    apply_op fuel (op.unlock caller) t.s = Except.ok (t.unlocked caller r).s := by
  simp only [apply_op, if_pos hcaller, hr, interleaved.unlocked]
  cases r.waiter <;> cases r.resumed <;> rfl

/-- A call of `unlock` by the holder that is over: it has resumed the oldest waiter, if there
was one, and the system is consistent again. -/
theorem unlocked_spec (fuel caller : Nat) (t : interleaved) (r : unlock_result)
    (hinv : invariant t.s) (heq : t.resumed ++ t.s.waiting.map Prod.snd = t.enqueued)
    (hcaller : caller ∈ t.s.holders) (hfuel : t.s.waiting.length ≤ fuel)
    (hr : unlock fuel t.s.m = Except.ok r) :
    (t.unlocked caller r).consistent ∧
    (t.unlocked caller r).s.waiting.length ≤ t.s.waiting.length ∧
    (t.unlocked caller r).enqueued = t.enqueued ∧
    (t.s.waiting = [] → (t.unlocked caller r).resumed = t.resumed) ∧
    (∀ c x rest, t.s.waiting = (c, x) :: rest →
      (t.unlocked caller r).resumed = t.resumed ++ [x] ∧
      (t.unlocked caller r).s.waiting = rest) := by
  obtain ⟨s1, hop, hinv1, hnil, hcons⟩ := apply_unlock_spec fuel caller t.s hinv hcaller hfuel
  have hsys := unlocked_system fuel caller t r hcaller hr
  rw [hop] at hsys
  simp only [Except.ok.injEq] at hsys
  have hnd := (invariant_holders t.s hinv).2.2.1
  have hsw : (t.unlocked caller r).swapping = none := by
    simp only [interleaved.unlocked]
    cases r.waiter <;> cases r.resumed <;> rfl
  have henq : (t.unlocked caller r).enqueued = t.enqueued := by
    simp only [interleaved.unlocked]
    cases r.waiter <;> cases r.resumed <;> rfl
  cases hw : t.s.waiting with
  | nil =>
    obtain ⟨hh, hwait, _⟩ := hnil hw
    have hres : (t.unlocked caller r).resumed = t.resumed := by
      rw [hsys] at hh
      revert hh
      simp only [interleaved.unlocked]
      cases r.waiter <;> cases r.resumed <;> simp
    refine ⟨⟨hsys ▸ hinv1, ?_, fun c hc => ?_⟩, ?_, henq, fun _ => hres, ?_⟩
    · rw [hres, henq, ← hsys, hwait, ← heq, hw]
    · rw [hsw] at hc
      cases hc
    · rw [← hsys, hwait]
    · intro c x rest h
      cases h
  | cons p rest =>
    obtain ⟨c, x⟩ := p
    obtain ⟨_, hwait, _⟩ := hcons c x rest hw
    have hres : (t.unlocked caller r).resumed = t.resumed ++ [x] := by
      rw [hsys] at hwait
      rw [hw] at hnd
      revert hwait
      simp only [interleaved.unlocked]
      cases hrw : r.waiter with
      | none =>
        cases r.resumed <;>
          (simp only [hw]; intro h; exact absurd (congrArg List.length h) (by simp))
      | some w =>
        cases r.resumed with
        | none =>
          simp only [hw]
          intro h
          exact absurd (congrArg List.length h) (by simp)
        | some a =>
          simp only [hw]
          intro h
          rw [filter_head_eq c x w rest hnd h]
    refine ⟨⟨hsys ▸ hinv1, ?_, fun c0 hc => ?_⟩, ?_, henq, ?_, ?_⟩
    · rw [hres, henq, ← hsys, hwait, ← heq, hw]
      simp
    · rw [hsw] at hc
      cases hc
    · rw [← hsys, hwait]
      simp
    · intro h
      cases h
    · intro c1 x1 rest1 h
      simp only [List.cons.injEq, Prod.mk.injEq] at h
      obtain ⟨⟨_, h2⟩, h3⟩ := h
      subst h2 h3
      exact ⟨hres, by rw [← hsys, hwait]⟩

/-- A call of `unlock` that `apply_op` lets through has returned. -/
theorem unlock_of_apply_op (fuel caller : Nat) (s s1 : system) (hcaller : caller ∈ s.holders)
    (h : apply_op fuel (op.unlock caller) s = Except.ok s1) :
    ∃ r, unlock fuel s.m = Except.ok r := by
  simp only [apply_op, if_pos hcaller] at h
  cases hu : unlock fuel s.m with
  | error e => rw [hu] at h; cases h
  | ok r => exact ⟨r, rfl⟩

/-- The holder's `unlock` returns, whatever the waiters. -/
theorem unlock_returns (fuel caller : Nat) (s : system) (hinv : invariant s)
    (hcaller : caller ∈ s.holders) (hfuel : s.waiting.length ≤ fuel) :
    ∃ r, unlock fuel s.m = Except.ok r := by
  obtain ⟨s1, hop, _⟩ := apply_unlock_spec fuel caller s hinv hcaller hfuel
  exact unlock_of_apply_op fuel caller s s1 hcaller hop

/-- The second part of an `unlock` that is between its parts returns what `unlock` returns on
the mutex of that moment. -/
theorem unlock_swap_returns (fuel caller : Nat) (t : interleaved) (hc : t.consistent)
    (hsw : t.swapping = some caller) (hfuel : t.s.waiting.length ≤ fuel) :
    caller ∈ t.s.holders ∧
    ∃ r, unlock_swap fuel t.s.m = Except.ok r ∧ unlock fuel t.s.m = Except.ok r := by
  obtain ⟨hinv, _, hswap⟩ := hc
  obtain ⟨hcaller, hw, hl⟩ := hswap caller hsw
  have hne : t.s.holders ≠ [] := List.ne_nil_of_mem hcaller
  have hs : t.s.m.m_state ≠ not_locked := fun h =>
    hne ((invariant_holders t.s hinv).2.1.mp h)
  have hnone := (unlock_attempt_none t.s.m).mpr ⟨hs, hw, hl⟩
  obtain ⟨r, hr⟩ := unlock_returns fuel caller t.s hinv hcaller hfuel
  have hsplit := unlock_split fuel t.s.m
  rw [hnone] at hsplit
  simp only at hsplit
  exact ⟨hcaller, r, by rw [← hsplit]; exact hr, hr⟩

/-- One step keeps the system consistent. -/
theorem apply_part_spec (fuel : Nat) (p : part) (t : interleaved) (hc : t.consistent)
    (hfuel : t.s.waiting.length ≤ fuel) :
    apply_part fuel p t = Except.error failure.invalid_sequence ∨
    ∃ t1, apply_part fuel p t = Except.ok t1 ∧ t1.consistent ∧
      t1.s.waiting.length ≤ t.s.waiting.length + 1 := by
  obtain ⟨hinv, heq, hswap⟩ := hc
  have hheld : ∀ caller, t.swapping = some caller → t.s.m.m_state ≠ not_locked := by
    intro caller hsw h
    exact List.ne_nil_of_mem (hswap caller hsw).1 ((invariant_holders t.s hinv).2.1.mp h)
  cases p with
  | try_lock c =>
    right
    obtain ⟨s1, hop, hinv1, hw, _, _, _⟩ := apply_try_lock_spec fuel c t.s hinv
    by_cases hr : (try_lock t.s.m).1 = true
    · have hop1 : apply_op fuel (op.try_lock c) t.s =
          Except.ok { t.s with m := (try_lock t.s.m).2, holders := c :: t.s.holders } := by
        simp [apply_op, hr]
      rw [hop1] at hop
      simp only [Except.ok.injEq] at hop
      refine ⟨{ t with s := { t.s with m := (try_lock t.s.m).2,
                                       holders := c :: t.s.holders } },
        by simp [apply_part, hr], ⟨hop ▸ hinv1, heq, fun caller hsw => ?_⟩, by simp⟩
      have hs := hheld caller hsw
      simp [try_lock, hs] at hr
    · have hop1 : apply_op fuel (op.try_lock c) t.s =
          Except.ok { t.s with m := (try_lock t.s.m).2 } := by
        simp [apply_op, hr]
      rw [hop1] at hop
      simp only [Except.ok.injEq] at hop
      refine ⟨{ t with s := { t.s with m := (try_lock t.s.m).2 } },
        by simp [apply_part, hr], ⟨hop ▸ hinv1, heq, fun caller hsw => ?_⟩, by simp⟩
      have hs := hheld caller hsw
      have hm : (try_lock t.s.m).2 = t.s.m := by simp [try_lock, hs]
      simp only [hm]
      exact hswap caller hsw
  | lock c this spurious =>
    by_cases hval : this = 0 ∨ this = 1 ∨ this ∈ t.s.waiting.map Prod.snd
    · left
      simp only [apply_part, if_pos hval]
    · right
      have h0 : this ≠ 0 := fun h => hval (Or.inl h)
      have h1 : this ≠ 1 := fun h => hval (Or.inr (Or.inl h))
      have hfresh : this ∉ t.s.waiting.map Prod.snd := fun h => hval (Or.inr (Or.inr h))
      obtain ⟨s1, hop, hinv1, _, _⟩ :=
        apply_lock_spec fuel c this spurious t.s hinv h0 h1 hfresh
      by_cases hr : (await_suspend this c spurious t.s.m).1 = true
      · have hop1 : apply_op fuel (op.lock c this spurious) t.s =
            Except.ok { t.s with m := (await_suspend this c spurious t.s.m).2,
                                 waiting := t.s.waiting ++ [(c, this)] } := by
          simp only [apply_op, if_neg hval, if_pos hr]
        rw [hop1] at hop
        simp only [Except.ok.injEq] at hop
        refine ⟨{ t with s := { t.s with m := (await_suspend this c spurious t.s.m).2,
                                         waiting := t.s.waiting ++ [(c, this)] },
                         enqueued := t.enqueued ++ [this] },
          by simp only [apply_part, if_neg hval, if_pos hr],
          ⟨hop ▸ hinv1, ?_, fun caller hsw => ?_⟩, by simp⟩
        · simp only [List.map_append, List.map_cons, List.map_nil, ← List.append_assoc, heq]
        · obtain ⟨_, hst, hwt⟩ := await_suspend_held this c spurious t.s.m (hheld caller hsw)
          obtain ⟨hcaller, hw, _⟩ := hswap caller hsw
          refine ⟨hcaller, ?_, ?_⟩
          · simp only [hwt]
            exact hw
          · simp only [hst]
            exact h0
      · have hop1 : apply_op fuel (op.lock c this spurious) t.s =
            Except.ok { t.s with m := (await_suspend this c spurious t.s.m).2,
                                 holders := c :: t.s.holders,
                                 granted := t.s.granted ++ [c] } := by
          simp only [apply_op, if_neg hval, if_neg hr]
        rw [hop1] at hop
        simp only [Except.ok.injEq] at hop
        refine ⟨{ t with s := { t.s with m := (await_suspend this c spurious t.s.m).2,
                                         holders := c :: t.s.holders,
                                         granted := t.s.granted ++ [c] } },
          by simp only [apply_part, if_neg hval, if_neg hr],
          ⟨hop ▸ hinv1, heq, fun caller hsw => ?_⟩, by simp⟩
        exact absurd (await_suspend_held this c spurious t.s.m (hheld caller hsw)).1 hr
  | unlock_attempt caller =>
    by_cases hcond : t.swapping = none ∧ caller ∈ t.s.holders
    · right
      obtain ⟨r, hr⟩ := unlock_returns fuel caller t.s hinv hcond.2 hfuel
      have hsplit := unlock_split fuel t.s.m
      cases hu : unlock_attempt t.s.m with
      | error e =>
        rw [hu, hr] at hsplit
        cases hsplit
      | ok o =>
        cases o with
        | none =>
          obtain ⟨_, hw, hl⟩ := (unlock_attempt_none t.s.m).mp hu
          refine ⟨{ t with swapping := some caller }, by simp [apply_part, hcond, hu],
            ⟨hinv, heq, fun c0 hc0 => ?_⟩, by simp⟩
          simp only [Option.some.injEq] at hc0
          subst hc0
          exact ⟨hcond.2, hw, hl⟩
        | some r1 =>
          rw [hu, hr] at hsplit
          simp only [Except.ok.injEq] at hsplit
          subst hsplit
          obtain ⟨h1, h2, _⟩ := unlocked_spec fuel caller t r hinv heq hcond.2 hfuel hr
          exact ⟨t.unlocked caller r, by simp [apply_part, hcond, hu], h1, by omega⟩
    · left
      simp [apply_part, hcond]
  | unlock_swap caller =>
    by_cases hsw : t.swapping = some caller
    · right
      obtain ⟨hcaller, r, hr1, hr⟩ :=
        unlock_swap_returns fuel caller t ⟨hinv, heq, hswap⟩ hsw hfuel
      obtain ⟨h1, h2, _⟩ := unlocked_spec fuel caller t r hinv heq hcaller hfuel hr
      exact ⟨t.unlocked caller r, by simp [apply_part, hsw, hr1], h1, by omega⟩
    · left
      simp [apply_part, hsw]

/-- Every sequence of steps keeps the system consistent. -/
theorem run_parts_spec (fuel : Nat) (parts : List part) :
    ∀ t : interleaved, t.consistent → t.s.waiting.length + parts.length ≤ fuel →
      run_parts fuel parts t = Except.error failure.invalid_sequence ∨
      ∃ t1, run_parts fuel parts t = Except.ok t1 ∧ t1.consistent ∧
        t1.s.waiting.length ≤ t.s.waiting.length + parts.length := by
  induction parts with
  | nil =>
    intro t hc _
    exact Or.inr ⟨t, rfl, hc, by simp⟩
  | cons p rest ih =>
    intro t hc hfuel
    simp only [List.length_cons] at hfuel
    rcases apply_part_spec fuel p t hc (by omega) with h | ⟨t1, h1, hc1, hl1⟩
    · left
      simp [run_parts, h]
    · rcases ih t1 hc1 (by omega) with h2 | ⟨t2, h2, hc2, hl2⟩
      · left
        simp [run_parts, h1, h2]
      · right
        exact ⟨t2, by simp [run_parts, h1, h2], hc2, by simp only [List.length_cons]; omega⟩

/-- Claim C33: take `unlock` in its two parts, the compare-exchange and what follows a
failed one, and let callers `try_lock`, `lock` and `unlock` a new mutex in any order, each
`unlock` by the holder, with other callers enqueueing themselves at any point: while a
cached list is being served, and between the two parts of an `unlock`.  No assertion fails
and the two parts make up `unlock`.  In every state reached, the operation objects resumed
so far followed by those still suspended, oldest first, are the operation objects enqueued
so far, in the order of their enqueueing; so the `k`-th waiter resumed is the `k`-th enqueued,
none is resumed twice or overtaken.  None is lost: a waiter still suspended is in that list,
and whenever one is suspended the holder's `unlock`, from wherever it stands, returns and
resumes the oldest of them. -/
theorem waiters_resumed_in_enqueue_order (ops0 : Nat → lock_operation) (fuel : Nat)
    (parts : List part) (hfuel : parts.length ≤ fuel) :
    (∀ m : mutex,
      unlock fuel m =
        match unlock_attempt m with
        | Except.error e => Except.error e
        | Except.ok (some r) => Except.ok r
        | Except.ok none => unlock_swap fuel m) ∧
    (run_parts fuel parts { s := initial ops0 } = Except.error failure.invalid_sequence ∨
      ∃ t, run_parts fuel parts { s := initial ops0 } = Except.ok t ∧
        invariant t.s ∧
        t.resumed ++ t.s.waiting.map Prod.snd = t.enqueued ∧
        (t.s.waiting.map Prod.snd).Nodup ∧
        (t.s.waiting ≠ [] → t.s.holders ≠ []) ∧
        (∀ holder x rest, holder ∈ t.s.holders → t.s.waiting.map Prod.snd = x :: rest →
          (t.swapping = none →
            ∃ t1, apply_part fuel (part.unlock_attempt holder) t = Except.ok t1 ∧
              t1.enqueued = t.enqueued ∧
              ((t1.swapping = none ∧ t1.resumed = t.resumed ++ [x] ∧
                  t1.s.waiting.map Prod.snd = rest) ∨
                (t1.swapping = some holder ∧ t1.resumed = t.resumed ∧
                  ∃ t2, apply_part fuel (part.unlock_swap holder) t1 = Except.ok t2 ∧
                    t2.resumed = t.resumed ++ [x] ∧ t2.enqueued = t.enqueued ∧
                    t2.s.waiting.map Prod.snd = rest))) ∧
          (t.swapping = some holder →
            ∃ t2, apply_part fuel (part.unlock_swap holder) t = Except.ok t2 ∧
              t2.resumed = t.resumed ++ [x] ∧ t2.enqueued = t.enqueued ∧
              t2.s.waiting.map Prod.snd = rest))) := by
  refine ⟨unlock_split fuel, ?_⟩
  have hstart : interleaved.consistent { s := initial ops0 } :=
    ⟨initial_invariant ops0, rfl, fun c h => by cases h⟩
  rcases run_parts_spec fuel parts { s := initial ops0 } hstart
      (by simp [initial]; exact hfuel) with h | ⟨t, ht, hc, hlen⟩
  · exact Or.inl h
  right
  obtain ⟨hinv, heq, hswap⟩ := hc
  have hwl : t.s.waiting.length ≤ fuel := by
    have h0 : ({ s := initial ops0 } : interleaved).s.waiting.length = 0 := rfl
    omega
  obtain ⟨_, _, hnd, hhold⟩ := invariant_holders t.s hinv
  refine ⟨t, ht, hinv, heq, hnd, hhold, fun holder x rest hholder hmap => ?_⟩
  obtain ⟨c, tail, hweq, htail⟩ := waiting_head_of_map t.s.waiting x rest hmap
  have hswapcase : ∀ t1 : interleaved, t1.s = t.s → t1.resumed = t.resumed →
      t1.enqueued = t.enqueued → t1.swapping = some holder →
      (∀ caller, t1.swapping = some caller →
        caller ∈ t1.s.holders ∧ t1.s.m.m_waiters = 0 ∧
          t1.s.m.m_state ≠ locked_no_waiters) →
      ∃ t2, apply_part fuel (part.unlock_swap holder) t1 = Except.ok t2 ∧
        t2.resumed = t.resumed ++ [x] ∧ t2.enqueued = t.enqueued ∧
        t2.s.waiting.map Prod.snd = rest := by
    intro t1 hs1 hr1 he1 hsw1 hswap1
    have hc1 : t1.consistent := ⟨hs1 ▸ hinv, by rw [hs1, hr1, he1]; exact heq, hswap1⟩
    obtain ⟨hcaller, r, hru, hr⟩ :=
      unlock_swap_returns fuel holder t1 hc1 hsw1 (by rw [hs1]; exact hwl)
    obtain ⟨_, _, henq, _, hcons⟩ :=
      unlocked_spec fuel holder t1 r hc1.1 hc1.2.1 hcaller (by rw [hs1]; exact hwl) hr
    obtain ⟨hres, hwait⟩ := hcons c x tail (by rw [hs1]; exact hweq)
    exact ⟨t1.unlocked holder r, by simp [apply_part, hsw1, hru],
      by rw [hres, hr1], by rw [henq, he1], by rw [hwait]; exact htail⟩
  refine ⟨fun hnone => ?_, fun hsome => ?_⟩
  · obtain ⟨r, hr⟩ := unlock_returns fuel holder t.s hinv hholder hwl
    have hsplit := unlock_split fuel t.s.m
    cases hu : unlock_attempt t.s.m with
    | error e =>
      rw [hu, hr] at hsplit
      cases hsplit
    | ok o =>
      cases o with
      | none =>
        obtain ⟨_, hw, hl⟩ := (unlock_attempt_none t.s.m).mp hu
        refine ⟨{ t with swapping := some holder },
          by simp [apply_part, hnone, hholder, hu], rfl, Or.inr ⟨rfl, rfl, ?_⟩⟩
        exact hswapcase { t with swapping := some holder } rfl rfl rfl rfl
          (fun caller hcl => by
            simp only [Option.some.injEq] at hcl
            subst hcl
            exact ⟨hholder, hw, hl⟩)
      | some r1 =>
        rw [hu, hr] at hsplit
        simp only [Except.ok.injEq] at hsplit
        subst hsplit
        obtain ⟨h1, _, henq, _, hcons⟩ :=
          unlocked_spec fuel holder t r hinv heq hholder hwl hr
        obtain ⟨hres, hwait⟩ := hcons c x tail hweq
        refine ⟨t.unlocked holder r, by simp [apply_part, hnone, hholder, hu], henq,
          Or.inl ⟨?_, hres, by rw [hwait]; exact htail⟩⟩
        simp only [interleaved.unlocked]
        cases r.waiter <;> cases r.resumed <;> rfl
  · exact hswapcase t rfl rfl rfl hsome hswap

theorem waiters_resumed_in_enqueue_order_witness :
    [part.lock 1 10 0, part.lock 2 20 0, part.unlock_attempt 1, part.lock 3 30 0,
      part.unlock_swap 1].length ≤ 5 ∧
    (match run_parts 5
        [part.lock 1 10 0, part.lock 2 20 0, part.unlock_attempt 1, part.lock 3 30 0,
          part.unlock_swap 1]
        { s := initial (fun _ => {}) } with
      | Except.ok t => (t.enqueued, t.resumed, t.s.holders, t.s.waiting)
      | Except.error _ => ([], [], [], [])) = ([20, 30], [20], [2], [(3, 30)]) ∧
    unlock 5 { m_state := 20, m_waiters := 0, ops := fun _ => {} } =
      (match unlock_attempt { m_state := 20, m_waiters := 0, ops := fun _ => {} } with
      | Except.error e => Except.error e
      | Except.ok (some r) => Except.ok r
      | Except.ok none => unlock_swap 5 { m_state := 20, m_waiters := 0, ops := fun _ => {} }) :=
  ⟨by decide, rfl,
    (waiters_resumed_in_enqueue_order (fun _ => {}) 5
      [part.lock 1 10 0, part.lock 2 20 0, part.unlock_attempt 1, part.lock 3 30 0,
        part.unlock_swap 1]
      (by decide)).1 { m_state := 20, m_waiters := 0, ops := fun _ => {} }⟩

end async_mutex

namespace async_generator

/-! ### The two sides on several threads: the invariant

Each step keeps the invariant, and stops only when the side cannot take it or the consumer
advances past the end.  The proofs go through the rows of the table for the position of the
consumer. -/

@[simp] theorem advance_await_resume_value (moved_from : Option E) (f : frame E) :
    (advance_await_resume moved_from f).promise.m_currentValue = f.promise.m_currentValue := by
  unfold advance_await_resume rethrow_if_unhandled_exception
  split
  · cases f.promise.m_exception <;> rfl
  · rfl

theorem step_consumer_advances_consistent (moved_from : Option E)
    (s : threads E) (h : s.consistent) :
    match s.step moved_from move.consumer_advances with
    | Except.ok s1 => s1.consistent
    | Except.error x => x = stopped.not_enabled ∨ x = stopped.past_the_end := by
  obtain ⟨⟨⟨w, cc, ex, cv⟩, log⟩, p, c, f, e, handle⟩ := s
  obtain ⟨h1, h2⟩ := h
  rcases c with _ | _ | _ | _ | _ | ⟨_ | _ | _ | _ | _⟩ | _ | _ | _ | _ | _ |
    _ | _ | _ | _
  all_goals simp only [threads.step, consumer_step, consumer_point.in_operation, reduceCtorEq,
    if_false, if_true, or_true, true_or, and_self]
  all_goals simp only [positions_occur, Bool.false_eq_true] at h1
  all_goals unfold occur_user at h1
  all_goals split at h1
  all_goals simp at h1
  all_goals cases f
  all_goals cases e
  all_goals simp at h1 h2
  all_goals simp [threads.consistent, positions_occur, occur_user, occur_elsewhere,
    occur_ctor_store, occur_calling, occur_awaiting, occur_suspended, occur_await_resume,
    occur_handing, occur_suspend_store, occur_released, occur_left,
    threads.advance_operation, h2]

theorem step_consumer_step_consistent (moved_from : Option E)
    (s : threads E) (h : s.consistent) :
    match s.step moved_from move.consumer_step with
    | Except.ok s1 => s1.consistent
    | Except.error x => x = stopped.not_enabled ∧ s.consumer.in_operation = false := by
  obtain ⟨⟨⟨w, cc, ex, cv⟩, log⟩, p, c, f, e, handle⟩ := s
  obtain ⟨h1, h2⟩ := h
  rcases c with _ | _ | _ | _ | _ | ⟨_ | _ | _ | _ | _⟩ | _ | _ | _ | _ | _ |
    _ | _ | _ | _
  all_goals simp only [threads.step, consumer_step, consumer_point.in_operation, reduceCtorEq,
    if_false, if_true, or_true, true_or, and_self]
  all_goals simp only [positions_occur, Bool.false_eq_true] at h1
  all_goals (first
    | unfold occur_ctor_store at h1
    | unfold occur_awaiting at h1
    | unfold occur_handing at h1
    | unfold occur_suspend_store at h1
    | unfold occur_await_resume at h1)
  all_goals split at h1
  all_goals simp at h1
  all_goals cases f
  all_goals cases e
  all_goals simp at h1 h2
  all_goals simp [threads.consistent, positions_occur, occur_user, occur_elsewhere,
    occur_ctor_store, occur_calling, occur_awaiting, occur_suspended, occur_await_resume,
    occur_handing, occur_suspend_store, occur_released, occur_left,
    threads.advance_operation, threads.advance_last, threads.call_producer, threads.store,
    threads.consumer_stops, producer_point.returned, finished, h2]

theorem step_consumer_destroys_consistent (moved_from : Option E)
    (s : threads E) (h : s.consistent) :
    match s.step moved_from move.consumer_destroys with
    | Except.ok s1 => s1.consistent
    | Except.error x => x = stopped.not_enabled ∨ x = stopped.past_the_end := by
  obtain ⟨⟨⟨w, cc, ex, cv⟩, log⟩, p, c, f, e, handle⟩ := s
  obtain ⟨h1, h2⟩ := h
  rcases c with _ | _ | _ | _ | _ | ⟨_ | _ | _ | _ | _⟩ | _ | _ | _ | _ | _ |
    _ | _ | _ | _
  all_goals simp only [threads.step, consumer_step, consumer_point.in_operation, reduceCtorEq,
    if_false, if_true, or_true, true_or, and_self]
  all_goals simp only [positions_occur, Bool.false_eq_true] at h1
  all_goals unfold occur_user at h1
  all_goals split at h1
  all_goals simp at h1
  all_goals cases f
  all_goals cases e
  all_goals simp at h1 h2
  all_goals simp [threads.consistent, positions_occur, occur_user, occur_elsewhere,
    occur_ctor_store, occur_calling, occur_awaiting, occur_suspended, occur_await_resume,
    occur_handing, occur_suspend_store, occur_released, occur_left,
    destructor, request_cancellation, frame.emit, state_beq, h2]

theorem step_consumer_awaits_elsewhere_consistent (moved_from : Option E)
    (s : threads E) (h : s.consistent) :
    match s.step moved_from move.consumer_awaits_elsewhere with
    | Except.ok s1 => s1.consistent
    | Except.error x => x = stopped.not_enabled ∨ x = stopped.past_the_end := by
  obtain ⟨⟨⟨w, cc, ex, cv⟩, log⟩, p, c, f, e, handle⟩ := s
  obtain ⟨h1, h2⟩ := h
  rcases c with _ | _ | _ | _ | _ | ⟨_ | _ | _ | _ | _⟩ | _ | _ | _ | _ | _ |
    _ | _ | _ | _
  all_goals simp only [threads.step, consumer_step, consumer_point.in_operation, reduceCtorEq,
    if_false, if_true, or_true, true_or, and_self]
  all_goals simp only [positions_occur, Bool.false_eq_true] at h1
  all_goals unfold occur_user at h1
  all_goals split at h1
  all_goals simp at h1
  all_goals cases f
  all_goals cases e
  all_goals simp at h1 h2
  all_goals simp [threads.consistent, positions_occur, occur_user, occur_elsewhere,
    occur_ctor_store, occur_calling, occur_awaiting, occur_suspended, occur_await_resume,
    occur_handing, occur_suspend_store, occur_released, occur_left,
    threads.consumer_stops, producer_point.returned, h2]

theorem step_consumer_resumed_elsewhere_consistent (moved_from : Option E)
    (s : threads E) (h : s.consistent) :
    match s.step moved_from move.consumer_resumed_elsewhere with
    | Except.ok s1 => s1.consistent
    | Except.error x => x = stopped.not_enabled ∨ x = stopped.past_the_end := by
  obtain ⟨⟨⟨w, cc, ex, cv⟩, log⟩, p, c, f, e, handle⟩ := s
  obtain ⟨h1, h2⟩ := h
  rcases c with _ | _ | _ | _ | _ | ⟨_ | _ | _ | _ | _⟩ | _ | _ | _ | _ | _ |
    _ | _ | _ | _
  all_goals simp only [threads.step, consumer_step, consumer_point.in_operation, reduceCtorEq,
    if_false, if_true, or_true, true_or, and_self]
  all_goals simp only [positions_occur, Bool.false_eq_true] at h1
  all_goals unfold occur_elsewhere at h1
  all_goals split at h1
  all_goals simp at h1
  all_goals cases f
  all_goals cases e
  all_goals simp at h1 h2
  all_goals simp [threads.consistent, positions_occur, occur_user, occur_elsewhere,
    occur_ctor_store, occur_calling, occur_awaiting, occur_suspended, occur_await_resume,
    occur_handing, occur_suspend_store, occur_released, occur_left,
    h2]

theorem step_consumer_leaves_consistent (moved_from : Option E)
    (s : threads E) (h : s.consistent) :
    match s.step moved_from move.consumer_leaves with
    | Except.ok s1 => s1.consistent
    | Except.error x => x = stopped.not_enabled ∨ x = stopped.past_the_end := by
  obtain ⟨⟨⟨w, cc, ex, cv⟩, log⟩, p, c, f, e, handle⟩ := s
  obtain ⟨h1, h2⟩ := h
  rcases c with _ | _ | _ | _ | _ | ⟨_ | _ | _ | _ | _⟩ | _ | _ | _ | _ | _ |
    _ | _ | _ | _
  all_goals simp only [threads.step, consumer_step, consumer_point.in_operation, reduceCtorEq,
    if_false, if_true, or_true, true_or, and_self]
  all_goals simp only [positions_occur, Bool.false_eq_true] at h1
  all_goals unfold occur_released at h1
  all_goals split at h1
  all_goals simp at h1
  all_goals cases f
  all_goals cases e
  all_goals simp at h1 h2
  all_goals simp [threads.consistent, positions_occur, occur_user, occur_elsewhere,
    occur_ctor_store, occur_calling, occur_awaiting, occur_suspended, occur_await_resume,
    occur_handing, occur_suspend_store, occur_released, occur_left,
    threads.consumer_stops, producer_point.returned, h2]

theorem step_co_yield_consistent (moved_from : Option E) (address : Nat)
    (s : threads E) (h : s.consistent) :
    match s.step moved_from (move.co_yield address) with
    | Except.ok s1 => s1.consistent
    | Except.error x => x = stopped.not_enabled ∨ x = stopped.past_the_end := by
  obtain ⟨⟨⟨w, cc, ex, cv⟩, log⟩, p, c, f, e, handle⟩ := s
  obtain ⟨h1, h2⟩ := h
  rcases c with _ | _ | _ | _ | _ | ⟨_ | _ | _ | _ | _⟩ | _ | _ | _ | _ | _ |
    _ | _ | _ | _
  all_goals simp only [positions_occur, Bool.false_eq_true] at h1
  all_goals (first
    | unfold occur_user at h1 | unfold occur_elsewhere at h1 | unfold occur_ctor_store at h1
    | unfold occur_calling at h1 | unfold occur_awaiting at h1 | unfold occur_suspended at h1
    | unfold occur_await_resume at h1 | unfold occur_handing at h1
    | unfold occur_suspend_store at h1 | unfold occur_released at h1
    | unfold occur_left at h1)
  all_goals split at h1
  all_goals simp at h1
  all_goals try simp only [threads.step, producer_step, producer_point.in_operation,
    reduceCtorEq, if_false, if_true, or_true, true_or, and_self]
  all_goals cases f
  all_goals cases e
  all_goals simp at h1 h2
  all_goals simp [threads.consistent, positions_occur, occur_user, occur_elsewhere,
    occur_ctor_store, occur_calling, occur_awaiting, occur_suspended, occur_await_resume,
    occur_handing, occur_suspend_store, occur_released, occur_left,
    store_value, h2]

theorem step_body_returns_consistent (moved_from : Option E)
    (s : threads E) (h : s.consistent) :
    match s.step moved_from move.body_returns with
    | Except.ok s1 => s1.consistent
    | Except.error x => x = stopped.not_enabled ∨ x = stopped.past_the_end := by
  obtain ⟨⟨⟨w, cc, ex, cv⟩, log⟩, p, c, f, e, handle⟩ := s
  obtain ⟨h1, h2⟩ := h
  rcases c with _ | _ | _ | _ | _ | ⟨_ | _ | _ | _ | _⟩ | _ | _ | _ | _ | _ |
    _ | _ | _ | _
  all_goals simp only [positions_occur, Bool.false_eq_true] at h1
  all_goals (first
    | unfold occur_user at h1 | unfold occur_elsewhere at h1 | unfold occur_ctor_store at h1
    | unfold occur_calling at h1 | unfold occur_awaiting at h1 | unfold occur_suspended at h1
    | unfold occur_await_resume at h1 | unfold occur_handing at h1
    | unfold occur_suspend_store at h1 | unfold occur_released at h1
    | unfold occur_left at h1)
  all_goals split at h1
  all_goals simp at h1
  all_goals try simp only [threads.step, producer_step, producer_point.in_operation,
    reduceCtorEq, if_false, if_true, or_true, true_or, and_self]
  all_goals cases f
  all_goals cases e
  all_goals simp at h1 h2
  all_goals simp [threads.consistent, positions_occur, occur_user, occur_elsewhere,
    occur_ctor_store, occur_calling, occur_awaiting, occur_suspended, occur_await_resume,
    occur_handing, occur_suspend_store, occur_released, occur_left,
    store_value, h2]

theorem step_body_throws_consistent (moved_from : Option E) (x0 : E)
    (s : threads E) (h : s.consistent) :
    match s.step moved_from (move.body_throws x0) with
    | Except.ok s1 => s1.consistent
    | Except.error x => x = stopped.not_enabled ∨ x = stopped.past_the_end := by
  obtain ⟨⟨⟨w, cc, ex, cv⟩, log⟩, p, c, f, e, handle⟩ := s
  obtain ⟨h1, h2⟩ := h
  rcases c with _ | _ | _ | _ | _ | ⟨_ | _ | _ | _ | _⟩ | _ | _ | _ | _ | _ |
    _ | _ | _ | _
  all_goals simp only [positions_occur, Bool.false_eq_true] at h1
  all_goals (first
    | unfold occur_user at h1 | unfold occur_elsewhere at h1 | unfold occur_ctor_store at h1
    | unfold occur_calling at h1 | unfold occur_awaiting at h1 | unfold occur_suspended at h1
    | unfold occur_await_resume at h1 | unfold occur_handing at h1
    | unfold occur_suspend_store at h1 | unfold occur_released at h1
    | unfold occur_left at h1)
  all_goals split at h1
  all_goals simp at h1
  all_goals try simp only [threads.step, producer_step, producer_point.in_operation,
    reduceCtorEq, if_false, if_true, or_true, true_or, and_self]
  all_goals cases f
  all_goals cases e
  all_goals simp at h1 h2
  all_goals simp [threads.consistent, positions_occur, occur_user, occur_elsewhere,
    occur_ctor_store, occur_calling, occur_awaiting, occur_suspended, occur_await_resume,
    occur_handing, occur_suspend_store, occur_released, occur_left,
    store_value, unhandled_exception, h2]

theorem step_producer_step_consistent (moved_from : Option E)
    (s : threads E) (h : s.consistent) :
    match s.step moved_from move.producer_step with
    | Except.ok s1 => s1.consistent
    | Except.error x => x = stopped.not_enabled ∧ s.producer.in_operation = false := by
  obtain ⟨⟨⟨w, cc, ex, cv⟩, log⟩, p, c, f, e, handle⟩ := s
  obtain ⟨h1, h2⟩ := h
  rcases c with _ | _ | _ | _ | _ | ⟨_ | _ | _ | _ | _⟩ | _ | _ | _ | _ | _ |
    _ | _ | _ | _
  all_goals simp only [positions_occur, Bool.false_eq_true] at h1
  all_goals (first
    | unfold occur_user at h1 | unfold occur_elsewhere at h1 | unfold occur_ctor_store at h1
    | unfold occur_calling at h1 | unfold occur_awaiting at h1 | unfold occur_suspended at h1
    | unfold occur_await_resume at h1 | unfold occur_handing at h1
    | unfold occur_suspend_store at h1 | unfold occur_released at h1
    | unfold occur_left at h1)
  all_goals split at h1
  all_goals simp at h1
  all_goals try simp only [threads.step, producer_step, producer_point.in_operation,
    reduceCtorEq, if_false, if_true, or_true, true_or, and_self]
  all_goals cases f
  all_goals cases e
  all_goals simp at h1 h2
  all_goals simp [threads.consistent, positions_occur, occur_user, occur_elsewhere,
    occur_ctor_store, occur_calling, occur_awaiting, occur_suspended, occur_await_resume,
    occur_handing, occur_suspend_store, occur_released, occur_left,
    threads.yield_operation, threads.yield_second_if, threads.yield_cancelled, threads.goes_on,
    threads.call_consumer, threads.store, threads.producer_stops, consumer_point.returned,
    frame.emit, h2]

theorem step_producer_awaits_elsewhere_consistent (moved_from : Option E)
    (s : threads E) (h : s.consistent) :
    match s.step moved_from move.producer_awaits_elsewhere with
    | Except.ok s1 => s1.consistent
    | Except.error x => x = stopped.not_enabled ∨ x = stopped.past_the_end := by
  obtain ⟨⟨⟨w, cc, ex, cv⟩, log⟩, p, c, f, e, handle⟩ := s
  obtain ⟨h1, h2⟩ := h
  rcases c with _ | _ | _ | _ | _ | ⟨_ | _ | _ | _ | _⟩ | _ | _ | _ | _ | _ |
    _ | _ | _ | _
  all_goals simp only [positions_occur, Bool.false_eq_true] at h1
  all_goals (first
    | unfold occur_user at h1 | unfold occur_elsewhere at h1 | unfold occur_ctor_store at h1
    | unfold occur_calling at h1 | unfold occur_awaiting at h1 | unfold occur_suspended at h1
    | unfold occur_await_resume at h1 | unfold occur_handing at h1
    | unfold occur_suspend_store at h1 | unfold occur_released at h1
    | unfold occur_left at h1)
  all_goals split at h1
  all_goals simp at h1
  all_goals try simp only [threads.step, producer_step, producer_point.in_operation,
    reduceCtorEq, if_false, if_true, or_true, true_or, and_self]
  all_goals cases f
  all_goals cases e
  all_goals simp at h1 h2
  all_goals simp [threads.consistent, positions_occur, occur_user, occur_elsewhere,
    occur_ctor_store, occur_calling, occur_awaiting, occur_suspended, occur_await_resume,
    occur_handing, occur_suspend_store, occur_released, occur_left,
    threads.producer_stops, consumer_point.returned, h2]

theorem step_producer_resumed_elsewhere_consistent (moved_from : Option E)
    (s : threads E) (h : s.consistent) :
    match s.step moved_from move.producer_resumed_elsewhere with
    | Except.ok s1 => s1.consistent
    | Except.error x => x = stopped.not_enabled ∨ x = stopped.past_the_end := by
  obtain ⟨⟨⟨w, cc, ex, cv⟩, log⟩, p, c, f, e, handle⟩ := s
  obtain ⟨h1, h2⟩ := h
  rcases c with _ | _ | _ | _ | _ | ⟨_ | _ | _ | _ | _⟩ | _ | _ | _ | _ | _ |
    _ | _ | _ | _
  all_goals simp only [positions_occur, Bool.false_eq_true] at h1
  all_goals (first
    | unfold occur_user at h1 | unfold occur_elsewhere at h1 | unfold occur_ctor_store at h1
    | unfold occur_calling at h1 | unfold occur_awaiting at h1 | unfold occur_suspended at h1
    | unfold occur_await_resume at h1 | unfold occur_handing at h1
    | unfold occur_suspend_store at h1 | unfold occur_released at h1
    | unfold occur_left at h1)
  all_goals split at h1
  all_goals simp at h1
  all_goals try simp only [threads.step, producer_step, producer_point.in_operation,
    reduceCtorEq, if_false, if_true, or_true, true_or, and_self]
  all_goals cases f
  all_goals cases e
  all_goals simp at h1 h2
  all_goals simp [threads.consistent, positions_occur, occur_user, occur_elsewhere,
    occur_ctor_store, occur_calling, occur_awaiting, occur_suspended, occur_await_resume,
    occur_handing, occur_suspend_store, occur_released, occur_left,
    h2]

theorem step_consistent (moved_from : Option E) (s : threads E) (m : move E)
    (h : s.consistent) :
    match s.step moved_from m with
    | Except.ok s1 => s1.consistent
    | Except.error x => x = stopped.not_enabled ∨ x = stopped.past_the_end := by
  cases m with
  | consumer_advances => exact step_consumer_advances_consistent moved_from s h
  | consumer_step =>
    have hs := step_consumer_step_consistent moved_from s h
    cases hr : s.step moved_from move.consumer_step with
    | ok s1 => rw [hr] at hs; exact hs
    | error x => rw [hr] at hs; exact Or.inl hs.1
  | consumer_destroys => exact step_consumer_destroys_consistent moved_from s h
  | consumer_awaits_elsewhere => exact step_consumer_awaits_elsewhere_consistent moved_from s h
  | consumer_resumed_elsewhere =>
    exact step_consumer_resumed_elsewhere_consistent moved_from s h
  | consumer_leaves => exact step_consumer_leaves_consistent moved_from s h
  | co_yield address => exact step_co_yield_consistent moved_from address s h
  | body_returns => exact step_body_returns_consistent moved_from s h
  | body_throws x0 => exact step_body_throws_consistent moved_from x0 s h
  | producer_step =>
    have hs := step_producer_step_consistent moved_from s h
    cases hr : s.step moved_from move.producer_step with
    | ok s1 => rw [hr] at hs; exact hs
    | error x => rw [hr] at hs; exact Or.inl hs.1
  | producer_awaits_elsewhere => exact step_producer_awaits_elsewhere_consistent moved_from s h
  | producer_resumed_elsewhere =>
    exact step_producer_resumed_elsewhere_consistent moved_from s h

theorem run_consistent (moved_from : Option E) (moves : List (move E)) :
    ∀ s : threads E, s.consistent →
      match threads.run moved_from s moves with
      | Except.ok s1 => s1.consistent
      | Except.error x => x = stopped.not_enabled ∨ x = stopped.past_the_end := by
  induction moves with
  | nil => intro s h; exact h
  | cons m rest ih =>
    intro s h
    have hs := step_consistent moved_from s m h
    cases hr : s.step moved_from m with
    | error x =>
      rw [hr] at hs
      simp only [threads.run, hr]
      exact hs
    | ok s1 =>
      rw [hr] at hs
      simp only [threads.run, hr]
      exact ih s1 hs

theorem initial_consistent : ({} : threads E).consistent := by
  simp [threads.consistent, positions_occur, occur_user]

theorem consistent_spec (s : threads E) (h : s.consistent) :
    (s.producer.in_body && s.consumer.in_user) = false ∧
    (s.producer.in_operation = false → s.consumer.in_operation = false →
      s.producer ≠ producer_point.elsewhere → s.consumer.waits_elsewhere = false →
      xor s.producer.in_body s.consumer.in_user = true) ∧
    (s.producer.in_body = true →
      (s.frame.promise.m_state = state.value_not_ready_consumer_active ∨
        s.frame.promise.m_state = state.value_not_ready_consumer_suspended) ∧
      (s.consumer = consumer_point.suspended ∨ s.consumer = consumer_point.ctor_resume ∨
        s.consumer = consumer_point.suspend_resume ∨ s.consumer.in_operation = true)) ∧
    (s.consumer.in_user = true →
      (s.frame.promise.m_state = state.value_ready_producer_suspended ∨
        s.frame.promise.m_state = state.value_ready_producer_active ∨
        s.frame.promise.m_state = state.cancelled) ∧
      (s.producer = producer_point.not_started ∨ s.producer = producer_point.suspended ∨
        s.producer = producer_point.destroyed ∨ s.producer = producer_point.internal_resume ∨
        s.producer = producer_point.suspend_resume ∨ s.producer.in_operation = true)) ∧
    (s.frame.promise.m_state = state.value_not_ready_consumer_suspended ↔
      s.consumer = consumer_point.suspended) := by
  obtain ⟨⟨⟨w, cc, ex, cv⟩, log⟩, p, c, f, e, handle⟩ := s
  obtain ⟨h1, -⟩ := h
  rcases c with _ | _ | _ | _ | _ | ⟨_ | _ | _ | _ | _⟩ | _ | _ | _ | _ | _ |
    _ | _ | _ | _
  all_goals simp only [positions_occur, Bool.false_eq_true] at h1
  all_goals (first
    | unfold occur_user at h1 | unfold occur_elsewhere at h1 | unfold occur_ctor_store at h1
    | unfold occur_calling at h1 | unfold occur_awaiting at h1 | unfold occur_suspended at h1
    | unfold occur_await_resume at h1 | unfold occur_handing at h1
    | unfold occur_suspend_store at h1 | unfold occur_released at h1
    | unfold occur_left at h1)
  all_goals split at h1
  all_goals simp at h1
  all_goals simp [producer_point.in_body, producer_point.in_operation, consumer_point.in_user,
    consumer_point.in_operation, consumer_point.waits_elsewhere]

/-- Claim C19, as the code has it.  The two sides are followed instruction by instruction, a
side that waits on something else being resumed from there at any time, also while the other
side executes.  For every sequence of steps from the initial state: no assertion of the
source fails and no coroutine is resumed that is not suspended (a sequence stops only at a
step the side cannot take, or at an advance after the end iterator was given).  In every
state reached the producer in its body and the consumer in user code never both run, the
state word telling them apart.  When no side is executing an instruction of an advance or
yield operation and no side waits on something else, exactly one of the two runs: the
producer its body, or the consumer user code.  While one side runs, the other is suspended in
the generator, not started, destroyed, inside the `resume()` call that runs the first, or
executing an instruction of its operation on another thread.  The consumer is suspended in the
generator exactly while the state is `value_not_ready_consumer_suspended`, so that with the
producer waiting on something else nobody runs.  A side inside an operation always has a next
instruction which it can execute. -/
theorem alternation_in_every_interleaving (moved_from : Option E) (moves : List (move E)) :
    (∀ x, threads.run moved_from {} moves = Except.error x →
      x = stopped.not_enabled ∨ x = stopped.past_the_end) ∧
    (∀ s, threads.run moved_from {} moves = Except.ok s →
      (s.producer.in_body && s.consumer.in_user) = false ∧
      (s.producer.in_operation = false → s.consumer.in_operation = false →
        s.producer ≠ producer_point.elsewhere → s.consumer.waits_elsewhere = false →
        xor s.producer.in_body s.consumer.in_user = true) ∧
      (s.producer.in_body = true →
        (s.frame.promise.m_state = state.value_not_ready_consumer_active ∨
          s.frame.promise.m_state = state.value_not_ready_consumer_suspended) ∧
        (s.consumer = consumer_point.suspended ∨ s.consumer = consumer_point.ctor_resume ∨
          s.consumer = consumer_point.suspend_resume ∨ s.consumer.in_operation = true)) ∧
      (s.consumer.in_user = true →
        (s.frame.promise.m_state = state.value_ready_producer_suspended ∨
          s.frame.promise.m_state = state.value_ready_producer_active ∨
          s.frame.promise.m_state = state.cancelled) ∧
        (s.producer = producer_point.not_started ∨ s.producer = producer_point.suspended ∨
          s.producer = producer_point.destroyed ∨
          s.producer = producer_point.internal_resume ∨
          s.producer = producer_point.suspend_resume ∨ s.producer.in_operation = true)) ∧
      (s.frame.promise.m_state = state.value_not_ready_consumer_suspended ↔
        s.consumer = consumer_point.suspended) ∧
      (s.producer.in_operation = true →
        ∃ s1, s.step moved_from move.producer_step = Except.ok s1) ∧
      (s.consumer.in_operation = true →
        ∃ s1, s.step moved_from move.consumer_step = Except.ok s1)) := by
  have hrun := run_consistent moved_from moves {} initial_consistent
  refine ⟨fun x hx => ?_, fun s hs => ?_⟩
  · rw [hx] at hrun
    exact hrun
  · rw [hs] at hrun
    have hspec := consistent_spec s hrun
    refine ⟨hspec.1, hspec.2.1, hspec.2.2.1, hspec.2.2.2.1, hspec.2.2.2.2, fun hp => ?_,
      fun hc => ?_⟩
    · have hstep := step_producer_step_consistent moved_from s hrun
      cases hr : s.step moved_from move.producer_step with
      | ok s1 => exact ⟨s1, rfl⟩
      | error x =>
        rw [hr] at hstep
        rw [hstep.2] at hp
        exact absurd hp (by decide)
    · have hstep := step_consumer_step_consistent moved_from s hrun
      cases hr : s.step moved_from move.consumer_step with
      | ok s1 => exact ⟨s1, rfl⟩
      | error x =>
        rw [hr] at hstep
        rw [hstep.2] at hc
        exact absurd hc (by decide)

/-- Three runs on two threads.  The producer, resumed by the advance, waits on something
else; the consumer goes on in its operation.  In the first run another thread resumes the
producer while the consumer is still inside `await_suspend`: both sides execute, the producer
its body and the consumer library code.  In the second the consumer completes its
compare-exchange and is suspended while the producer still waits: nobody runs.  In the third
the producer is resumed after that and alone runs. -/
theorem alternation_in_every_interleaving_witness :
    threads.run none ({} : threads Nat)
        [move.consumer_advances, move.consumer_step, move.producer_awaits_elsewhere,
          move.consumer_step, move.producer_resumed_elsewhere] =
      Except.ok { frame := { promise := { m_state := state.value_not_ready_consumer_active },
                             log := [effect.resume_producer] },
                  producer := producer_point.body,
                  consumer :=
                    consumer_point.suspend_enter state.value_not_ready_consumer_active } ∧
    threads.run none ({} : threads Nat)
        [move.consumer_advances, move.consumer_step, move.producer_awaits_elsewhere,
          move.consumer_step, move.consumer_step, move.consumer_step] =
      Except.ok { frame := { promise := { m_state := state.value_not_ready_consumer_suspended,
                                          m_consumerCoroutine := 1 },
                             log := [effect.resume_producer] },
                  producer := producer_point.elsewhere,
                  consumer := consumer_point.suspended } ∧
    threads.run none ({} : threads Nat)
        [move.consumer_advances, move.consumer_step, move.producer_awaits_elsewhere,
          move.consumer_step, move.consumer_step, move.consumer_step,
          move.producer_resumed_elsewhere] =
      Except.ok { frame := { promise := { m_state := state.value_not_ready_consumer_suspended,
                                          m_consumerCoroutine := 1 },
                             log := [effect.resume_producer] },
                  producer := producer_point.body,
                  consumer := consumer_point.suspended } ∧
    xor (producer_point.in_body producer_point.body)
      (consumer_point.in_user consumer_point.suspended) = true :=
  ⟨rfl, rfl, rfl,
    ((alternation_in_every_interleaving (none : Option Nat)
      [move.consumer_advances, move.consumer_step, move.producer_awaits_elsewhere,
        move.consumer_step, move.consumer_step, move.consumer_step,
        move.producer_resumed_elsewhere]).2
      { frame := { promise := { m_state := state.value_not_ready_consumer_suspended,
                                m_consumerCoroutine := 1 },
                   log := [effect.resume_producer] },
        producer := producer_point.body,
        consumer := consumer_point.suspended } rfl).2.1 rfl rfl (by decide) rfl⟩

end async_generator

end ssh
